import Mathlib

/-!
Lunar lander: terrain, lander body, collision test and outcome classifier.

A shallow embedding of `src/Main.cpp`.

Modelling conventions.

* A value of a C++ `float` or `double` is a value of `Fl`: a finite rational
  number, an infinity with its sign, or NaN.  Every arithmetic operation of
  the program is one operation of `Fl`: the exact result of the operation,
  rounded once to the format of its type (binary32 for `float`, binary64 for
  `double`) to the nearest value, a tie to the even significand, with gradual
  underflow and with overflow to an infinity.  No two operations are fused and
  nothing is kept in a wider format.  A comparison with a NaN operand is
  false.  The one thing that is not kept is the sign of a zero; the program
  reads it only in a division by a zero, whose sign is taken here from the
  dividend.
* An `int` operand of a `float` operation is converted to `float` first
  (`Fl.ofInt`).  In `x -= 0.00000001f * xVelocity` the operand `xVelocity` is
  a `double`: the product and the difference are binary64 operations, and the
  assignment converts the result to `float` (`Terrain.scroll`).
* `std::uniform_int_distribution` draws are modelled by an oracle: the
  generator is an infinite stream of draws, each draw carrying one value of
  each distribution inside its range.
* The `while (true)` loop of `GenerateTerrain` is run with fuel; `none` is
  "no result" (fuel exhausted, or the read of the last vertex of an empty
  vertex array).
* `sin` and `cos` of `<math.h>` are parameters of `Lander.UpdatePosition`;
  the frame loop takes them, and the SFML calls it makes, from a `Library`.
-/

namespace LunarLander

/-! # Definitions -/

/-! ## Rounding -/

/-- Round to the nearest integer, a tie to the even one. -/
def rne (x : ℚ) : ℤ :=
  if x - ⌊x⌋ < 1 / 2 then ⌊x⌋
  else if 1 / 2 < x - ⌊x⌋ then ⌊x⌋ + 1
  else if ⌊x⌋ % 2 = 0 then ⌊x⌋ else ⌊x⌋ + 1

/-- A binary floating-point format: the number of significand bits, the
exponent of the smallest positive (subnormal) value, and the exponent of the
overflow threshold. -/
structure Format where
  prec : ℕ
  emin : ℤ
  emax : ℤ

def binary32 : Format := ⟨24, -149, 128⟩
def binary64 : Format := ⟨53, -1074, 1024⟩

/-- The exponent of the unit in the last place at `q`. -/
def ulpExp (f : Format) (q : ℚ) : ℤ := max (Int.log 2 |q| - ((f.prec : ℤ) - 1)) f.emin

/-- Round to nearest, ties to even, with unbounded exponent range above. -/
def roundTo (f : Format) (q : ℚ) : ℚ := rne (q / 2 ^ ulpExp f q) * 2 ^ ulpExp f q

/-- The values `m * 2 ^ e` with `|m| < 2 ^ prec` and `emin <= e`: the values
that the format represents (the exponent range is unbounded above). -/
def IsRep (f : Format) (r : ℚ) : Prop :=
  ∃ m e : ℤ, |m| < 2 ^ f.prec ∧ f.emin ≤ e ∧ r = m * 2 ^ e

/-! ## Floating-point values -/

/-- A value of a C++ `float` or `double`: a finite rational, an infinity with
its sign, or NaN.  The sign of a zero is not kept. -/
inductive Fl where
  | fin (q : ℚ)
  | inf (neg : Bool)
  | nan
  deriving DecidableEq, Repr

namespace Fl

/-- The value that the format stores for the real number `q`. -/
def round (f : Format) (q : ℚ) : Fl :=
  if (2 : ℚ) ^ f.emax ≤ |roundTo f q| then inf (decide (q < 0)) else fin (roundTo f q)

/-- Conversion of an `int` to `float`. -/
def ofInt (n : ℤ) : Fl := round binary32 n

/-- Unary minus. -/
def neg : Fl → Fl
  | fin q => fin (-q)
  | inf s => inf (!s)
  | nan => nan

/-- The function `abs` on a `float`. -/
def abs : Fl → Fl
  | fin q => fin |q|
  | inf _ => inf false
  | nan => nan

/-- Addition in the format `f`. -/
def add (f : Format) : Fl → Fl → Fl
  | fin a, fin b => round f (a + b)
  | fin _, inf s => inf s
  | inf s, fin _ => inf s
  | inf s, inf s' => if s = s' then inf s else nan
  | _, _ => nan

/-- Subtraction in the format `f`. -/
def sub (f : Format) (a b : Fl) : Fl := add f a (neg b)

/-- Multiplication in the format `f`. -/
def mul (f : Format) : Fl → Fl → Fl
  | fin a, fin b => round f (a * b)
  | fin a, inf s => if a = 0 then nan else inf (xor (decide (a < 0)) s)
  | inf s, fin b => if b = 0 then nan else inf (xor s (decide (b < 0)))
  | inf s, inf s' => inf (xor s s')
  | _, _ => nan

/-- Division in the format `f`.  A finite non-zero value divided by zero is an
infinity; its sign is taken from the dividend (the sign of the zero is not
kept). -/
def div (f : Format) : Fl → Fl → Fl
  | fin a, fin b =>
    if b = 0 then (if a = 0 then nan else inf (decide (a < 0))) else round f (a / b)
  | fin _, inf _ => fin 0
  | inf s, fin b => inf (xor s (decide (b < 0)))
  | _, _ => nan

/-- The comparison `a < b`; false when an operand is NaN. -/
def lt : Fl → Fl → Bool
  | fin a, fin b => decide (a < b)
  | fin _, inf s => !s
  | inf s, fin _ => s
  | inf s, inf s' => s && !s'
  | _, _ => false

/-- The comparison `a <= b`; false when an operand is NaN. -/
def le : Fl → Fl → Bool
  | fin a, fin b => decide (a ≤ b)
  | fin _, inf s => !s
  | inf s, fin _ => s
  | inf s, inf s' => s || !s'
  | _, _ => false

/-- Conversion of a `double` to `float`. -/
def toFloat : Fl → Fl
  | fin q => round binary32 q
  | inf s => inf s
  | nan => nan

end Fl

/-- The `float` operations `+`, `-`, `*`, `/`, unary `-`, `<` and `<=`;
`a > b` is `b < a` and `a >= b` is `b <= a`. -/
instance : Add Fl := ⟨Fl.add binary32⟩
instance : Sub Fl := ⟨Fl.sub binary32⟩
instance : Mul Fl := ⟨Fl.mul binary32⟩
instance : Div Fl := ⟨Fl.div binary32⟩
instance : Neg Fl := ⟨Fl.neg⟩
instance : LT Fl := ⟨fun a b => Fl.lt a b = true⟩
instance : LE Fl := ⟨fun a b => Fl.le a b = true⟩
instance (a b : Fl) : Decidable (a < b) := inferInstanceAs (Decidable (Fl.lt a b = true))
instance (a b : Fl) : Decidable (a ≤ b) := inferInstanceAs (Decidable (Fl.le a b = true))

/-! ## Constants -/

def GRAVITY : ℤ := 4
def THRUSTER_FORCE : ℤ := 10
def INITIAL_HORIZONTAL_SPEED : ℤ := 200000
def MAX_HORIZONTAL_LANDING_SPEED : ℤ := 70000
def MAX_VERTICAL_LANDING_SPEED : ℤ := 60000

/-- The `float` literal `0.00000001f` that scales a velocity to a displacement
per tick. -/
def scrollFactor : Fl := Fl.round binary32 (1 / 100000000)

/-- The `float` literal `3.14159f`. -/
def pi32 : Fl := Fl.round binary32 (314159 / 100000)

/-! ## Vectors -/

/-- The type `sf::Vector2f`. -/
structure Vector2f where
  x : Fl
  y : Fl
  deriving DecidableEq, Repr

namespace Vector2f

/-- Component-wise `operator+` of `sf::Vector2f`. -/
def add (a b : Vector2f) : Vector2f := ⟨a.x + b.x, a.y + b.y⟩

/-- Scalar multiple `k * v` of `sf::Vector2f`. -/
def smul (k : Fl) (v : Vector2f) : Vector2f := ⟨v.x * k, v.y * k⟩

end Vector2f

/-! ## Lander -/

/-- The state of `class Lander` that the simulation reads and writes: the
sprite position and rotation (degrees) and the two data members. -/
structure Lander where
  position : Vector2f
  rotation : Fl
  thrustersOn : Bool
  currentSpeed : Vector2f
  deriving DecidableEq, Repr

namespace Lander

/-- The member `gravityForce { 0, GRAVITY }`. -/
def gravityForce : Vector2f := ⟨Fl.ofInt 0, Fl.ofInt GRAVITY⟩

/-- The local `rotationRad` of `UpdatePosition`:
`getRotation() * (2 * 3.14159f) / 360.f`. -/
def rotationRad (l : Lander) : Fl := l.rotation * (Fl.ofInt 2 * pi32) / Fl.ofInt 360

/-- The local `boosterForce` of `UpdatePosition`: zero-initialised, and
overwritten when the thrusters are on.  The calls `sin(rotationRad)` and
`cos(rotationRad)` have a `float` argument and select the `float` overloads
that `<math.h>` declares in C++. -/
def boosterForce (sin cos : Fl → Fl) (l : Lander) : Vector2f :=
  if l.thrustersOn then
    ⟨Fl.ofInt THRUSTER_FORCE * sin l.rotationRad, Fl.ofInt (-THRUSTER_FORCE) * cos l.rotationRad⟩
  else ⟨Fl.ofInt 0, Fl.ofInt 0⟩

/-- The method `Lander::UpdatePosition`. -/
def UpdatePosition (sin cos : Fl → Fl) (l : Lander) : Lander :=
  let totalForce := gravityForce.add (boosterForce sin cos l)
  let currentSpeed := l.currentSpeed.add totalForce
  let newPos := l.position.add (Vector2f.smul scrollFactor currentSpeed)
  let newPos : Vector2f := ⟨l.position.x, newPos.y⟩
  { l with currentSpeed := currentSpeed, position := newPos }

/-- The method `Lander::setThrustersOn`. -/
def setThrustersOn (l : Lander) (b : Bool) : Lander := { l with thrustersOn := b }

/-- The method `Lander::GetCurrentSpeed`. -/
def GetCurrentSpeed (l : Lander) : Vector2f := l.currentSpeed

/-- The lander after `n` calls of `UpdatePosition`. -/
def UpdatePositionN (sin cos : Fl → Fl) : Nat → Lander → Lander
  | 0, l => l
  | n + 1, l => UpdatePositionN sin cos n (UpdatePosition sin cos l)

end Lander

/-- The lander of `main` when the frame loop is entered: at
`(800 / 2, 600 / 3) = (400, 200)`, rotation 0, thrusters off, velocity
`(INITIAL_HORIZONTAL_SPEED, 0)`. -/
def initialLander : Lander :=
  ⟨⟨Fl.ofInt 400, Fl.ofInt 200⟩, Fl.ofInt 0, false, ⟨Fl.ofInt INITIAL_HORIZONTAL_SPEED, Fl.ofInt 0⟩⟩

/-! ## Terrain -/

/-- The function `std::max`. -/
def stdMax (a b : Fl) : Fl := if a < b then b else a

/-- The function `std::min`. -/
def stdMin (a b : Fl) : Fl := if b < a then b else a

/-- One round of draws from the random generator, as one pass of the loop of
`GenerateTerrain` makes them: a value of `isFlat(0, 4)`, of `yDist(-80, 80)`
(read only when `isFlat` is not 0) and of `xDist(20, 40)`, each inside its
range. -/
structure Draw where
  isFlat : ℤ
  yDist : ℤ
  xDist : ℤ
  isFlat_range : 0 ≤ isFlat ∧ isFlat ≤ 4
  yDist_range : -80 ≤ yDist ∧ yDist ≤ 80
  xDist_range : 20 ≤ xDist ∧ xDist ≤ 40

/-- The state of `class Terrain`: the vertex positions of the line strip,
the three float members set by the constructor, and the generator as the
stream of the draws it is still going to give. -/
structure Terrain where
  vertices : List Vector2f
  width : Fl
  maxY : Fl
  minY : Fl
  generator : Nat → Draw

namespace Terrain

/-- The method `Terrain::AddVertex`: append a vertex at the end. -/
def AddVertex (t : Terrain) (x y : Fl) : Terrain :=
  { t with vertices := t.vertices ++ [⟨x, y⟩] }

/-- The constructor `Terrain(_width, startY, _maxY, _minY)`, seeded with `generator`. -/
def new (width startY maxY minY : Fl) (generator : Nat → Draw) : Terrain :=
  AddVertex { vertices := [], width := width, maxY := maxY, minY := minY,
              generator := generator } (Fl.ofInt 0) startY

/-- The method `Terrain::GenerateTerrain`; `fuel` bounds the number of times
the loop head is reached. -/
def GenerateTerrain : Nat → Terrain → Option Terrain
  | 0, _ => none
  | fuel + 1, t =>
    match t.vertices.getLast? with
    | none => none
    | some lastPoint =>
      if lastPoint.x ≥ t.width then some t
      else
        let draw := t.generator 0
        let deltaY : Fl := Fl.ofInt (if draw.isFlat = 0 then 0 else draw.yDist)
        let newX : Fl := lastPoint.x + Fl.ofInt draw.xDist
        let newY : Fl := lastPoint.y + deltaY
        let newY : Fl := stdMax t.minY (stdMin newY t.maxY)
        GenerateTerrain fuel
          (AddVertex { t with generator := fun n => t.generator (n + 1) } newX newY)

/-- The statement `x -= 0.00000001f * xVelocity` of `Update`: `xVelocity` is
a `double`, so the product and the difference are computed in `double`, and
the result is converted to `float` by the assignment. -/
def scroll (xVelocity : Fl) (x : Fl) : Fl :=
  Fl.toFloat (Fl.sub binary64 x (Fl.mul binary64 scrollFactor xVelocity))

/-- The method `Terrain::Update`. -/
def Update (fuel : Nat) (t : Terrain) (xVelocity : Fl) : Option Terrain :=
  GenerateTerrain fuel
    { t with vertices := t.vertices.map fun v => ⟨scroll xVelocity v.x, v.y⟩ }

/-- A sequence of `Update` calls, one for each velocity of the list. -/
def UpdateAll (fuel : Nat) : Terrain → List Fl → Option Terrain
  | t, [] => some t
  | t, xVelocity :: rest =>
    match Update fuel t xVelocity with
    | none => none
    | some t' => UpdateAll fuel t' rest

end Terrain

/-- The terrain that `main` constructs: `Terrain(800, 3 * 600 / 4, 600 - 20,
600 / 5)`, that is `Terrain(800, 450, 580, 120)`. -/
def mainTerrain (generator : Nat → Draw) : Terrain :=
  Terrain.new (Fl.ofInt 800) (Fl.ofInt 450) (Fl.ofInt 580) (Fl.ofInt 120) generator

/-- A round of draws: `isFlat` gives 0 (flat), `xDist` gives 40. -/
def flatDraw : Draw := ⟨0, 0, 40, by decide, by decide, by decide⟩

/-- A generator that gives `flatDraw` at every round. -/
def steadyGenerator : Nat → Draw := fun _ => flatDraw

/-! ## Segment intersection -/

/-- The denominator that `LinesIntersect` computes for `uA` and `uB`. -/
def denominator (x1 y1 x2 y2 x3 y3 x4 y4 : Fl) : Fl :=
  (y4 - y3) * (x2 - x1) - (x4 - x3) * (y2 - y1)

/-- The function `LinesIntersect`. -/
def LinesIntersect (x1 y1 x2 y2 x3 y3 x4 y4 : Fl) : Bool :=
  let uA := ((x4 - x3) * (y1 - y3) - (y4 - y3) * (x1 - x3)) /
    ((y4 - y3) * (x2 - x1) - (x4 - x3) * (y2 - y1))
  let uB := ((x2 - x1) * (y1 - y3) - (y2 - y1) * (x1 - x3)) /
    ((y4 - y3) * (x2 - x1) - (x4 - x3) * (y2 - y1))
  if uA ≥ Fl.ofInt 0 ∧ uA ≤ Fl.ofInt 1 ∧ uB ≥ Fl.ofInt 0 ∧ uB ≤ Fl.ofInt 1 then true
  else false

/-! ## Outcome classifier -/

/-- The function `Crashed`: `true` is the outcome Crashed, `false` is Landed.
The call `abs(from.y - to.y)` has a `float` argument and selects the `float`
overload that `<math.h>` declares in C++. -/
def Crashed (pFrom pTo : Vector2f) (lander : Lander) : Bool :=
  if Fl.abs (pFrom.y - pTo.y) > Fl.ofInt 2 then true
  else if lander.GetCurrentSpeed.x > Fl.ofInt MAX_HORIZONTAL_LANDING_SPEED then true
  else if lander.GetCurrentSpeed.y > Fl.ofInt MAX_VERTICAL_LANDING_SPEED then true
  else false

/-! ## The frame loop of `main` -/

/-- The type `sf::FloatRect`. -/
structure FloatRect where
  left : Fl
  top : Fl
  width : Fl
  height : Fl
  deriving DecidableEq, Repr

/-- The library functions that `main` and `Lander` call and whose code is not
part of the repository: `sin` and `cos` of `<math.h>`, the new rotation angle
that `sf::Transformable::rotate` gives from the old angle and the argument,
and `sf::Sprite::getGlobalBounds` of the lander sprite. -/
structure Library where
  sin : Fl → Fl
  cos : Fl → Fl
  rotate : Fl → Fl → Fl
  getGlobalBounds : Lander → FloatRect

/-- The call `lander.rotate(angle)`: only the rotation of the sprite changes. -/
def Lander.rotate (lib : Library) (l : Lander) (angle : Fl) : Lander :=
  { l with rotation := lib.rotate l.rotation angle }

/-- The fill colours of the outcome text. -/
inductive Color where
  | White
  | Red
  | Green
  deriving DecidableEq, Repr

/-- The state of the `sf::Text` that `main` writes: fill colour and string. -/
structure Text where
  fillColor : Color
  string : String
  deriving DecidableEq, Repr

/-- The text after `setFillColor(Red)` and `setString("Oh no you crashed!")`. -/
def crashedText : Text := ⟨Color.Red, "Oh no you crashed!"⟩

/-- The text after `setFillColor(Green)` and `setString("Good job ...")`. -/
def landedText : Text := ⟨Color.Green, "Good job commander, you landed the lunar lander!"⟩

/-- The key codes that `main` tells apart. -/
inductive Key where
  | Left
  | Right
  | Space
  | Other
  deriving DecidableEq, Repr

/-- The events that `window.pollEvent` delivers. -/
inductive Event where
  | Closed
  | KeyPressed (code : Key)
  | KeyReleased (code : Key)
  | Resized
  | Other
  deriving DecidableEq, Repr

/-- The variables of `main` that the frame loop reads and writes. -/
structure Sim where
  lander : Lander
  terrain : Terrain
  running : Bool
  text : Text
  windowOpen : Bool

/-- The test `intersects` of the collision loop: one of the four edges of the
bounding box `lr` intersects the segment from `pFrom` to `pTo`. -/
def boxIntersects (pFrom pTo : Vector2f) (lr : FloatRect) : Bool :=
  LinesIntersect pFrom.x pFrom.y pTo.x pTo.y lr.left lr.top (lr.left + lr.width) lr.top ||
  LinesIntersect pFrom.x pFrom.y pTo.x pTo.y (lr.left + lr.width) lr.top
    (lr.left + lr.width) (lr.top + lr.height) ||
  LinesIntersect pFrom.x pFrom.y pTo.x pTo.y (lr.left + lr.width) (lr.top + lr.height)
    lr.left (lr.top + lr.height) ||
  LinesIntersect pFrom.x pFrom.y pTo.x pTo.y lr.left (lr.top + lr.height) lr.left lr.top

/-- The collision loop `for (int i = 1; i < terrain.getVertexCount(); i++)`,
started with `from = terrain[0]` and the remaining vertices: the segment at
which the loop takes its `break`, or `none` when the loop runs to its end. -/
def collisionScan (lr : FloatRect) : Vector2f → List Vector2f → Option (Vector2f × Vector2f)
  | _, [] => none
  | pFrom, pTo :: rest =>
    if boxIntersects pFrom pTo lr then some (pFrom, pTo) else collisionScan lr pTo rest

/-- The body of `if (running) { ... }` at the end of a frame: physics update,
terrain update, collision loop and, at a collision, the classification. -/
def tick (lib : Library) (fuel : Nat) (s : Sim) : Option Sim :=
  let lander := s.lander.UpdatePosition lib.sin lib.cos
  match s.terrain.Update fuel lander.GetCurrentSpeed.x with
  | none => none
  | some terrain =>
    match terrain.vertices with
    | [] => none
    | first :: rest =>
      let lr := lib.getGlobalBounds lander
      match collisionScan lr first rest with
      | none => some { s with lander := lander, terrain := terrain }
      | some (pFrom, pTo) =>
        some { s with lander := lander, terrain := terrain, running := false,
                      text := if Crashed pFrom pTo lander then crashedText else landedText }

/-- The `switch (event.type)` of the event loop. -/
def handleEvent (lib : Library) (s : Sim) : Event → Sim
  | Event.Closed => { s with windowOpen := false }
  | Event.KeyPressed code =>
    if s.running then
      match code with
      | Key.Left => { s with lander := s.lander.rotate lib (Fl.ofInt (-2)) }
      | Key.Right => { s with lander := s.lander.rotate lib (Fl.ofInt 2) }
      | Key.Space => { s with lander := s.lander.setThrustersOn true }
      | Key.Other => s
    else s
  | Event.KeyReleased code =>
    if s.running then
      match code with
      | Key.Space => { s with lander := s.lander.setThrustersOn false }
      | _ => s
    else s
  | Event.Resized => s
  | Event.Other => s

/-- One pass of the body of `while (window.isOpen())`: the events that
`pollEvent` delivers in this frame are handled in order, the drawing calls
change none of the variables, then the tick runs if `running`. -/
def frame (lib : Library) (fuel : Nat) (s : Sim) (events : List Event) : Option Sim :=
  let s := events.foldl (handleEvent lib) s
  if s.running then tick lib fuel s else some s

/-- The loop `while (window.isOpen())`, one list of events for each frame. -/
def runFrames (lib : Library) (fuel : Nat) : Sim → List (List Event) → Option Sim
  | s, [] => some s
  | s, events :: rest =>
    if s.windowOpen then
      match frame lib fuel s events with
      | none => none
      | some s' => runFrames lib fuel s' rest
    else some s

/-- The variables of `main` when the frame loop is entered: an 800 x 600
window, the lander at (400, 200) with the initial speed and the thrusters
off, the terrain `Terrain(800, 450, 580, 120)`. -/
def initialSim (generator : Nat → Draw) : Sim :=
  { lander := initialLander
    terrain := mainTerrain generator
    running := true
    text := ⟨Color.White, ""⟩
    windowOpen := true }

/-! ## Ranges in which the terrain loop is proved to end -/

namespace Fl

/-- The values that a variable of type `float` holds: the finite binary32
numbers, the two infinities and NaN. -/
def IsFloat : Fl → Prop
  | fin q => IsRep binary32 q ∧ |q| < 2 ^ binary32.emax
  | _ => True

end Fl

namespace Terrain

/-- A velocity that is finite and of magnitude at most `2 ^ 40`. -/
def BoundedVelocity (xVelocity : Fl) : Prop := ∃ v : ℚ, xVelocity = Fl.fin v ∧ |v| ≤ 2 ^ 40

/-- A terrain whose width is finite and within `[-2 ^ 23, 2 ^ 24]`. -/
def BoundedWidth (t : Terrain) : Prop := ∃ w : ℚ, t.width = Fl.fin w ∧ -2 ^ 23 ≤ w ∧ w ≤ 2 ^ 24

/-- A terrain whose last vertex has an `x` that is not below `-2 ^ 23`. -/
def LastInWindow (t : Terrain) : Prop :=
  ∃ p, t.vertices.getLast? = some p ∧ Fl.fin (-2 ^ 23) ≤ p.x

end Terrain

/-! ## States for examples -/

/-- A terrain whose only vertex, at `x = 805`, is right of the width 800. -/
def overshootTerrain : Terrain :=
  { vertices := [⟨Fl.ofInt 805, Fl.ofInt 450⟩], width := Fl.ofInt 800, maxY := Fl.ofInt 580,
    minY := Fl.ofInt 120, generator := steadyGenerator }

/-! ## Exact geometry -/

/-- Modelled from the spec: the closed segments P1P2 and P3P4 share a point,
that is there are parameters `s`, `t` in `[0,1]` with
`P1 + s (P2 - P1) = P3 + t (P4 - P3)`, in exact arithmetic. -/
def SharePoint (x1 y1 x2 y2 x3 y3 x4 y4 : ℚ) : Prop :=
  ∃ s t : ℚ, (0 ≤ s ∧ s ≤ 1) ∧ (0 ≤ t ∧ t ≤ 1) ∧
    x1 + s * (x2 - x1) = x3 + t * (x4 - x3) ∧
    y1 + s * (y2 - y1) = y3 + t * (y4 - y3)

/-- Modelled from the spec: the denominator
`(y4 - y3) * (x2 - x1) - (x4 - x3) * (y2 - y1)` in exact arithmetic. -/
def exactDenominator (x1 y1 x2 y2 x3 y3 x4 y4 : ℚ) : ℚ :=
  (y4 - y3) * (x2 - x1) - (x4 - x3) * (y2 - y1)

/-! ## Generators and terrains for examples -/

/-- A round of draws: `isFlat` gives 1 (not flat), `yDist` gives 80, `xDist`
gives 40. -/
def steepDraw : Draw := ⟨1, 80, 40, by decide, by decide, by decide⟩

/-- A generator that gives `steepDraw` at every round. -/
def steepGenerator : Nat → Draw := fun _ => steepDraw

/-- A terrain whose only vertex is at `x = 2 ^ 31`, with the width
`2 ^ 31 + 256`, the next `float` after `2 ^ 31`. -/
def stuckTerrain (generator : Nat → Draw) : Terrain :=
  { vertices := [⟨Fl.fin 2147483648, Fl.fin 450⟩], width := Fl.fin 2147483904,
    maxY := Fl.fin 580, minY := Fl.fin 120, generator := generator }

/-- A terrain of width 40 whose only vertex is at `x = -2 ^ (-30)`. -/
def nearTerrain : Terrain :=
  { vertices := [⟨Fl.fin (-1 / 1073741824), Fl.fin 450⟩], width := Fl.fin 40,
    maxY := Fl.fin 580, minY := Fl.fin 120, generator := steadyGenerator }

/-! ## A library and states of the frame loop for examples -/

/-- A library for examples: `sin` is 0 and `cos` is 1 everywhere, `rotate`
adds the angle, and the bounding box is the 40 x 40 square centred at the
lander position. -/
def exampleLibrary : Library :=
  { sin := fun _ => Fl.fin 0
    cos := fun _ => Fl.fin 1
    rotate := fun old angle => old + angle
    getGlobalBounds := fun l =>
      ⟨l.position.x - Fl.fin 20, l.position.y - Fl.fin 20, Fl.fin 40, Fl.fin 40⟩ }

/-- A state for examples: the lander of `main` above a flat segment from
(0, 220) to (1000, 220). -/
def exampleSim : Sim :=
  { lander := initialLander
    terrain := { vertices := [⟨Fl.fin 0, Fl.fin 220⟩, ⟨Fl.fin 1000, Fl.fin 220⟩],
                 width := Fl.fin 800, maxY := Fl.fin 580, minY := Fl.fin 120,
                 generator := steadyGenerator }
    running := true
    text := ⟨Color.White, ""⟩
    windowOpen := true }

/-- A state for examples: a lander at (400, 200) with the velocity (0, 0) over
a terrain whose segment 0, from (0, 300) to (390, 300), passes below the box
of the lander and whose segment 1, from (390, 300) to (410, 210), crosses its
bottom edge. -/
def hillSim : Sim :=
  { lander := ⟨⟨Fl.fin 400, Fl.fin 200⟩, Fl.fin 0, false, ⟨Fl.fin 0, Fl.fin 0⟩⟩
    terrain := { vertices := [⟨Fl.fin 0, Fl.fin 300⟩, ⟨Fl.fin 390, Fl.fin 300⟩,
                   ⟨Fl.fin 410, Fl.fin 210⟩, ⟨Fl.fin 1000, Fl.fin 210⟩],
                 width := Fl.fin 800, maxY := Fl.fin 580, minY := Fl.fin 120,
                 generator := steadyGenerator }
    running := true
    text := ⟨Color.White, ""⟩
    windowOpen := true }

/-- The angle that `UpdatePosition` computes for a rotation of 90 degrees,
`90 * (2 * 3.14159f) / 360.f`: the `float` `823549 / 2 ^ 19 = 1.5707950592...`. -/
def quarterTurnRad : Fl := Fl.fin (823549 / 524288)

/-- A library for examples whose `sin` and `cos` give at `quarterTurnRad` the
`float` nearest to the real sine and cosine of that angle, 1 and
`11149847 / 2 ^ 43 = 1.2675908...e-6`, and at every other angle the values
at 0. -/
def quarterTurnLibrary : Library :=
  { sin := fun a => if a = quarterTurnRad then Fl.fin 1 else Fl.fin 0
    cos := fun a => if a = quarterTurnRad then Fl.fin (11149847 / 8796093022208) else Fl.fin 1
    rotate := fun old angle => old + angle
    getGlobalBounds := fun l =>
      ⟨l.position.x - Fl.fin 20, l.position.y - Fl.fin 20, Fl.fin 40, Fl.fin 40⟩ }

/-! # Theorems -/

/-! ## Rounding -/

lemma rne_floor_le (x : ℚ) : (⌊x⌋ : ℚ) ≤ x ∧ x < ⌊x⌋ + 1 := ⟨Int.floor_le x, Int.lt_floor_add_one x⟩

lemma rne_spec (x : ℚ) : |(rne x : ℚ) - x| ≤ 1 / 2 := by
  obtain ⟨h1, h2⟩ := rne_floor_le x
  unfold rne
  rw [abs_le]
  split_ifs <;> constructor <;> push_cast <;> linarith

lemma rne_eq_of_lt (x : ℚ) (m : ℤ) (h : |x - m| < 1 / 2) : rne x = m := by
  have h1 := rne_spec x
  rw [abs_lt] at h
  rw [abs_le] at h1
  have hlt : |((rne x - m : ℤ) : ℚ)| < 1 := by
    rw [abs_lt]; push_cast; constructor <;> linarith
  have : |rne x - m| < 1 := by exact_mod_cast hlt
  have := Int.abs_lt_one_iff.mp this
  omega

lemma rne_intCast (n : ℤ) : rne (n : ℚ) = n := rne_eq_of_lt _ n (by simp)

lemma rne_eq_of_tie (x : ℚ) (m : ℤ) (hm : m % 2 = 0) (h : |x - m| = 1 / 2) : rne x = m := by
  rcases abs_eq (by norm_num : (0 : ℚ) ≤ 1 / 2) |>.mp h with h | h
  · have hf : ⌊x⌋ = m := by
      rw [Int.floor_eq_iff]; constructor <;> linarith
    unfold rne
    rw [hf]
    have e : x - (m : ℚ) = 1 / 2 := h
    rw [e]
    simp [hm]
  · have hf : ⌊x⌋ = m - 1 := by
      rw [Int.floor_eq_iff]; push_cast; constructor <;> linarith
    unfold rne
    rw [hf]
    have e : x - ((m - 1 : ℤ) : ℚ) = 1 / 2 := by push_cast; linarith
    rw [e]
    have hodd : (m - 1) % 2 ≠ 0 := by omega
    simp [hodd]

lemma rne_le_of_le (x : ℚ) (n : ℤ) (h : x ≤ n) : rne x ≤ n := by
  obtain ⟨h1, h2⟩ := rne_floor_le x
  have hfl : ⌊x⌋ ≤ n := by exact_mod_cast h1.trans h
  by_cases hx : x = n
  · rw [hx, rne_intCast]
  · have hlt : x < n := lt_of_le_of_ne h hx
    have hfl' : ⌊x⌋ < n := by
      rw [Int.floor_lt]; exact hlt
    unfold rne
    split_ifs <;> omega

lemma le_rne_of_le (x : ℚ) (n : ℤ) (h : (n : ℚ) ≤ x) : n ≤ rne x := by
  have hfl : n ≤ ⌊x⌋ := Int.le_floor.mpr h
  unfold rne
  split_ifs <;> omega

lemma rne_neg (x : ℚ) : rne (-x) = - rne x := by
  have h1 := rne_spec x
  by_cases ht : |x - rne x| = 1 / 2
  · -- a tie: `rne x` is even
    have heven : rne x % 2 = 0 := by
      obtain ⟨h1, h2⟩ := rne_floor_le x
      rcases abs_eq (by norm_num : (0 : ℚ) ≤ 1 / 2) |>.mp ht with h | h
      · have e := h
        unfold rne at e ⊢
        split_ifs at e ⊢ with c1 c2 c3 <;> push_cast at e <;> first | omega | linarith
      · have e := h
        unfold rne at e ⊢
        split_ifs at e ⊢ with c1 c2 c3 <;> push_cast at e <;> first | omega | linarith
    apply rne_eq_of_tie _ _ (by omega)
    push_cast
    rw [← ht, ← abs_neg]
    congr 1
    ring
  · apply rne_eq_of_lt
    have : |x - rne x| < 1 / 2 := by
      rw [abs_sub_comm] at h1
      exact lt_of_le_of_ne h1 ht
    push_cast
    rw [← abs_neg]
    convert this using 2
    ring

lemma log2_eq (r : ℚ) (k : ℤ) (h1 : (2 : ℚ) ^ k ≤ r) (h2 : r < (2 : ℚ) ^ (k + 1)) :
    Int.log 2 r = k := by
  have hr : 0 < r := lt_of_lt_of_le (by positivity) h1
  have a : k ≤ Int.log 2 r := (Int.zpow_le_iff_le_log (by norm_num) hr).mp (by exact_mod_cast h1)
  have b : Int.log 2 r < k + 1 := (Int.lt_zpow_iff_log_lt (by norm_num) hr).mp (by exact_mod_cast h2)
  omega

lemma log2_bounds (r : ℚ) (hr : 0 < r) :
    (2 : ℚ) ^ Int.log 2 r ≤ r ∧ r < (2 : ℚ) ^ (Int.log 2 r + 1) := by
  have a := Int.zpow_log_le_self (b := 2) (by norm_num) hr
  have b := Int.lt_zpow_succ_log_self (b := 2) (by norm_num) r
  exact ⟨by exact_mod_cast a, by exact_mod_cast b⟩

lemma ulpExp_neg (f : Format) (q : ℚ) : ulpExp f (-q) = ulpExp f q := by
  unfold ulpExp; rw [abs_neg]

lemma emin_le_ulpExp (f : Format) (q : ℚ) : f.emin ≤ ulpExp f q := le_max_right _ _

lemma roundTo_neg (f : Format) (q : ℚ) : roundTo f (-q) = - roundTo f q := by
  unfold roundTo
  rw [ulpExp_neg, neg_div, rne_neg]
  push_cast
  ring

lemma roundTo_zero (f : Format) : roundTo f 0 = 0 := by
  unfold roundTo
  simp [rne_intCast, show rne (0 : ℚ) = 0 from by simpa using rne_intCast 0]

lemma two_zpow_pos (e : ℤ) : (0 : ℚ) < 2 ^ e := by positivity

lemma roundTo_nonneg (f : Format) (q : ℚ) (h : 0 ≤ q) : 0 ≤ roundTo f q := by
  unfold roundTo
  have : (0 : ℤ) ≤ rne (q / 2 ^ ulpExp f q) :=
    le_rne_of_le _ 0 (by simpa using div_nonneg h (two_zpow_pos _).le)
  have h' : (0 : ℚ) ≤ (rne (q / 2 ^ ulpExp f q) : ℚ) := by exact_mod_cast this
  exact mul_nonneg h' (two_zpow_pos _).le

lemma roundTo_nonpos (f : Format) (q : ℚ) (h : q ≤ 0) : roundTo f q ≤ 0 := by
  have := roundTo_nonneg f (-q) (by linarith)
  rw [roundTo_neg] at this
  linarith

/-- The rounding error is at most half a unit in the last place. -/
lemma roundTo_error (f : Format) (q : ℚ) :
    |roundTo f q - q| ≤ 2 ^ ulpExp f q / 2 := by
  unfold roundTo
  have h := rne_spec (q / 2 ^ ulpExp f q)
  have hp := two_zpow_pos (ulpExp f q)
  have e : (rne (q / 2 ^ ulpExp f q) : ℚ) * 2 ^ ulpExp f q - q =
      ((rne (q / 2 ^ ulpExp f q) : ℚ) - q / 2 ^ ulpExp f q) * 2 ^ ulpExp f q := by
    field_simp
  rw [e, abs_mul, abs_of_pos hp]
  calc |(rne (q / 2 ^ ulpExp f q) : ℚ) - q / 2 ^ ulpExp f q| * 2 ^ ulpExp f q
      ≤ 1 / 2 * 2 ^ ulpExp f q := mul_le_mul_of_nonneg_right h hp.le
    _ = 2 ^ ulpExp f q / 2 := by ring

/-- Evaluation of `ulpExp` from the binade of `q`. -/
lemma ulpExp_eq (f : Format) (q : ℚ) (k : ℤ) (h1 : (2 : ℚ) ^ k ≤ |q|)
    (h2 : |q| < (2 : ℚ) ^ (k + 1)) : ulpExp f q = max (k - ((f.prec : ℤ) - 1)) f.emin := by
  unfold ulpExp
  rw [log2_eq _ k h1 h2]

/-- Evaluation of `roundTo`: `q` lies in the binade of `2 ^ k`, `e` is the
exponent of its unit in the last place, and `m` is the nearest multiple. -/
lemma roundTo_eq (f : Format) (q : ℚ) (k e m : ℤ) (h1 : (2 : ℚ) ^ k ≤ |q|)
    (h2 : |q| < (2 : ℚ) ^ (k + 1)) (he : e = max (k - ((f.prec : ℤ) - 1)) f.emin)
    (hm : |q / 2 ^ e - m| < 1 / 2 ∨ (m % 2 = 0 ∧ |q / 2 ^ e - m| = 1 / 2)) :
    roundTo f q = m * 2 ^ e := by
  unfold roundTo
  rw [ulpExp_eq f q k h1 h2, ← he]
  rcases hm with hm | ⟨hev, hm⟩
  · rw [rne_eq_of_lt _ m hm]
  · rw [rne_eq_of_tie _ m hev hm]

/-- A value `m * 2 ^ e` with `|m| < 2 ^ prec` and `emin <= e` is representable:
rounding leaves it unchanged. -/
lemma roundTo_exact (f : Format) (m e : ℤ) (hm : |m| < 2 ^ f.prec) (he : f.emin ≤ e) :
    roundTo f (m * 2 ^ e) = m * 2 ^ e := by
  by_cases hm0 : m = 0
  · subst hm0; simp [roundTo_zero]
  have hq : (0 : ℚ) < |(m : ℚ) * 2 ^ e| := by
    rw [abs_pos]
    exact mul_ne_zero (by exact_mod_cast hm0) (two_zpow_pos e).ne'
  obtain ⟨hb1, hb2⟩ := log2_bounds _ hq
  set k := Int.log 2 |(m : ℚ) * 2 ^ e| with hk
  have hmq : |(m : ℚ)| < 2 ^ (f.prec : ℤ) := by
    have : ((|m| : ℤ) : ℚ) < ((2 ^ f.prec : ℤ) : ℚ) := by exact_mod_cast hm
    simpa using this
  -- `2 ^ k <= |m| * 2 ^ e < 2 ^ (prec + e)`, hence `k < prec + e`
  have hlt : (2 : ℚ) ^ k < 2 ^ ((f.prec : ℤ) + e) := by
    calc (2 : ℚ) ^ k ≤ |(m : ℚ) * 2 ^ e| := hb1
      _ = |(m : ℚ)| * 2 ^ e := by rw [abs_mul, abs_of_pos (two_zpow_pos e)]
      _ < 2 ^ (f.prec : ℤ) * 2 ^ e := mul_lt_mul_of_pos_right hmq (two_zpow_pos e)
      _ = 2 ^ ((f.prec : ℤ) + e) := by rw [zpow_add₀ (by norm_num)]
  have hk' : k < (f.prec : ℤ) + e := (zpow_lt_zpow_iff_right₀ (by norm_num : (1 : ℚ) < 2)).mp hlt
  have hu : ulpExp f ((m : ℚ) * 2 ^ e) ≤ e := by
    unfold ulpExp
    rw [← hk]
    exact max_le (by omega) he
  obtain ⟨d, hd⟩ : ∃ d : ℕ, e = ulpExp f ((m : ℚ) * 2 ^ e) + d :=
    ⟨(e - ulpExp f ((m : ℚ) * 2 ^ e)).toNat, by omega⟩
  unfold roundTo
  set u := ulpExp f ((m : ℚ) * 2 ^ e) with hu'
  have hquot : (m : ℚ) * 2 ^ e / 2 ^ u = ((m * 2 ^ d : ℤ) : ℚ) := by
    have hpu := (two_zpow_pos u).ne'
    rw [hd, zpow_add₀ (by norm_num), zpow_natCast]
    push_cast
    field_simp
    ring
  rw [hquot, rne_intCast]
  rw [hd, zpow_add₀ (by norm_num), zpow_natCast]
  push_cast
  ring

lemma IsRep.neg {f : Format} {r : ℚ} (h : IsRep f r) : IsRep f (-r) := by
  obtain ⟨m, e, hm, he, rfl⟩ := h
  exact ⟨-m, e, by rwa [abs_neg], he, by push_cast; ring⟩

lemma isRep_roundTo_fix {f : Format} {r : ℚ} (h : IsRep f r) : roundTo f r = r := by
  obtain ⟨m, e, hm, he, rfl⟩ := h
  exact roundTo_exact f m e hm he

lemma mul_zpow_eq_int (m e u : ℤ) (h : u ≤ e) :
    ∃ n : ℤ, (m : ℚ) * 2 ^ e = n * 2 ^ u := by
  obtain ⟨d, hd⟩ : ∃ d : ℕ, e = u + d := ⟨(e - u).toNat, by omega⟩
  refine ⟨m * 2 ^ d, ?_⟩
  rw [hd, zpow_add₀ (by norm_num), zpow_natCast]
  push_cast
  ring

/-- Rounding does not cross a representable value from below. -/
lemma roundTo_le_of_le (f : Format) (hp : 0 < f.prec) (q r : ℚ) (hr : IsRep f r)
    (h : q ≤ r) : roundTo f q ≤ r := by
  obtain ⟨m, e, hm, he, rfl⟩ := hr
  have hmq : |(m : ℚ)| < 2 ^ (f.prec : ℤ) := by
    have : ((|m| : ℤ) : ℚ) < ((2 ^ f.prec : ℤ) : ℚ) := by exact_mod_cast hm
    simpa using this
  have hrlt : |(m : ℚ) * 2 ^ e| < 2 ^ ((f.prec : ℤ) + e) := by
    rw [abs_mul, abs_of_pos (two_zpow_pos e), zpow_add₀ (by norm_num)]
    exact mul_lt_mul_of_pos_right hmq (two_zpow_pos e)
  have hpu := two_zpow_pos (ulpExp f q)
  -- the case in which `r` is a multiple of the unit in the last place of `q`
  have hgrid : ulpExp f q ≤ e → roundTo f q ≤ (m : ℚ) * 2 ^ e := by
    intro hu
    obtain ⟨n, hn⟩ := mul_zpow_eq_int m e (ulpExp f q) hu
    rw [hn] at h ⊢
    unfold roundTo
    have hx : q / 2 ^ ulpExp f q ≤ (n : ℚ) := by
      rw [div_le_iff₀ hpu]; exact h
    have := rne_le_of_le _ n hx
    have h' : (rne (q / 2 ^ ulpExp f q) : ℚ) ≤ (n : ℚ) := by exact_mod_cast this
    exact mul_le_mul_of_nonneg_right h' hpu.le
  by_cases hq0 : q ≤ 0
  · by_cases hr0 : 0 ≤ (m : ℚ) * 2 ^ e
    · exact (roundTo_nonpos f q hq0).trans hr0
    · push_neg at hr0
      have hqneg : q < 0 := lt_of_le_of_lt h hr0
      have hqabs : (0 : ℚ) < |q| := abs_pos.mpr hqneg.ne
      obtain ⟨hb1, hb2⟩ := log2_bounds _ hqabs
      by_cases hu : ulpExp f q ≤ e
      · exact hgrid hu
      · push_neg at hu
        have hu1 : ulpExp f q = Int.log 2 |q| - ((f.prec : ℤ) - 1) := by
          unfold ulpExp at hu ⊢
          rcases max_cases (Int.log 2 |q| - ((f.prec : ℤ) - 1)) f.emin with ⟨h1, -⟩ | ⟨h1, -⟩
          · exact h1
          · rw [h1] at hu; omega
        have hke : (f.prec : ℤ) + e ≤ Int.log 2 |q| := by omega
        have hrk : |(m : ℚ) * 2 ^ e| < 2 ^ Int.log 2 |q| :=
          lt_of_lt_of_le hrlt (zpow_le_zpow_right₀ (by norm_num) hke)
        have hq2 : q ≤ -(2 : ℚ) ^ Int.log 2 |q| := by
          have := hb1.trans (le_of_eq (abs_of_neg hqneg)); linarith
        obtain ⟨n, hn⟩ := mul_zpow_eq_int 1 (Int.log 2 |q|) (ulpExp f q) (by
          rw [hu1]
          have : (1 : ℤ) ≤ (f.prec : ℤ) := by exact_mod_cast hp
          omega)
        simp only [Int.cast_one, one_mul] at hn
        have hx : q / 2 ^ ulpExp f q ≤ ((-n : ℤ) : ℚ) := by
          rw [div_le_iff₀ hpu]; push_cast; rw [neg_mul, ← hn]; exact hq2
        have := rne_le_of_le _ (-n) hx
        have h' : (rne (q / 2 ^ ulpExp f q) : ℚ) ≤ ((-n : ℤ) : ℚ) := by exact_mod_cast this
        have h2 : roundTo f q ≤ -(2 : ℚ) ^ Int.log 2 |q| := by
          unfold roundTo
          calc (rne (q / 2 ^ ulpExp f q) : ℚ) * 2 ^ ulpExp f q
              ≤ ((-n : ℤ) : ℚ) * 2 ^ ulpExp f q := mul_le_mul_of_nonneg_right h' hpu.le
            _ = -(2 : ℚ) ^ Int.log 2 |q| := by push_cast; rw [neg_mul, ← hn]
        have h3 : -(2 : ℚ) ^ Int.log 2 |q| < (m : ℚ) * 2 ^ e := by
          rw [abs_of_neg hr0] at hrk; linarith
        linarith
  · push_neg at hq0
    have hqabs : (0 : ℚ) < |q| := abs_pos.mpr hq0.ne'
    obtain ⟨hb1, hb2⟩ := log2_bounds _ hqabs
    apply hgrid
    by_contra hu
    push_neg at hu
    have hu1 : ulpExp f q = Int.log 2 |q| - ((f.prec : ℤ) - 1) := by
      unfold ulpExp at hu ⊢
      rcases max_cases (Int.log 2 |q| - ((f.prec : ℤ) - 1)) f.emin with ⟨h1, -⟩ | ⟨h1, -⟩
      · exact h1
      · rw [h1] at hu; omega
    have hke : (f.prec : ℤ) + e ≤ Int.log 2 |q| := by omega
    have hrk : |(m : ℚ) * 2 ^ e| < 2 ^ Int.log 2 |q| :=
      lt_of_lt_of_le hrlt (zpow_le_zpow_right₀ (by norm_num) hke)
    have hb1' := hb1.trans (le_of_eq (abs_of_pos hq0))
    have hrpos : (0 : ℚ) < (m : ℚ) * 2 ^ e := lt_of_lt_of_le hq0 h
    rw [abs_of_pos hrpos] at hrk
    linarith

/-- Rounding does not cross a representable value from above. -/
lemma le_roundTo_of_le (f : Format) (hp : 0 < f.prec) (q r : ℚ) (hr : IsRep f r)
    (h : r ≤ q) : r ≤ roundTo f q := by
  have := roundTo_le_of_le f hp (-q) (-r) hr.neg (by linarith)
  rw [roundTo_neg] at this
  linarith

lemma isRep_intCast (f : Format) (n : ℤ) (hn : |n| ≤ 2 ^ f.prec) (hp : 0 < f.prec)
    (he : f.emin ≤ 0) : IsRep f (n : ℚ) := by
  rcases lt_or_eq_of_le hn with h | h
  · exact ⟨n, 0, h, he, by simp⟩
  · obtain ⟨p, hp'⟩ : ∃ p : ℕ, f.prec = p + 1 := ⟨f.prec - 1, by omega⟩
    rw [hp'] at h
    have hlt : (2 : ℤ) ^ p < 2 ^ (p + 1) := by
      rw [pow_succ]; have : (0 : ℤ) < 2 ^ p := by positivity
      omega
    rcases abs_eq (by positivity : (0 : ℤ) ≤ 2 ^ (p + 1)) |>.mp h with h1 | h1
    · refine ⟨2 ^ p, 1, ?_, by omega, ?_⟩
      · rw [abs_of_pos (by positivity), hp']; exact hlt
      · rw [h1]; push_cast; rw [pow_succ]; simp
    · refine ⟨-2 ^ p, 1, ?_, by omega, ?_⟩
      · rw [abs_neg, abs_of_pos (by positivity), hp']; exact hlt
      · rw [h1]; push_cast; rw [pow_succ]; simp

/-! ## Floating-point values -/

namespace Fl

lemma fin_add_fin (a b : ℚ) : (fin a + fin b : Fl) = round binary32 (a + b) := rfl
lemma fin_sub_fin (a b : ℚ) : (fin a - fin b : Fl) = round binary32 (a - b) := by
  show add binary32 (fin a) (neg (fin b)) = _
  simp only [neg, add, sub_eq_add_neg]
lemma fin_mul_fin (a b : ℚ) : (fin a * fin b : Fl) = round binary32 (a * b) := rfl
lemma fin_div_fin (a b : ℚ) (hb : b ≠ 0) : (fin a / fin b : Fl) = round binary32 (a / b) := by
  show div binary32 (fin a) (fin b) = _
  simp [div, hb]
lemma fin_lt_fin (a b : ℚ) : (fin a < fin b) ↔ a < b := by
  show lt (fin a) (fin b) = true ↔ _
  simp [lt]
lemma fin_le_fin (a b : ℚ) : (fin a ≤ fin b) ↔ a ≤ b := by
  show le (fin a) (fin b) = true ↔ _
  simp [le]

lemma prec32 : (0 : ℕ) < binary32.prec := by decide
lemma prec64 : (0 : ℕ) < binary64.prec := by decide

/-- Evaluation of a rounding whose result is finite. -/
lemma round_eval (f : Format) (q r : ℚ) (k e m : ℤ) (h1 : (2 : ℚ) ^ k ≤ |q|)
    (h2 : |q| < (2 : ℚ) ^ (k + 1)) (he : e = max (k - ((f.prec : ℤ) - 1)) f.emin)
    (hm : |q / 2 ^ e - m| < 1 / 2 ∨ (m % 2 = 0 ∧ |q / 2 ^ e - m| = 1 / 2))
    (hr : r = m * 2 ^ e) (hfin : |r| < (2 : ℚ) ^ f.emax) : round f q = fin r := by
  unfold round
  rw [roundTo_eq f q k e m h1 h2 he hm, ← hr, if_neg (not_le.mpr hfin)]

/-- A representable value below the overflow threshold is stored unchanged. -/
lemma round_of_isRep (f : Format) (r : ℚ) (hr : IsRep f r) (hfin : |r| < (2 : ℚ) ^ f.emax) :
    round f r = fin r := by
  unfold round
  rw [isRep_roundTo_fix hr, if_neg (not_le.mpr hfin)]

lemma isRep32_intCast (n : ℤ) (h : |n| ≤ 2 ^ 24) : IsRep binary32 (n : ℚ) :=
  isRep_intCast binary32 n h (by decide) (by decide)

lemma abs_int_lt_emax32 (n : ℤ) (h : |n| ≤ 2 ^ 24) : |(n : ℚ)| < (2 : ℚ) ^ binary32.emax := by
  have h1 : |(n : ℚ)| ≤ 2 ^ 24 := by
    have : ((|n| : ℤ) : ℚ) ≤ ((2 ^ 24 : ℤ) : ℚ) := by exact_mod_cast h
    simpa using this
  have h2 : ((2 : ℚ) ^ 24) < (2 : ℚ) ^ binary32.emax := by
    norm_num [binary32]
  exact lt_of_le_of_lt h1 h2

/-- An integer of magnitude at most `2 ^ 24` is a `float`. -/
lemma round32_intCast (n : ℤ) (h : |n| ≤ 2 ^ 24) : round binary32 (n : ℚ) = fin n :=
  round_of_isRep _ _ (isRep32_intCast n h) (abs_int_lt_emax32 n h)

lemma ofInt_eq (n : ℤ) (h : |n| ≤ 2 ^ 24) : ofInt n = fin n := round32_intCast n h

lemma add_int (a b : ℤ) (h : |a + b| ≤ 2 ^ 24) : (fin a + fin b : Fl) = fin ((a + b : ℤ)) := by
  rw [fin_add_fin, ← Int.cast_add, round32_intCast _ h]

lemma sub_int (a b : ℤ) (h : |a - b| ≤ 2 ^ 24) : (fin a - fin b : Fl) = fin ((a - b : ℤ)) := by
  rw [fin_sub_fin, ← Int.cast_sub, round32_intCast _ h]

lemma mul_int (a b : ℤ) (h : |a * b| ≤ 2 ^ 24) : (fin a * fin b : Fl) = fin ((a * b : ℤ)) := by
  rw [fin_mul_fin, ← Int.cast_mul, round32_intCast _ h]

end Fl

namespace Fl

lemma lt_def (a b : Fl) : (a < b) = (lt a b = true) := rfl
lemma le_def (a b : Fl) : (a ≤ b) = (le a b = true) := rfl

lemma round_zero_of (f : Format) (q : ℚ) (hq : q = 0) (hf : (0 : ℚ) < 2 ^ f.emax) :
    round f q = fin 0 := by
  subst hq
  unfold round
  rw [roundTo_zero, abs_zero, if_neg (not_le.mpr hf)]

/-- The three shapes of a stored value. -/
lemma round_cases (f : Format) (q : ℚ) :
    (round f q = fin (roundTo f q) ∧ |roundTo f q| < 2 ^ f.emax) ∨
    (round f q = inf true ∧ q < 0) ∨ (round f q = inf false ∧ 0 ≤ q) := by
  unfold round
  by_cases h : (2 : ℚ) ^ f.emax ≤ |roundTo f q|
  · rw [if_pos h]
    by_cases hq : q < 0
    · right; left; simp [hq]
    · right; right; simp [hq, not_lt.mp hq]
  · rw [if_neg h]
    left; exact ⟨rfl, not_le.mp h⟩

lemma round_nonneg (f : Format) (q : ℚ) (h : 0 ≤ q) : fin 0 ≤ round f q := by
  rcases round_cases f q with ⟨e, -⟩ | ⟨-, hq⟩ | ⟨e, -⟩
  · rw [e, fin_le_fin]; exact roundTo_nonneg f q h
  · exact absurd h (not_le.mpr hq)
  · rw [e]; rfl

lemma round_nonpos (f : Format) (q : ℚ) (h : q ≤ 0) : round f q ≤ fin 0 := by
  rcases round_cases f q with ⟨e, -⟩ | ⟨e, -⟩ | ⟨e, hq⟩
  · rw [e, fin_le_fin]; exact roundTo_nonpos f q h
  · rw [e]; rfl
  · have hq0 : q = 0 := le_antisymm h hq
    subst hq0
    unfold round at e
    rw [roundTo_zero] at e
    split at e
    · rename_i hc
      rw [abs_zero] at hc
      exact absurd hc (not_le.mpr (two_zpow_pos _))
    · exact absurd e (by simp)

/-- Storing does not cross a representable value from below. -/
lemma round_le_of_le (f : Format) (hp : 0 < f.prec) (q r : ℚ) (hr : IsRep f r)
    (hfin : r < 2 ^ f.emax) (h : q ≤ r) : round f q ≤ fin r := by
  rcases round_cases f q with ⟨e, -⟩ | ⟨e, -⟩ | ⟨e, hq⟩
  · rw [e, fin_le_fin]; exact roundTo_le_of_le f hp q r hr h
  · rw [e]; rfl
  · exfalso
    unfold round at e
    split at e
    · rename_i hc
      have h1 := roundTo_le_of_le f hp q r hr h
      have h2 := roundTo_nonneg f q hq
      rw [abs_of_nonneg h2] at hc
      linarith
    · exact absurd e (by simp)

/-- Storing does not cross a representable value from above. -/
lemma le_round_of_le (f : Format) (hp : 0 < f.prec) (q r : ℚ) (hr : IsRep f r)
    (hfin : -(2 : ℚ) ^ f.emax < r) (h : r ≤ q) : fin r ≤ round f q := by
  rcases round_cases f q with ⟨e, -⟩ | ⟨e, hq⟩ | ⟨e, -⟩
  · rw [e, fin_le_fin]; exact le_roundTo_of_le f hp q r hr h
  · exfalso
    unfold round at e
    split at e
    · rename_i hc
      have h1 := le_roundTo_of_le f hp q r hr h
      have h2 := roundTo_nonpos f q hq.le
      rw [abs_of_nonpos h2] at hc
      linarith
    · exact absurd e (by simp)
  · rw [e]; rfl

lemma le_refl_fin (a : ℚ) : (fin a : Fl) ≤ fin a := (fin_le_fin a a).mpr le_rfl

/-- The order `≤` is transitive. -/
lemma le_trans' {a b c : Fl} (h1 : a ≤ b) (h2 : b ≤ c) : a ≤ c := by
  rw [le_def] at *
  cases a <;> cases b <;> cases c <;> simp_all [le]
  · linarith
  · rename_i s1 s2 s3
    cases s1 <;> cases s2 <;> cases s3 <;> simp_all

lemma le_of_lt' {a b : Fl} (h : a < b) : a ≤ b := by
  rw [le_def]; rw [lt_def] at h
  cases a <;> cases b <;> simp_all [le, lt]
  linarith

/-- A value that compares is not NaN, so it is at most itself. -/
lemma le_self_of_le_left {a b : Fl} (h : a ≤ b) : a ≤ a := by
  rw [le_def] at *
  cases a <;> cases b <;> simp_all [le]

lemma le_self_of_le_right {a b : Fl} (h : a ≤ b) : b ≤ b := by
  rw [le_def] at *
  cases a <;> cases b <;> simp_all [le]

/-- Two values that are not NaN are comparable. -/
lemma le_of_not_lt {a b : Fl} (ha : a ≤ a) (hb : b ≤ b) (h : ¬ a < b) : b ≤ a := by
  rw [le_def] at *; rw [lt_def] at h
  cases a <;> cases b <;> simp_all [le, lt]
  rename_i s1 s2
  cases s1 <;> cases s2 <;> simp_all

lemma not_lt_of_le {a b : Fl} (h : a ≤ b) : ¬ b < a := by
  rw [le_def] at h; rw [lt_def]
  cases a <;> cases b <;> simp_all [le, lt]
  rename_i s1 s2
  cases s1 <;> cases s2 <;> simp_all

end Fl

/-! ## Terrain -/

namespace Terrain

lemma stdMax_stdMin_range (lo hi v : Fl) (h : lo ≤ hi) :
    lo ≤ stdMax lo (stdMin v hi) ∧ stdMax lo (stdMin v hi) ≤ hi := by
  have hlo := Fl.le_self_of_le_left h
  have hhi := Fl.le_self_of_le_right h
  unfold stdMax stdMin
  by_cases h1 : hi < v
  · rw [if_pos h1]
    by_cases h2 : lo < hi
    · rw [if_pos h2]; exact ⟨h, hhi⟩
    · rw [if_neg h2]; exact ⟨hlo, h⟩
  · rw [if_neg h1]
    by_cases h2 : lo < v
    · rw [if_pos h2]
      have hv : v ≤ v := Fl.le_self_of_le_right (Fl.le_of_lt' h2)
      exact ⟨Fl.le_of_lt' h2, Fl.le_of_not_lt hhi hv h1⟩
    · rw [if_neg h2]; exact ⟨hlo, h⟩

/-- What a returning `GenerateTerrain` has done: the three float members are
unchanged, the old vertices are still there in the same order, followed by
clamped new ones, and the last vertex reaches `width`. -/
lemma GenerateTerrain_some : ∀ (fuel : Nat) (t t' : Terrain),
    GenerateTerrain fuel t = some t' →
    t'.width = t.width ∧ t'.maxY = t.maxY ∧ t'.minY = t.minY ∧
    (∃ ext : List Vector2f, t'.vertices = t.vertices ++ ext ∧
      ∀ p ∈ ext, ∃ v : Fl, p.y = stdMax t.minY (stdMin v t.maxY)) ∧
    ∃ p, t'.vertices.getLast? = some p ∧ p.x ≥ t.width := by
  intro fuel
  induction fuel with
  | zero => intro t t' h; simp [GenerateTerrain] at h
  | succ n ih =>
    intro t t' h
    rw [GenerateTerrain] at h
    split at h
    · exact absurd h (by simp)
    · rename_i lastPoint hlast
      split at h
      · rename_i hge
        cases h
        exact ⟨rfl, rfl, rfl, ⟨[], by simp, by simp⟩, lastPoint, hlast, hge⟩
      · obtain ⟨hw, hmax, hmin, ⟨ext, hext, hclamp⟩, hfinal⟩ := ih _ _ h
        simp only [AddVertex, List.append_assoc, List.singleton_append] at hext
        refine ⟨hw, hmax, hmin, ⟨_, hext, ?_⟩, hfinal⟩
        intro p hp
        rcases List.mem_cons.mp hp with rfl | hp
        · exact ⟨_, rfl⟩
        · exact hclamp p hp

/-- More fuel does not change a result. -/
lemma GenerateTerrain_fuel_mono : ∀ (fuel : Nat) (t t' : Terrain) (k : Nat),
    GenerateTerrain fuel t = some t' → GenerateTerrain (fuel + k) t = some t' := by
  intro fuel
  induction fuel with
  | zero => intro t t' k h; simp [GenerateTerrain] at h
  | succ n ih =>
    intro t t' k h
    rw [show n + 1 + k = (n + k) + 1 by omega, GenerateTerrain]
    rw [GenerateTerrain] at h
    split at h
    · exact absurd h (by simp)
    · rename_i lastPoint hlast
      simp only [hlast]
      split at h
      · rename_i hge
        simp [hge, h]
      · rename_i hge
        simp only [hge, if_false]
        exact ih _ _ k h

end Terrain

namespace Fl

lemma scrollFactor_eq : scrollFactor = fin (11258999 / 1125899906842624) :=
  (Fl.round_eval binary32 (1 / 100000000) (11258999 / 1125899906842624) (-27) (-50) 11258999 (by norm_num [abs_of_nonneg, abs_of_nonpos]) (by norm_num [abs_of_nonneg, abs_of_nonpos]) (by norm_num [binary32]) (Or.inl (by norm_num [abs_lt])) (by norm_num) (by norm_num [binary32, abs_of_nonneg, abs_of_nonpos]))

lemma ulpExp32_le_one (q : ℚ) (h : |q| < 2 ^ 25) : ulpExp binary32 q ≤ 1 := by
  unfold ulpExp
  by_cases hq : q = 0
  · subst hq
    simp [binary32, Int.log_zero_right]
  · have hpos : 0 < |q| := abs_pos.mpr hq
    have : Int.log 2 |q| < 25 := (Int.lt_zpow_iff_log_lt (by norm_num) hpos).mp (by
      have : ((2 : ℕ) : ℚ) ^ (25 : ℤ) = 2 ^ 25 := by norm_num
      rw [this]; exact h)
    simp only [binary32]
    omega

/-- A `float` sum of magnitude below `2 ^ 25` is finite and at most 1 away from
the exact sum. -/
lemma round32_near (y : ℚ) (h : |y| < 2 ^ 25) :
    ∃ r : ℚ, round binary32 y = fin r ∧ |r - y| ≤ 1 := by
  have hu := ulpExp32_le_one y h
  have herr := roundTo_error binary32 y
  have hpow : (2 : ℚ) ^ ulpExp binary32 y ≤ 2 ^ (1 : ℤ) :=
    zpow_le_zpow_right₀ (by norm_num) hu
  have h1 : |roundTo binary32 y - y| ≤ 1 := by
    have : (2 : ℚ) ^ (1 : ℤ) = 2 := by norm_num
    rw [this] at hpow
    linarith
  refine ⟨roundTo binary32 y, ?_, h1⟩
  unfold round
  rw [if_neg]
  rw [not_le]
  have h2 : |roundTo binary32 y| ≤ |y| + 1 := by
    have := abs_sub_abs_le_abs_sub (roundTo binary32 y) y
    linarith
  have h3 : ((2 : ℚ) ^ 25 + 1) < (2 : ℚ) ^ binary32.emax := by norm_num [binary32]
  linarith

/-- A value between two finite values is finite. -/
lemma fin_of_between {p : Fl} {a b : ℚ} (h1 : fin a ≤ p) (h2 : p ≤ fin b) :
    ∃ r, p = fin r ∧ a ≤ r ∧ r ≤ b := by
  rw [le_def] at h1 h2
  cases p with
  | fin r => exact ⟨r, rfl, by simpa [le] using h1, by simpa [le] using h2⟩
  | inf s => cases s <;> simp_all [le]
  | nan => simp [le] at h1

lemma isRep_two_pow (f : Format) (n : ℕ) (h : f.emin ≤ n) (hp : 0 < f.prec) :
    IsRep f ((2 : ℚ) ^ n) :=
  ⟨1, n, by
    rw [abs_one]
    exact one_lt_pow₀ (by norm_num) (by omega), h, by simp⟩

/-- The new position of a vertex after the scroll is not below `-2 ^ 24` when
the old one is not below `-2 ^ 23` and the velocity is finite of magnitude at
most `2 ^ 40`. -/
lemma scroll_lower (v : ℚ) (x : Fl) (hv : |v| ≤ 2 ^ 40) (hx : fin (-2 ^ 23) ≤ x) :
    fin (-2 ^ 24) ≤ Terrain.scroll (fin v) x := by
  unfold Terrain.scroll
  rw [scrollFactor_eq]
  have hvb := abs_le.mp hv
  have hrep14 : IsRep binary64 ((2 : ℚ) ^ (14 : ℕ)) := isRep_two_pow _ 14 (by decide) prec64
  have hp1 : mul binary64 (fin (11258999 / 1125899906842624)) (fin v) ≤ fin ((2 : ℚ) ^ (14 : ℕ)) := by
    show round binary64 _ ≤ _
    apply round_le_of_le _ prec64 _ _ hrep14 (by norm_num [binary64])
    norm_num
    linarith
  have hp2 : fin (-(2 : ℚ) ^ (14 : ℕ)) ≤ mul binary64 (fin (11258999 / 1125899906842624)) (fin v) := by
    show _ ≤ round binary64 _
    apply le_round_of_le _ prec64 _ _ hrep14.neg (by norm_num [binary64])
    norm_num
    linarith
  obtain ⟨p, hp, hpl, hpu⟩ := fin_of_between hp2 hp1
  rw [hp]
  have hrep24 : IsRep binary64 ((2 : ℚ) ^ (24 : ℕ)) := isRep_two_pow _ 24 (by decide) prec64
  have hrep24' : IsRep binary32 ((2 : ℚ) ^ (24 : ℕ)) := isRep_two_pow _ 24 (by decide) prec32
  have e24 : (-2 ^ 24 : ℚ) = -((2 : ℚ) ^ (24 : ℕ)) := by norm_num
  rw [e24]
  cases x with
  | fin a =>
    have ha : (-2 ^ 23 : ℚ) ≤ a := by simpa [le_def, le] using hx
    have hsub : fin (-((2 : ℚ) ^ (24 : ℕ))) ≤ sub binary64 (fin a) (fin p) := by
      show _ ≤ round binary64 _
      apply le_round_of_le _ prec64 _ _ hrep24.neg (by norm_num [binary64])
      norm_num at hpu ⊢
      linarith
    cases hs : sub binary64 (fin a) (fin p) with
    | fin y =>
      rw [hs] at hsub
      have hy : -((2 : ℚ) ^ (24 : ℕ)) ≤ y := by simpa [le_def, le] using hsub
      show _ ≤ round binary32 y
      exact le_round_of_le _ prec32 _ _ hrep24'.neg (by norm_num [binary32]) hy
    | inf s =>
      rw [hs] at hsub
      cases s
      · rfl
      · simp [le_def, le] at hsub
    | nan => rw [hs] at hsub; simp [le_def, le] at hsub
  | inf s =>
    cases s
    · rfl
    · simp [le_def, le] at hx
  | nan => simp [le_def, le] at hx

end Fl

namespace Terrain

/-- The loop of `GenerateTerrain` ends when the last vertex is finite and not
below `-2 ^ 24` and the width is finite and at most `2 ^ 24`: every pass moves
the last vertex right by at least 19, so fuel `n + 1` is enough when it is at
most `19 * n` short of the width. -/
lemma GenerateTerrain_terminates : ∀ (n : Nat) (t : Terrain) (p : Vector2f) (x w : ℚ),
    t.vertices.getLast? = some p → p.x = Fl.fin x → t.width = Fl.fin w →
    -2 ^ 24 ≤ x → w ≤ 2 ^ 24 → w - x ≤ 19 * (n : ℚ) →
    ∃ t', GenerateTerrain (n + 1) t = some t' := by
  intro n
  induction n with
  | zero =>
    intro t p x w hp hx hw _ _ hn
    rw [GenerateTerrain]
    simp only [hp]
    have : p.x ≥ t.width := by
      rw [hx, hw]; show Fl.fin w ≤ Fl.fin x
      rw [Fl.fin_le_fin]; simp at hn; linarith
    simp [this]
  | succ n ih =>
    intro t p x w hp hx hw hlo hhi hn
    rw [GenerateTerrain]
    simp only [hp]
    by_cases hge : p.x ≥ t.width
    · simp [hge]
    · simp only [hge, if_false]
      have hxw : x < w := by
        by_contra hcon
        apply hge
        rw [hx, hw]; show Fl.fin w ≤ Fl.fin x
        rw [Fl.fin_le_fin]; exact not_lt.mp hcon
      have hd := (t.generator 0).xDist_range
      have hd1 : (20 : ℚ) ≤ ((t.generator 0).xDist : ℚ) := by exact_mod_cast hd.1
      have hd2 : ((t.generator 0).xDist : ℚ) ≤ 40 := by exact_mod_cast hd.2
      have hofInt : Fl.ofInt (t.generator 0).xDist = Fl.fin ((t.generator 0).xDist : ℚ) :=
        Fl.ofInt_eq _ (by rw [abs_le]; constructor <;> omega)
      obtain ⟨r, hr, herr⟩ := Fl.round32_near (x + (t.generator 0).xDist) (by
        rw [abs_lt]; constructor <;> norm_num at hlo hhi ⊢ <;>
          linarith only [hlo, hhi, hxw, hd1, hd2])
      have hnew : p.x + Fl.ofInt (t.generator 0).xDist = Fl.fin r := by
        rw [hx, hofInt, Fl.fin_add_fin, hr]
      rw [abs_le] at herr
      refine ih _ ⟨Fl.fin r, stdMax t.minY (stdMin (p.y + Fl.ofInt
        (if (t.generator 0).isFlat = 0 then 0 else (t.generator 0).yDist)) t.maxY)⟩
        r w ?_ rfl hw ?_ hhi ?_
      · simp [AddVertex, hnew]
      · linarith only [herr.1, herr.2, hlo, hd1]
      · push_cast at hn ⊢
        linarith only [herr.1, herr.2, hn, hd1]

/-- The loop of `GenerateTerrain` ends when the last vertex is not below
`-2 ^ 24` (finite or `+inf`) and the width is finite and at most `2 ^ 24`. -/
lemma GenerateTerrain_returns (t : Terrain) (p : Vector2f) (w : ℚ)
    (hp : t.vertices.getLast? = some p) (hx : Fl.fin (-2 ^ 24) ≤ p.x)
    (hw : t.width = Fl.fin w) (hhi : w ≤ 2 ^ 24) :
    ∃ fuel t', GenerateTerrain fuel t = some t' := by
  cases hpx : p.x with
  | fin x =>
    rw [hpx] at hx
    have hlo : (-2 ^ 24 : ℚ) ≤ x := by simpa [Fl.le_def, Fl.le] using hx
    obtain ⟨n, hn⟩ := exists_nat_ge ((w - x) / 19)
    refine ⟨n + 1, GenerateTerrain_terminates n t p x w hp hpx hw hlo hhi ?_⟩
    have := (div_le_iff₀ (by norm_num : (0 : ℚ) < 19)).mp hn
    linarith
  | inf s =>
    rw [hpx] at hx
    cases s
    · refine ⟨1, t, ?_⟩
      rw [GenerateTerrain]
      simp only [hp]
      have : p.x ≥ t.width := by rw [hpx, hw]; rfl
      simp [this]
    · simp [Fl.le_def, Fl.le] at hx
  | nan => rw [hpx] at hx; simp [Fl.le_def, Fl.le] at hx

end Terrain

namespace Fl

/-- Evaluation of the scroll of one vertex. -/
lemma scroll_eval (v x p d r : ℚ)
    (h1 : round binary64 (11258999 / 1125899906842624 * v) = fin p)
    (h2 : round binary64 (x - p) = fin d) (h3 : round binary32 d = fin r) :
    Terrain.scroll (fin v) (fin x) = fin r := by
  unfold Terrain.scroll
  rw [scrollFactor_eq]
  show toFloat (add binary64 (fin x) (neg (round binary64 (11258999 / 1125899906842624 * v)))) = _
  rw [h1]
  show toFloat (round binary64 (x + -p)) = _
  rw [← sub_eq_add_neg, h2]
  exact h3

lemma toFloat_nonpos {z : Fl} (h : z ≤ fin 0) : toFloat z ≤ fin 0 := by
  cases z with
  | fin y =>
    have hy : y ≤ 0 := by simpa [le_def, le] using h
    exact round_nonpos _ _ hy
  | inf s => exact h
  | nan => exact h

lemma sub64_nonpos {y p : Fl} (hy : y ≤ fin 0) (hp : fin 0 ≤ p) : sub binary64 y p ≤ fin 0 := by
  cases y with
  | fin a =>
    have ha : a ≤ 0 := by simpa [le_def, le] using hy
    cases p with
    | fin b =>
      have hb : 0 ≤ b := by simpa [le_def, le] using hp
      show round binary64 (a + -b) ≤ _
      exact round_nonpos _ _ (by linarith)
    | inf s => cases s <;> simp_all [le_def, le, sub, add, neg]
    | nan => simp [le_def, le] at hp
  | inf s =>
    cases s
    · simp [le_def, le] at hy
    · cases p with
      | fin b => rfl
      | inf s' => cases s' <;> simp_all [le_def, le, sub, add, neg]
      | nan => simp [le_def, le] at hp
  | nan => simp [le_def, le] at hy

lemma mul64_scrollFactor_nonneg {xv : Fl} (h : fin 0 ≤ xv) :
    fin 0 ≤ mul binary64 scrollFactor xv := by
  rw [scrollFactor_eq]
  cases xv with
  | fin v =>
    have hv : 0 ≤ v := by simpa [le_def, le] using h
    exact round_nonneg _ _ (by positivity)
  | inf s =>
    cases s
    · simp [mul, le_def, le]
      norm_num
    · simp [le_def, le] at h
  | nan => simp [le_def, le] at h

/-- A scroll with a velocity that is not negative moves no vertex from the
left of 0 to its right. -/
lemma scroll_nonpos {xv x : Fl} (hv : fin 0 ≤ xv) (hx : x ≤ fin 0) :
    Terrain.scroll xv x ≤ fin 0 :=
  toFloat_nonpos (sub64_nonpos hx (mul64_scrollFactor_nonneg hv))

end Fl

namespace Terrain

/-- The vertex positions after the scroll loop of `Update`. -/
lemma Update_some (fuel : Nat) (t t' : Terrain) (xVelocity : Fl)
    (h : Update fuel t xVelocity = some t') :
    t'.width = t.width ∧ t'.maxY = t.maxY ∧ t'.minY = t.minY ∧
    (∃ ext : List Vector2f,
      t'.vertices =
        (t.vertices.map fun v => (⟨scroll xVelocity v.x, v.y⟩ : Vector2f)) ++ ext ∧
      ∀ p ∈ ext, ∃ v : Fl, p.y = stdMax t.minY (stdMin v t.maxY)) ∧
    ∃ p, t'.vertices.getLast? = some p ∧ p.x ≥ t.width :=
  GenerateTerrain_some fuel _ t' h

lemma Update_fuel_mono (fuel : Nat) (t t' : Terrain) (xVelocity : Fl) (k : Nat)
    (h : Update fuel t xVelocity = some t') : Update (fuel + k) t xVelocity = some t' :=
  GenerateTerrain_fuel_mono fuel _ t' k h

lemma Update_ne_nil (fuel : Nat) (t t' : Terrain) (xVelocity : Fl)
    (h : Update fuel t xVelocity = some t') : t'.vertices ≠ [] := by
  obtain ⟨-, -, -, -, p, hp, -⟩ := Update_some fuel t t' xVelocity h
  intro hnil
  rw [hnil] at hp
  simp at hp

/-- The function `Update` returns, given enough fuel, on a terrain of bounded
width whose last vertex is in the window, for a bounded velocity. -/
lemma Update_returns (t : Terrain) (xVelocity : Fl) (hw : BoundedWidth t)
    (hl : LastInWindow t) (hv : BoundedVelocity xVelocity) :
    ∃ fuel t', Update fuel t xVelocity = some t' := by
  obtain ⟨w, hw, -, hw2⟩ := hw
  obtain ⟨p, hp, hpx⟩ := hl
  obtain ⟨v, rfl, hv⟩ := hv
  refine GenerateTerrain_returns _ ⟨scroll (Fl.fin v) p.x, p.y⟩ w ?_
    (Fl.scroll_lower v p.x hv hpx) hw hw2
  simp only [List.getLast?_map, hp, Option.map_some']

/-- After `Update` the last vertex is in the window again. -/
lemma Update_window (fuel : Nat) (t t' : Terrain) (xVelocity : Fl)
    (h : Update fuel t xVelocity = some t') (hw : BoundedWidth t) :
    BoundedWidth t' ∧ LastInWindow t' := by
  obtain ⟨hwid, -, -, -, p, hp, hge⟩ := Update_some fuel t t' xVelocity h
  obtain ⟨w, hw, hw1, hw2⟩ := hw
  refine ⟨⟨w, by rw [hwid, hw], hw1, hw2⟩, p, hp, ?_⟩
  rw [hw] at hge
  exact Fl.le_trans' ((Fl.fin_le_fin _ _).mpr hw1) hge

lemma UpdateAll_fuel_mono (fuel k : Nat) : ∀ (xs : List Fl) (t t' : Terrain),
    UpdateAll fuel t xs = some t' → UpdateAll (fuel + k) t xs = some t' := by
  intro xs
  induction xs with
  | nil => intro t t' h; simpa [UpdateAll] using h
  | cons x rest ih =>
    intro t t' h
    rw [UpdateAll] at h ⊢
    split at h
    · exact absurd h (by simp)
    · rename_i t1 h1
      rw [Update_fuel_mono fuel t t1 x k h1]
      exact ih _ _ h

/-- Every sequence of `Update` calls with bounded velocities returns, given
enough fuel, on a terrain of bounded width whose last vertex is in the
window. -/
lemma UpdateAll_returns : ∀ (xs : List Fl) (t : Terrain), BoundedWidth t → LastInWindow t →
    (∀ xv ∈ xs, BoundedVelocity xv) → ∃ fuel t', UpdateAll fuel t xs = some t' := by
  intro xs
  induction xs with
  | nil => intro t _ _ _; exact ⟨0, t, rfl⟩
  | cons x rest ih =>
    intro t hw hl hv
    obtain ⟨f1, t1, h1⟩ := Update_returns t x hw hl (hv x (by simp))
    obtain ⟨hw1, hl1⟩ := Update_window f1 t t1 x h1 hw
    obtain ⟨f2, t2, h2⟩ := ih t1 hw1 hl1 (fun xv hxv => hv xv (List.mem_cons_of_mem _ hxv))
    refine ⟨f1 + f2, t2, ?_⟩
    rw [UpdateAll, Update_fuel_mono f1 t t1 x f2 h1]
    have := UpdateAll_fuel_mono f2 f1 rest t1 t2 h2
    rwa [Nat.add_comm] at this

/-- A freshly constructed terrain has its only vertex at `x = 0`, in the
window. -/
lemma new_lastInWindow (width startY maxY minY : Fl) (generator : Nat → Draw) :
    LastInWindow (new width startY maxY minY generator) := by
  refine ⟨⟨Fl.ofInt 0, startY⟩, by simp [new, AddVertex], ?_⟩
  rw [Fl.ofInt_eq 0 (by norm_num)]
  show Fl.fin _ ≤ Fl.fin _
  rw [Fl.fin_le_fin]
  norm_num

/-- A sequence of `Update` calls keeps every `y` inside `[minY, maxY]` once
all of them are. -/
lemma UpdateAll_y_range (fuel : Nat) : ∀ (xs : List Fl) (t t' : Terrain),
    UpdateAll fuel t xs = some t' → t.minY ≤ t.maxY →
    (∀ p ∈ t.vertices, t.minY ≤ p.y ∧ p.y ≤ t.maxY) →
    t'.minY = t.minY ∧ t'.maxY = t.maxY ∧ ∀ p ∈ t'.vertices, t.minY ≤ p.y ∧ p.y ≤ t.maxY := by
  intro xs
  induction xs with
  | nil =>
    intro t t' h _ hall
    simp only [UpdateAll, Option.some.injEq] at h
    subst h
    exact ⟨rfl, rfl, hall⟩
  | cons x rest ih =>
    intro t t' h hle hall
    rw [UpdateAll] at h
    split at h
    · exact absurd h (by simp)
    · rename_i t1 h1
      obtain ⟨-, hmax, hmin, ⟨ext, hext, hclamp⟩, -⟩ := Update_some fuel t t1 x h1
      have hall1 : ∀ p ∈ t1.vertices, t1.minY ≤ p.y ∧ p.y ≤ t1.maxY := by
        intro p hp
        rw [hmin, hmax]
        rw [hext] at hp
        rcases List.mem_append.mp hp with hp | hp
        · obtain ⟨q, hq, rfl⟩ := List.mem_map.mp hp
          exact hall q hq
        · obtain ⟨v, hv⟩ := hclamp p hp
          rw [hv]
          exact stdMax_stdMin_range _ _ _ hle
      have := ih t1 t' h (by rw [hmin, hmax]; exact hle) hall1
      rw [hmin, hmax] at this
      exact this

end Terrain

lemma mainTerrain_boundedWidth (generator : Nat → Draw) :
    Terrain.BoundedWidth (mainTerrain generator) :=
  ⟨800, by
    show Fl.ofInt 800 = _
    rw [Fl.ofInt_eq 800 (by norm_num)]; norm_num, by norm_num, by norm_num⟩

lemma boundedVelocity_ofInt (n : ℤ) (h : |n| ≤ 2 ^ 24) : Terrain.BoundedVelocity (Fl.ofInt n) := by
  refine ⟨n, Fl.ofInt_eq n h, ?_⟩
  have h1 : |(n : ℚ)| ≤ 2 ^ 24 := by
    have : ((|n| : ℤ) : ℚ) ≤ ((2 ^ 24 : ℤ) : ℚ) := by exact_mod_cast h
    simpa using this
  have : (2 : ℚ) ^ 24 ≤ 2 ^ 40 := by norm_num
  linarith

/-! ## Terrain: coverage and range of `y` -/

lemma mainTerrain_lastInWindow (generator : Nat → Draw) :
    Terrain.LastInWindow (mainTerrain generator) :=
  Terrain.new_lastInWindow _ _ _ _ _

lemma scroll_main_first :
    Terrain.scroll (Fl.fin 200000) (Fl.fin 0) = Fl.fin (-8589935 / 4294967296) :=
  (Fl.scroll_eval 200000 0 (35184371875 / 17592186044416) (-35184371875 / 17592186044416) (-8589935 / 4294967296)
    (Fl.round_eval binary64 ((11258999 / 1125899906842624) * 200000) (35184371875 / 17592186044416) (-9) (-61) 4611685990400000 (by norm_num [abs_of_nonneg, abs_of_nonpos]) (by norm_num [abs_of_nonneg, abs_of_nonpos]) (by norm_num [binary64]) (Or.inl (by norm_num [abs_lt])) (by norm_num) (by norm_num [binary64, abs_of_nonneg, abs_of_nonpos]))
    (Fl.round_eval binary64 (0 - (35184371875 / 17592186044416)) (-35184371875 / 17592186044416) (-9) (-61) (-4611685990400000) (by norm_num [abs_of_nonneg, abs_of_nonpos]) (by norm_num [abs_of_nonneg, abs_of_nonpos]) (by norm_num [binary64]) (Or.inl (by norm_num [abs_lt])) (by norm_num) (by norm_num [binary64, abs_of_nonneg, abs_of_nonpos]))
    (Fl.round_eval binary32 ((-35184371875 / 17592186044416)) (-8589935 / 4294967296) (-9) (-32) (-8589935) (by norm_num [abs_of_nonneg, abs_of_nonpos]) (by norm_num [abs_of_nonneg, abs_of_nonpos]) (by norm_num [binary32]) (Or.inl (by norm_num [abs_lt])) (by norm_num) (by norm_num [binary32, abs_of_nonneg, abs_of_nonpos])))

lemma scroll_main_first_neg :
    Terrain.scroll (Fl.fin (-200000)) (Fl.fin 0) = Fl.fin (8589935 / 4294967296) :=
  (Fl.scroll_eval (-200000) 0 (-35184371875 / 17592186044416) (35184371875 / 17592186044416) (8589935 / 4294967296)
    (Fl.round_eval binary64 ((11258999 / 1125899906842624) * (-200000)) (-35184371875 / 17592186044416) (-9) (-61) (-4611685990400000) (by norm_num [abs_of_nonneg, abs_of_nonpos]) (by norm_num [abs_of_nonneg, abs_of_nonpos]) (by norm_num [binary64]) (Or.inl (by norm_num [abs_lt])) (by norm_num) (by norm_num [binary64, abs_of_nonneg, abs_of_nonpos]))
    (Fl.round_eval binary64 (0 - (-35184371875 / 17592186044416)) (35184371875 / 17592186044416) (-9) (-61) 4611685990400000 (by norm_num [abs_of_nonneg, abs_of_nonpos]) (by norm_num [abs_of_nonneg, abs_of_nonpos]) (by norm_num [binary64]) (Or.inl (by norm_num [abs_lt])) (by norm_num) (by norm_num [binary64, abs_of_nonneg, abs_of_nonpos]))
    (Fl.round_eval binary32 ((35184371875 / 17592186044416)) (8589935 / 4294967296) (-9) (-32) 8589935 (by norm_num [abs_of_nonneg, abs_of_nonpos]) (by norm_num [abs_of_nonneg, abs_of_nonpos]) (by norm_num [binary32]) (Or.inl (by norm_num [abs_lt])) (by norm_num) (by norm_num [binary32, abs_of_nonneg, abs_of_nonpos])))

/-- C4: whenever `Update` returns, the last vertex has `x >= width`, for every
terrain, velocity and generator; and `Update` does return (with enough fuel)
when the width is within `[-2 ^ 23, 2 ^ 24]`, the last vertex is not left of
`-2 ^ 23` and the velocity is finite with magnitude at most `2 ^ 40`. -/
theorem Terrain_Update_last_reaches_width (t : Terrain) (xVelocity : Fl) :
    (∀ fuel t', Terrain.Update fuel t xVelocity = some t' →
      t'.width = t.width ∧ ∃ p, t'.vertices.getLast? = some p ∧ p.x ≥ t'.width) ∧
    (t.BoundedWidth → t.LastInWindow → Terrain.BoundedVelocity xVelocity →
      ∃ fuel t', Terrain.Update fuel t xVelocity = some t') := by
  refine ⟨?_, fun hw hl hv => Terrain.Update_returns t xVelocity hw hl hv⟩
  intro fuel t' ht'
  obtain ⟨hw, -, -, -, p, hp, hge⟩ := Terrain.Update_some fuel t t' xVelocity ht'
  exact ⟨hw, p, hp, by rw [hw]; exact hge⟩

/-- Witness of C4 at the terrain of `main` before its first tick: `Update`
returns and the last vertex has `x >= 800`. -/
theorem Terrain_Update_last_reaches_width_witness :
    ∃ fuel t', Terrain.Update fuel (mainTerrain steadyGenerator) (Fl.ofInt 200000) = some t' ∧
      ∃ p, t'.vertices.getLast? = some p ∧ p.x ≥ Fl.ofInt 800 := by
  obtain ⟨hlast, hret⟩ :=
    Terrain_Update_last_reaches_width (mainTerrain steadyGenerator) (Fl.ofInt 200000)
  obtain ⟨fuel, t', ht'⟩ := hret (mainTerrain_boundedWidth _) (mainTerrain_lastInWindow _)
    (boundedVelocity_ofInt 200000 (by norm_num))
  obtain ⟨hw, p, hp, hge⟩ := hlast fuel t' ht'
  exact ⟨fuel, t', ht', p, hp, by rw [hw] at hge; exact hge⟩

/-- C5, as stated, fails: the constructor stores `startY` unclamped, so with
`startY = 50` outside `[minY, maxY] = [120, 580]` the first vertex is out of
range, before and after an `Update`. -/
theorem Terrain_y_range_counterexample :
    (∃ p ∈ (Terrain.new (Fl.ofInt 800) (Fl.ofInt 50) (Fl.ofInt 580) (Fl.ofInt 120)
        steadyGenerator).vertices,
      p.y = Fl.fin 50 ∧ ¬ (Fl.fin 120 ≤ p.y ∧ p.y ≤ Fl.fin 580)) ∧
    ∃ fuel t', Terrain.UpdateAll fuel (Terrain.new (Fl.ofInt 800) (Fl.ofInt 50) (Fl.ofInt 580)
        (Fl.ofInt 120) steadyGenerator) [Fl.ofInt 200000] = some t' ∧
      t'.minY = Fl.fin 120 ∧ t'.maxY = Fl.fin 580 ∧
      ∃ p ∈ t'.vertices, p.y = Fl.fin 50 ∧ ¬ (t'.minY ≤ p.y ∧ p.y ≤ t'.maxY) := by
  have h50 : Fl.ofInt 50 = Fl.fin 50 := by rw [Fl.ofInt_eq 50 (by norm_num)]; norm_num
  have h120 : Fl.ofInt 120 = Fl.fin 120 := by rw [Fl.ofInt_eq 120 (by norm_num)]; norm_num
  have h580 : Fl.ofInt 580 = Fl.fin 580 := by rw [Fl.ofInt_eq 580 (by norm_num)]; norm_num
  have hno : ¬ (Fl.fin 120 ≤ Fl.fin 50 ∧ Fl.fin 50 ≤ Fl.fin 580) := by
    rw [Fl.fin_le_fin]; norm_num
  constructor
  · exact ⟨⟨Fl.ofInt 0, Fl.ofInt 50⟩, by simp [Terrain.new, Terrain.AddVertex], h50,
      by rw [h50]; exact hno⟩
  · obtain ⟨fuel, t', ht'⟩ := Terrain.UpdateAll_returns [Fl.ofInt 200000]
      (Terrain.new (Fl.ofInt 800) (Fl.ofInt 50) (Fl.ofInt 580) (Fl.ofInt 120) steadyGenerator)
      (mainTerrain_boundedWidth steadyGenerator) (Terrain.new_lastInWindow _ _ _ _ _)
      (by
        intro xv hxv
        rw [List.mem_singleton] at hxv
        subst hxv
        exact boundedVelocity_ofInt 200000 (by norm_num))
    refine ⟨fuel, t', ht', ?_⟩
    rw [Terrain.UpdateAll] at ht'
    split at ht'
    · exact absurd ht' (by simp)
    · rename_i t1 h1
      simp only [Terrain.UpdateAll, Option.some.injEq] at ht'
      subst ht'
      obtain ⟨-, hmax, hmin, ⟨ext, hext, -⟩, -⟩ := Terrain.Update_some _ _ _ _ h1
      have hmin' : t1.minY = Fl.fin 120 := by rw [hmin]; exact h120
      have hmax' : t1.maxY = Fl.fin 580 := by rw [hmax]; exact h580
      refine ⟨hmin', hmax', ⟨Terrain.scroll (Fl.ofInt 200000) (Fl.ofInt 0), Fl.ofInt 50⟩,
        ?_, h50, ?_⟩
      · rw [hext]; simp [Terrain.new, Terrain.AddVertex]
      · rw [hmin', hmax', h50]; exact hno

/-- C5, amended: for every terrain constructed with `minY <= startY <= maxY`,
whenever a sequence of `Update` calls returns, every vertex has its `y` within
`[minY, maxY]`; and the sequence does return (with enough fuel) when the width
is within `[-2 ^ 23, 2 ^ 24]` and every velocity is finite with magnitude at
most `2 ^ 40`. -/
theorem Terrain_y_range (width startY maxY minY : Fl) (generator : Nat → Draw)
    (hlo : minY ≤ startY) (hhi : startY ≤ maxY) (xs : List Fl) :
    (∀ fuel t', Terrain.UpdateAll fuel (Terrain.new width startY maxY minY generator) xs
      = some t' → ∀ p ∈ t'.vertices, minY ≤ p.y ∧ p.y ≤ maxY) ∧
    ((Terrain.new width startY maxY minY generator).BoundedWidth →
      (∀ xv ∈ xs, Terrain.BoundedVelocity xv) →
      ∃ fuel t', Terrain.UpdateAll fuel (Terrain.new width startY maxY minY generator) xs
        = some t') := by
  constructor
  · intro fuel t' ht'
    have := Terrain.UpdateAll_y_range fuel xs _ t' ht'
      (by simp only [Terrain.new, Terrain.AddVertex]; exact Fl.le_trans' hlo hhi)
      (by
        intro p hp
        simp only [Terrain.new, Terrain.AddVertex, List.nil_append, List.mem_singleton] at hp ⊢
        subst hp
        exact ⟨hlo, hhi⟩)
    exact this.2.2
  · intro hw hv
    exact Terrain.UpdateAll_returns xs _ hw (Terrain.new_lastInWindow _ _ _ _ _) hv

/-- Witness of C5 (amended) at the terrain of `main` and two ticks. -/
theorem Terrain_y_range_witness :
    ∃ fuel t', Terrain.UpdateAll fuel (mainTerrain steadyGenerator)
        [Fl.ofInt 200000, Fl.ofInt 200010] = some t' ∧
      ∀ p ∈ t'.vertices, Fl.ofInt 120 ≤ p.y ∧ p.y ≤ Fl.ofInt 580 := by
  obtain ⟨hall, hret⟩ :=
    Terrain_y_range (Fl.ofInt 800) (Fl.ofInt 450) (Fl.ofInt 580) (Fl.ofInt 120) steadyGenerator
      (by rw [Fl.ofInt_eq 120 (by norm_num), Fl.ofInt_eq 450 (by norm_num), Fl.fin_le_fin]
          norm_num)
      (by rw [Fl.ofInt_eq 450 (by norm_num), Fl.ofInt_eq 580 (by norm_num), Fl.fin_le_fin]
          norm_num)
      [Fl.ofInt 200000, Fl.ofInt 200010]
  obtain ⟨fuel, t', ht'⟩ := hret (mainTerrain_boundedWidth _) (by
    intro xv hxv
    simp only [List.mem_cons, List.mem_singleton, List.not_mem_nil, or_false] at hxv
    rcases hxv with rfl | rfl
    · exact boundedVelocity_ofInt 200000 (by norm_num)
    · exact boundedVelocity_ofInt 200010 (by norm_num))
  exact ⟨fuel, t', ht', hall fuel t' ht'⟩

/-- C6, as stated, fails for a negative velocity: one `Update` of the freshly
constructed terrain of `main` with `xVelocity = -200000` returns a polyline
whose first vertex has `x = 8589935 / 2 ^ 32 > 0`. -/
theorem Terrain_Update_covers_counterexample :
    ∃ fuel t' p, Terrain.Update fuel (mainTerrain steadyGenerator) (Fl.ofInt (-200000)) = some t' ∧
      t'.vertices.head? = some p ∧ p.x = Fl.fin (8589935 / 4294967296) ∧ ¬ (p.x ≤ Fl.fin 0) := by
  obtain ⟨fuel, t', ht'⟩ := Terrain.Update_returns (mainTerrain steadyGenerator)
    (Fl.ofInt (-200000)) (mainTerrain_boundedWidth _) (mainTerrain_lastInWindow _)
    (boundedVelocity_ofInt (-200000) (by norm_num))
  obtain ⟨-, -, -, ⟨ext, hext, -⟩, -⟩ := Terrain.Update_some _ _ _ _ ht'
  have hx : Terrain.scroll (Fl.ofInt (-200000)) (Fl.ofInt 0) = Fl.fin (8589935 / 4294967296) := by
    rw [Fl.ofInt_eq (-200000) (by norm_num), Fl.ofInt_eq 0 (by norm_num)]
    have := scroll_main_first_neg
    norm_num at this ⊢
    exact this
  refine ⟨fuel, t', ⟨Terrain.scroll (Fl.ofInt (-200000)) (Fl.ofInt 0), Fl.ofInt 450⟩, ht',
    ?_, hx, ?_⟩
  · rw [hext]; simp [mainTerrain, Terrain.new, Terrain.AddVertex]
  · rw [hx, Fl.fin_le_fin]; norm_num

/-- C6, amended: whenever `Update` returns, the last vertex has `x >= width`,
and the first vertex has `x <= 0` when it had `x <= 0` before the call and
`xVelocity >= 0`; `Update` does return (with enough fuel) when the width is
within `[-2 ^ 23, 2 ^ 24]`, the last vertex is not left of `-2 ^ 23` and the
velocity is finite with magnitude at most `2 ^ 40`. -/
theorem Terrain_Update_covers (t : Terrain) (xVelocity : Fl) :
    (∀ fuel t', Terrain.Update fuel t xVelocity = some t' →
      (∃ p, t'.vertices.getLast? = some p ∧ p.x ≥ t.width) ∧
      (Fl.fin 0 ≤ xVelocity → ∀ p0, t.vertices.head? = some p0 → p0.x ≤ Fl.fin 0 →
        ∃ p0', t'.vertices.head? = some p0' ∧ p0'.x ≤ Fl.fin 0)) ∧
    (t.BoundedWidth → t.LastInWindow → Terrain.BoundedVelocity xVelocity →
      ∃ fuel t', Terrain.Update fuel t xVelocity = some t') := by
  refine ⟨?_, fun hw hl hv => Terrain.Update_returns t xVelocity hw hl hv⟩
  intro fuel t' ht'
  obtain ⟨-, -, -, ⟨ext, hext, -⟩, hlast⟩ := Terrain.Update_some fuel t t' xVelocity ht'
  refine ⟨hlast, ?_⟩
  intro hv p0 hp0 hx
  refine ⟨⟨Terrain.scroll xVelocity p0.x, p0.y⟩, ?_, Fl.scroll_nonpos hv hx⟩
  rw [hext]
  cases hvs : t.vertices with
  | nil => rw [hvs] at hp0; simp at hp0
  | cons a rest =>
    rw [hvs] at hp0
    simp only [List.head?_cons, Option.some.injEq] at hp0
    subst hp0
    simp

/-- Witness of C6 (amended) at the terrain of `main` before its first tick. -/
theorem Terrain_Update_covers_witness :
    ∃ fuel t', Terrain.Update fuel (mainTerrain steadyGenerator) (Fl.ofInt 200000) = some t' ∧
      (∃ p, t'.vertices.getLast? = some p ∧ p.x ≥ Fl.ofInt 800) ∧
      ∃ p0', t'.vertices.head? = some p0' ∧ p0'.x ≤ Fl.fin 0 := by
  obtain ⟨hcov, hret⟩ := Terrain_Update_covers (mainTerrain steadyGenerator) (Fl.ofInt 200000)
  obtain ⟨fuel, t', ht'⟩ := hret (mainTerrain_boundedWidth _) (mainTerrain_lastInWindow _)
    (boundedVelocity_ofInt 200000 (by norm_num))
  obtain ⟨hlast, hfirst⟩ := hcov fuel t' ht'
  exact ⟨fuel, t', ht', hlast,
    hfirst (by rw [Fl.ofInt_eq 200000 (by norm_num), Fl.fin_le_fin]; norm_num)
      ⟨Fl.ofInt 0, Fl.ofInt 450⟩
      (by simp [mainTerrain, Terrain.new, Terrain.AddVertex])
      (by
        show Fl.ofInt 0 ≤ Fl.fin 0
        rw [Fl.ofInt_eq 0 (by norm_num), Fl.fin_le_fin]
        norm_num)⟩

/-! ## Terrain: the scroll of `Update` -/

lemma scroll_805 : Terrain.scroll (Fl.fin 1000) (Fl.fin 805) = Fl.fin 805 :=
  (Fl.scroll_eval 1000 805 (1407374875 / 140737488355328) (3540427397458255 / 4398046511104) 805
    (Fl.round_eval binary64 ((11258999 / 1125899906842624) * 1000) (1407374875 / 140737488355328) (-17) (-69) 5902958067712000 (by norm_num [abs_of_nonneg, abs_of_nonpos]) (by norm_num [abs_of_nonneg, abs_of_nonpos]) (by norm_num [binary64]) (Or.inl (by norm_num [abs_lt])) (by norm_num) (by norm_num [binary64, abs_of_nonneg, abs_of_nonpos]))
    (Fl.round_eval binary64 (805 - (1407374875 / 140737488355328)) (3540427397458255 / 4398046511104) 9 (-43) 7080854794916510 (by norm_num [abs_of_nonneg, abs_of_nonpos]) (by norm_num [abs_of_nonneg, abs_of_nonpos]) (by norm_num [binary64]) (Or.inl (by norm_num [abs_lt])) (by norm_num) (by norm_num [binary64, abs_of_nonneg, abs_of_nonpos]))
    (Fl.round_eval binary32 ((3540427397458255 / 4398046511104)) 805 9 (-14) 13189120 (by norm_num [abs_of_nonneg, abs_of_nonpos]) (by norm_num [abs_of_nonneg, abs_of_nonpos]) (by norm_num [binary32]) (Or.inl (by norm_num [abs_lt])) (by norm_num) (by norm_num [binary32, abs_of_nonneg, abs_of_nonpos])))

/-- C7, as stated, fails: the new `x` is the `float` nearest to the `double`
difference, not the exact one.  A vertex at `x = 805` stays at 805 for
`xVelocity = 1000`, and on the first tick of `main` the vertex at 0 moves to
`-8589935 / 2 ^ 32`, which is not `0 - 0.00000001 * 200000 = -1 / 500`. -/
theorem Terrain_Update_frame_counterexample :
    (∃ t', Terrain.Update 1 overshootTerrain (Fl.fin 1000) = some t' ∧
      overshootTerrain.vertices[0]? = some ⟨Fl.fin 805, Fl.fin 450⟩ ∧
      t'.vertices[0]? = some ⟨Fl.fin 805, Fl.fin 450⟩ ∧
      (805 : ℚ) ≠ 805 - 1 / 100000000 * 1000) ∧
    (∃ fuel t', Terrain.Update fuel (mainTerrain steadyGenerator) (Fl.fin 200000) = some t' ∧
      (mainTerrain steadyGenerator).vertices[0]? = some ⟨Fl.fin 0, Fl.fin 450⟩ ∧
      t'.vertices[0]? = some ⟨Fl.fin (-8589935 / 4294967296), Fl.fin 450⟩ ∧
      (-8589935 / 4294967296 : ℚ) ≠ 0 - 1 / 100000000 * 200000) := by
  have e0 : Fl.ofInt 0 = Fl.fin 0 := by rw [Fl.ofInt_eq 0 (by norm_num)]; norm_num
  have e450 : Fl.ofInt 450 = Fl.fin 450 := by rw [Fl.ofInt_eq 450 (by norm_num)]; norm_num
  have e800 : Fl.ofInt 800 = Fl.fin 800 := by rw [Fl.ofInt_eq 800 (by norm_num)]; norm_num
  have e805 : Fl.ofInt 805 = Fl.fin 805 := by rw [Fl.ofInt_eq 805 (by norm_num)]; norm_num
  constructor
  · refine ⟨{ overshootTerrain with vertices := [⟨Fl.fin 805, Fl.fin 450⟩] }, ?_, ?_, ?_, ?_⟩
    · have hge : Fl.fin 805 ≥ Fl.fin 800 := by
        show Fl.fin 800 ≤ Fl.fin 805
        rw [Fl.fin_le_fin]; norm_num
      simp [Terrain.Update, Terrain.GenerateTerrain, overshootTerrain, e450, e800, e805,
        scroll_805, hge]
    · simp [overshootTerrain, e450, e805]
    · simp
    · norm_num
  · obtain ⟨fuel, t', ht'⟩ := Terrain.Update_returns (mainTerrain steadyGenerator)
      (Fl.fin 200000) (mainTerrain_boundedWidth _) (mainTerrain_lastInWindow _)
      ⟨200000, rfl, by norm_num [abs_of_nonneg]⟩
    obtain ⟨-, -, -, ⟨ext, hext, -⟩, -⟩ := Terrain.Update_some _ _ _ _ ht'
    refine ⟨fuel, t', ht', ?_, ?_, ?_⟩
    · simp [mainTerrain, Terrain.new, Terrain.AddVertex, e0, e450]
    · rw [hext]
      simp [mainTerrain, Terrain.new, Terrain.AddVertex, e0, e450, scroll_main_first]
    · norm_num

/-- C7, amended: `Update` removes and reorders nothing.  Whenever it returns,
the polyline has at least as many vertices as before, and every index that
held a vertex `p` before holds the vertex with the same `y` and with the `x`
that the statement `x -= 0.00000001f * xVelocity` stores: the `float` nearest
to the `double` difference (`Terrain.scroll`).  `Update` does return (with
enough fuel) when the width is within `[-2 ^ 23, 2 ^ 24]`, the last vertex is
not left of `-2 ^ 23` and the velocity is finite with magnitude at most
`2 ^ 40`. -/
theorem Terrain_Update_frame (t : Terrain) (xVelocity : Fl) :
    (∀ fuel t', Terrain.Update fuel t xVelocity = some t' →
      t.vertices.length ≤ t'.vertices.length ∧
      ∀ (i : Nat) (p : Vector2f), t.vertices[i]? = some p →
        t'.vertices[i]? = some ⟨Terrain.scroll xVelocity p.x, p.y⟩) ∧
    (t.BoundedWidth → t.LastInWindow → Terrain.BoundedVelocity xVelocity →
      ∃ fuel t', Terrain.Update fuel t xVelocity = some t') := by
  refine ⟨?_, fun hw hl hv => Terrain.Update_returns t xVelocity hw hl hv⟩
  intro fuel t' ht'
  obtain ⟨-, -, -, ⟨ext, hext, -⟩, -⟩ := Terrain.Update_some fuel t t' xVelocity ht'
  constructor
  · rw [hext]; simp
  · intro i p hp
    have hi : i < t.vertices.length := by
      by_contra hcon
      rw [List.getElem?_eq_none (not_lt.mp hcon)] at hp
      exact absurd hp (by simp)
    rw [hext, List.getElem?_append_left (by simpa using hi), List.getElem?_map, hp]
    rfl

/-- Witness of C7 (amended) at the terrain of `main` before its first tick:
the only vertex (0, 450) is still at index 0, moved to
`x = -8589935 / 2 ^ 32`. -/
theorem Terrain_Update_frame_witness :
    ∃ fuel t', Terrain.Update fuel (mainTerrain steadyGenerator) (Fl.fin 200000) = some t' ∧
      1 ≤ t'.vertices.length ∧
      t'.vertices[0]? = some ⟨Fl.fin (-8589935 / 4294967296), Fl.ofInt 450⟩ := by
  obtain ⟨hframe, hret⟩ := Terrain_Update_frame (mainTerrain steadyGenerator) (Fl.fin 200000)
  obtain ⟨fuel, t', ht'⟩ := hret (mainTerrain_boundedWidth _) (mainTerrain_lastInWindow _)
    ⟨200000, rfl, by norm_num [abs_of_nonneg]⟩
  obtain ⟨hlen, hidx⟩ := hframe fuel t' ht'
  have e0 : Fl.ofInt 0 = Fl.fin 0 := by rw [Fl.ofInt_eq 0 (by norm_num)]; norm_num
  have h0 := hidx 0 ⟨Fl.ofInt 0, Fl.ofInt 450⟩
    (by simp [mainTerrain, Terrain.new, Terrain.AddVertex])
  rw [show (⟨Fl.ofInt 0, Fl.ofInt 450⟩ : Vector2f).x = Fl.fin 0 from e0, scroll_main_first] at h0
  exact ⟨fuel, t', ht', by simpa [mainTerrain, Terrain.new, Terrain.AddVertex] using hlen, h0⟩

/-! ## The lander body -/

namespace Fl

lemma add_zero_of_isFloat (x : Fl) (h : x.IsFloat) : x + fin 0 = x := by
  cases x with
  | fin q =>
    rw [fin_add_fin, add_zero]
    exact round_of_isRep _ _ h.1 h.2
  | inf s => rfl
  | nan => rfl

lemma isFloat_intCast (n : ℤ) (h : |n| ≤ 2 ^ 24) : (fin (n : ℚ)).IsFloat :=
  ⟨isRep32_intCast n h, abs_int_lt_emax32 n h⟩

end Fl

namespace Lander

lemma UpdatePosition_thrustersOn (sin cos : Fl → Fl) (l : Lander) :
    (UpdatePosition sin cos l).thrustersOn = l.thrustersOn := rfl

lemma UpdatePosition_currentSpeed (sin cos : Fl → Fl) (l : Lander) :
    (UpdatePosition sin cos l).currentSpeed =
      l.currentSpeed.add (gravityForce.add (boosterForce sin cos l)) := rfl

lemma boosterForce_off (sin cos : Fl → Fl) (l : Lander) (h : l.thrustersOn = false) :
    boosterForce sin cos l = ⟨Fl.ofInt 0, Fl.ofInt 0⟩ := by
  simp [boosterForce, h]

/-- With the thrusters off the total force is `(0, 4)`. -/
lemma totalForce_off (sin cos : Fl → Fl) (l : Lander) (h : l.thrustersOn = false) :
    gravityForce.add (boosterForce sin cos l) = ⟨Fl.fin 0, Fl.fin 4⟩ := by
  have e0 : Fl.ofInt 0 = Fl.fin 0 := by rw [Fl.ofInt_eq 0 (by norm_num)]; norm_num
  have e4 : Fl.ofInt GRAVITY = Fl.fin 4 := by
    rw [Fl.ofInt_eq GRAVITY (by norm_num [GRAVITY])]; norm_num [GRAVITY]
  rw [boosterForce_off sin cos l h]
  simp only [Vector2f.add, gravityForce, e0, e4, Vector2f.mk.injEq]
  constructor
  · have := Fl.add_int 0 0 (by norm_num)
    simpa using this
  · have := Fl.add_int 4 0 (by norm_num)
    simpa using this

/-- With the thrusters off one call adds `(0, 4)` to the velocity, in `float`
arithmetic. -/
lemma UpdatePosition_currentSpeed_off (sin cos : Fl → Fl) (l : Lander)
    (h : l.thrustersOn = false) :
    (UpdatePosition sin cos l).currentSpeed =
      ⟨l.currentSpeed.x + Fl.fin 0, l.currentSpeed.y + Fl.fin 4⟩ := by
  rw [UpdatePosition_currentSpeed, totalForce_off sin cos l h]
  rfl

lemma UpdatePositionN_thrustersOn (sin cos : Fl → Fl) (n : Nat) (l : Lander) :
    (UpdatePositionN sin cos n l).thrustersOn = l.thrustersOn := by
  induction n generalizing l with
  | zero => rfl
  | succ n ih => rw [UpdatePositionN, ih, UpdatePosition_thrustersOn]

/-- With the thrusters off the horizontal velocity, a `float`, stays as it
is. -/
lemma UpdatePositionN_x_off (sin cos : Fl → Fl) (n : Nat) (l : Lander)
    (h : l.thrustersOn = false) (hx : l.currentSpeed.x.IsFloat) :
    (UpdatePositionN sin cos n l).currentSpeed.x = l.currentSpeed.x := by
  induction n generalizing l with
  | zero => rfl
  | succ n ih =>
    have h1 : (UpdatePosition sin cos l).currentSpeed.x = l.currentSpeed.x := by
      rw [UpdatePosition_currentSpeed_off sin cos l h]
      exact Fl.add_zero_of_isFloat _ hx
    rw [UpdatePositionN, ih (UpdatePosition sin cos l)
      (by rw [UpdatePosition_thrustersOn]; exact h) (by rw [h1]; exact hx), h1]

/-- With the thrusters off an integer vertical velocity grows by exactly 4 at
each call while it stays within `2 ^ 24` in magnitude. -/
lemma UpdatePositionN_y_off (sin cos : Fl → Fl) (n : Nat) : ∀ (l : Lander) (vy0 : ℤ),
    l.thrustersOn = false → l.currentSpeed.y = Fl.fin vy0 → |vy0| ≤ 2 ^ 24 →
    |vy0 + 4 * (n : ℤ)| ≤ 2 ^ 24 →
    (UpdatePositionN sin cos n l).currentSpeed.y = Fl.fin ((vy0 + 4 * (n : ℤ) : ℤ)) := by
  induction n with
  | zero => intro l vy0 _ hy _ _; simpa [UpdatePositionN] using hy
  | succ n ih =>
    intro l vy0 h hy h0 hn
    have hb0 := abs_le.mp h0
    have hbn := abs_le.mp hn
    push_cast at hbn
    have h4 : |vy0 + 4| ≤ 2 ^ 24 := abs_le.mpr ⟨by linarith, by linarith [hbn.2]⟩
    have h1 : (UpdatePosition sin cos l).currentSpeed.y = Fl.fin ((vy0 + 4 : ℤ)) := by
      rw [UpdatePosition_currentSpeed_off sin cos l h]
      show l.currentSpeed.y + Fl.fin 4 = _
      rw [hy]
      have := Fl.add_int vy0 4 h4
      simpa using this
    rw [UpdatePositionN, ih (UpdatePosition sin cos l) (vy0 + 4)
      (by rw [UpdatePosition_thrustersOn]; exact h) h1 h4
      (abs_le.mpr ⟨by linarith [hbn.1], by linarith [hbn.2]⟩)]
    congr 2
    push_cast
    ring

end Lander

/-- C8, as stated, fails: `float` addition absorbs the 4 once the velocity is
large.  From the vertical velocity `2 ^ 26 = 67108864`, with the thrusters off,
the velocity after three calls of `UpdatePosition` is still `2 ^ 26`, not
`2 ^ 26 + 12`. -/
theorem Lander_velocity_thrusters_off_counterexample :
    (Lander.UpdatePositionN (fun _ => Fl.fin 0) (fun _ => Fl.fin 1) 3
      ⟨⟨Fl.fin 400, Fl.fin 200⟩, Fl.fin 0, false, ⟨Fl.fin 200000, Fl.fin 67108864⟩⟩).currentSpeed
      = ⟨Fl.fin 200000, Fl.fin 67108864⟩ ∧
    (67108864 : ℚ) ≠ 67108864 + 3 * 4 := by
  have hv : (Fl.fin 67108864 + Fl.fin 4 : Fl) = Fl.fin 67108864 :=
    ((Fl.fin_add_fin 67108864 4).trans (Fl.round_eval binary32 (67108864 + 4) 67108864 26 3 8388608 (by norm_num [abs_of_nonneg, abs_of_nonpos]) (by norm_num [abs_of_nonneg, abs_of_nonpos]) (by norm_num [binary32]) (Or.inr ⟨by norm_num, by norm_num [abs_of_nonneg, abs_of_nonpos]⟩) (by norm_num) (by norm_num [binary32, abs_of_nonneg, abs_of_nonpos])))

  have hx : (Fl.fin 200000 + Fl.fin 0 : Fl) = Fl.fin 200000 := by
    have := Fl.add_int 200000 0 (by norm_num)
    simpa using this
  have step : ∀ l : Lander, l.thrustersOn = false →
      l.currentSpeed = ⟨Fl.fin 200000, Fl.fin 67108864⟩ →
      (Lander.UpdatePosition (fun _ => Fl.fin 0) (fun _ => Fl.fin 1) l).currentSpeed = ⟨Fl.fin 200000, Fl.fin 67108864⟩ := by
    intro l h hc
    rw [Lander.UpdatePosition_currentSpeed_off (fun _ => Fl.fin 0) (fun _ => Fl.fin 1) l h, hc]
    simp only [hx, hv]
  refine ⟨?_, by norm_num⟩
  simp only [Lander.UpdatePositionN]
  exact step _ rfl (step _ rfl (step _ rfl rfl))

/-- C8, amended: with the thrusters off, each call of `UpdatePosition` adds
`(0, GRAVITY)` to the velocity in `float` arithmetic, with `GRAVITY = 4`.
After `n` calls the horizontal velocity, a `float`, is what it was, and the
vertical velocity is exactly `vy0 + n * GRAVITY` when `vy0` is an integer and
`vy0` and `vy0 + 4 * n` are at most `2 ^ 24` in magnitude. -/
theorem Lander_velocity_thrusters_off (sin cos : Fl → Fl) (n : Nat) (l : Lander)
    (h : l.thrustersOn = false) :
    (Lander.UpdatePosition sin cos l).currentSpeed =
      ⟨l.currentSpeed.x + Fl.fin 0, l.currentSpeed.y + Fl.ofInt GRAVITY⟩ ∧
    (l.currentSpeed.x.IsFloat →
      (Lander.UpdatePositionN sin cos n l).currentSpeed.x = l.currentSpeed.x) ∧
    (∀ vy0 : ℤ, l.currentSpeed.y = Fl.fin vy0 → |vy0| ≤ 2 ^ 24 → |vy0 + 4 * (n : ℤ)| ≤ 2 ^ 24 →
      (Lander.UpdatePositionN sin cos n l).currentSpeed.y =
        Fl.fin ((vy0 + n * GRAVITY : ℤ))) ∧
    GRAVITY = 4 := by
  refine ⟨?_, Lander.UpdatePositionN_x_off sin cos n l h, ?_, rfl⟩
  · rw [Lander.UpdatePosition_currentSpeed_off sin cos l h,
      Fl.ofInt_eq GRAVITY (by norm_num [GRAVITY])]
    norm_num [GRAVITY]
  · intro vy0 hy h0 hn
    rw [Lander.UpdatePositionN_y_off sin cos n l vy0 h hy h0 hn]
    congr 2
    simp only [GRAVITY]
    ring

/-- Witness of C8 (amended): three ticks from the initial velocity (200000, 0)
of `main` give the velocity (200000, 12). -/
theorem Lander_velocity_thrusters_off_witness :
    (Lander.UpdatePositionN (fun _ => Fl.fin 0) (fun _ => Fl.fin 1) 3 initialLander).currentSpeed.x = Fl.ofInt 200000 ∧
    (Lander.UpdatePositionN (fun _ => Fl.fin 0) (fun _ => Fl.fin 1) 3 initialLander).currentSpeed.y = Fl.fin 12 := by
  have e0 : Fl.ofInt 0 = Fl.fin ((0 : ℤ) : ℚ) := Fl.ofInt_eq 0 (by norm_num)
  have e2 : Fl.ofInt 200000 = Fl.fin ((200000 : ℤ) : ℚ) := Fl.ofInt_eq 200000 (by norm_num)
  obtain ⟨-, hx, hy, -⟩ := Lander_velocity_thrusters_off (fun _ => Fl.fin 0) (fun _ => Fl.fin 1) 3 initialLander rfl
  constructor
  · exact hx (by
      show (Fl.ofInt 200000).IsFloat
      rw [e2]
      exact Fl.isFloat_intCast 200000 (by norm_num))
  · have := hy 0 e0 (by norm_num) (by norm_num)
    rw [this]
    norm_num [GRAVITY]

/-- C9, as stated, fails: the new vertical position is a `float` sum.  On the
first tick of `main` the lander, at `y = 200` with the new vertical velocity
4, stays at `y = 200`, which is not `200 + 0.00000001 * 4`. -/
theorem Lander_UpdatePosition_frame_counterexample :
    initialLander.position.y = Fl.fin 200 ∧
    (Lander.UpdatePosition (fun _ => Fl.fin 0) (fun _ => Fl.fin 1) initialLander).currentSpeed.y = Fl.fin 4 ∧
    (Lander.UpdatePosition (fun _ => Fl.fin 0) (fun _ => Fl.fin 1) initialLander).position.y = Fl.fin 200 ∧
    (200 : ℚ) ≠ 200 + 1 / 100000000 * 4 := by
  have e0 : Fl.ofInt 0 = Fl.fin 0 := by rw [Fl.ofInt_eq 0 (by norm_num)]; norm_num
  have e200 : Fl.ofInt 200 = Fl.fin 200 := by rw [Fl.ofInt_eq 200 (by norm_num)]; norm_num
  have hv : (Fl.fin 0 + Fl.fin 4 : Fl) = Fl.fin 4 := by
    have := Fl.add_int 0 4 (by norm_num)
    simpa using this
  have hm : (Fl.fin 4 * Fl.fin (11258999 / 1125899906842624) : Fl) = Fl.fin (11258999 / 281474976710656) :=
    ((Fl.fin_mul_fin 4 (11258999 / 1125899906842624)).trans (Fl.round_eval binary32 (4 * (11258999 / 1125899906842624)) (11258999 / 281474976710656) (-25) (-48) 11258999 (by norm_num [abs_of_nonneg, abs_of_nonpos]) (by norm_num [abs_of_nonneg, abs_of_nonpos]) (by norm_num [binary32]) (Or.inl (by norm_num [abs_lt])) (by norm_num) (by norm_num [binary32, abs_of_nonneg, abs_of_nonpos])))
  have ha : (Fl.fin 200 + Fl.fin (11258999 / 281474976710656) : Fl) = Fl.fin 200 :=
    ((Fl.fin_add_fin 200 (11258999 / 281474976710656)).trans (Fl.round_eval binary32 (200 + (11258999 / 281474976710656)) 200 7 (-16) 13107200 (by norm_num [abs_of_nonneg, abs_of_nonpos]) (by norm_num [abs_of_nonneg, abs_of_nonpos]) (by norm_num [binary32]) (Or.inl (by norm_num [abs_lt])) (by norm_num) (by norm_num [binary32, abs_of_nonneg, abs_of_nonpos])))

  have hs : (Lander.UpdatePosition (fun _ => Fl.fin 0) (fun _ => Fl.fin 1) initialLander).currentSpeed.y = Fl.fin 4 := by
    rw [Lander.UpdatePosition_currentSpeed_off (fun _ => Fl.fin 0) (fun _ => Fl.fin 1) _ rfl]
    show Fl.ofInt 0 + Fl.fin 4 = _
    rw [e0, hv]
  refine ⟨e200, hs, ?_, by norm_num⟩
  show Fl.ofInt 200 + (Lander.UpdatePosition (fun _ => Fl.fin 0) (fun _ => Fl.fin 1) initialLander).currentSpeed.y * scrollFactor
    = _
  rw [hs, e200, Fl.scrollFactor_eq, hm, ha]

/-- C9, amended: for every lander state, `UpdatePosition` leaves the
horizontal position, the rotation and the thruster flag unchanged, and sets
the vertical position to the `float` sum of the old one and the `float`
product of the updated vertical velocity and the literal `0.00000001f`; the
updated vertical velocity is the `float` sum of the old one and the vertical
total force. -/
theorem Lander_UpdatePosition_frame (sin cos : Fl → Fl) (l : Lander) :
    (Lander.UpdatePosition sin cos l).position.x = l.position.x ∧
    (Lander.UpdatePosition sin cos l).rotation = l.rotation ∧
    (Lander.UpdatePosition sin cos l).thrustersOn = l.thrustersOn ∧
    (Lander.UpdatePosition sin cos l).position.y =
      l.position.y + (Lander.UpdatePosition sin cos l).currentSpeed.y * scrollFactor ∧
    (Lander.UpdatePosition sin cos l).currentSpeed.y =
      l.currentSpeed.y + (Lander.gravityForce.y + (Lander.boosterForce sin cos l).y) :=
  ⟨rfl, rfl, rfl, rfl, rfl⟩

/-! ## The outcome classifier -/

namespace Fl

/-- For two values that are not NaN, `a > b` fails exactly when `a <= b`. -/
lemma not_gt_iff_le {a b : Fl} (ha : a ≠ nan) (hb : b ≠ nan) : ¬ (a > b) ↔ a ≤ b := by
  show ¬ (b < a) ↔ a ≤ b
  rw [lt_def, le_def]
  cases a with
  | fin x =>
    cases b with
    | fin y => simp [lt, le]
    | inf s => cases s <;> simp [lt, le]
    | nan => exact absurd rfl hb
  | inf s =>
    cases b with
    | fin y => cases s <;> simp [lt, le]
    | inf s' => cases s <;> cases s' <;> simp [lt, le]
    | nan => exact absurd rfl hb
  | nan => exact absurd rfl ha

lemma abs_ne_nan {a : Fl} (h : a ≠ nan) : abs a ≠ nan := by
  cases a with
  | fin x => simp [abs]
  | inf s => simp [abs]
  | nan => exact absurd rfl h

lemma ofInt_ne_nan (n : ℤ) (h : |n| ≤ 2 ^ 24) : ofInt n ≠ nan := by
  rw [ofInt_eq n h]; simp

lemma isRep32_two : IsRep binary32 (2 : ℚ) := by
  have := isRep32_intCast 2 (by norm_num)
  simpa using this

lemma isRep32_neg_two : IsRep binary32 (-2 : ℚ) := by
  have := isRep32_intCast (-2) (by norm_num)
  simpa using this

/-- A `float` difference whose exact value is at most 2 in magnitude is at
most 2 in magnitude. -/
lemma abs_sub_le_two (a b : ℚ) (h : |a - b| ≤ 2) :
    abs (fin a - fin b) ≤ fin 2 := by
  have hb := abs_le.mp h
  rw [fin_sub_fin]
  have h1 : round binary32 (a - b) ≤ fin 2 :=
    round_le_of_le binary32 (by decide) _ 2 isRep32_two (by norm_num [binary32]) hb.2
  have h2 : fin (-2) ≤ round binary32 (a - b) :=
    le_round_of_le binary32 (by decide) _ (-2) isRep32_neg_two (by norm_num [binary32]) hb.1
  obtain ⟨r, hr, hr1, hr2⟩ := fin_of_between h2 h1
  rw [hr]
  show fin |r| ≤ fin 2
  rw [fin_le_fin]
  exact abs_le.mpr ⟨hr1, hr2⟩

end Fl

/-- The function `Crashed` returns false exactly when none of its three
comparisons holds. -/
lemma Crashed_eq_false (pFrom pTo : Vector2f) (lander : Lander) :
    Crashed pFrom pTo lander = false ↔
      ¬ (Fl.abs (pFrom.y - pTo.y) > Fl.ofInt 2) ∧
      ¬ (lander.currentSpeed.x > Fl.ofInt MAX_HORIZONTAL_LANDING_SPEED) ∧
      ¬ (lander.currentSpeed.y > Fl.ofInt MAX_VERTICAL_LANDING_SPEED) := by
  unfold Crashed Lander.GetCurrentSpeed
  by_cases h1 : Fl.abs (pFrom.y - pTo.y) > Fl.ofInt 2
  · simp [h1]
  · by_cases h2 : lander.currentSpeed.x > Fl.ofInt MAX_HORIZONTAL_LANDING_SPEED
    · simp [h1, h2]
    · by_cases h3 : lander.currentSpeed.y > Fl.ofInt MAX_VERTICAL_LANDING_SPEED
      · simp [h1, h2, h3]
      · simp [h1, h2, h3]

/-- The three comparisons of `Crashed` as `<=`, for values that are not NaN. -/
lemma Crashed_eq_false_of_ne_nan (pFrom pTo : Vector2f) (lander : Lander)
    (hd : pFrom.y - pTo.y ≠ Fl.nan) (hx : lander.currentSpeed.x ≠ Fl.nan)
    (hy : lander.currentSpeed.y ≠ Fl.nan) :
    Crashed pFrom pTo lander = false ↔
      Fl.abs (pFrom.y - pTo.y) ≤ Fl.fin 2 ∧ lander.currentSpeed.x ≤ Fl.fin 70000 ∧
        lander.currentSpeed.y ≤ Fl.fin 60000 := by
  have e2 : Fl.ofInt 2 = Fl.fin 2 := by rw [Fl.ofInt_eq 2 (by norm_num)]; norm_num
  have e7 : Fl.ofInt MAX_HORIZONTAL_LANDING_SPEED = Fl.fin 70000 := by
    rw [Fl.ofInt_eq _ (by norm_num [MAX_HORIZONTAL_LANDING_SPEED])]
    norm_num [MAX_HORIZONTAL_LANDING_SPEED]
  have e6 : Fl.ofInt MAX_VERTICAL_LANDING_SPEED = Fl.fin 60000 := by
    rw [Fl.ofInt_eq _ (by norm_num [MAX_VERTICAL_LANDING_SPEED])]
    norm_num [MAX_VERTICAL_LANDING_SPEED]
  rw [Crashed_eq_false, e2, e7, e6,
    Fl.not_gt_iff_le (Fl.abs_ne_nan hd) (by simp),
    Fl.not_gt_iff_le hx (by simp), Fl.not_gt_iff_le hy (by simp)]

/-- C1, as stated, fails: the height difference is a `float` difference.  For
the heights 2 and `-2 ^ (-30)`, both of type `float`, the difference rounds to
2 and `Crashed` returns false (Landed) with the velocity (0, 0), although the
exact difference exceeds 2. -/
theorem Crashed_eq_false_iff_counterexample :
    Crashed ⟨Fl.fin 0, Fl.fin 2⟩ ⟨Fl.fin 40, Fl.fin (-1 / 1073741824)⟩
      ⟨⟨Fl.fin 400, Fl.fin 0⟩, Fl.fin 0, false, ⟨Fl.fin 0, Fl.fin 0⟩⟩ = false ∧
    (Fl.fin 2).IsFloat ∧ (Fl.fin (-1 / 1073741824)).IsFloat ∧
    ¬ (|(2 : ℚ) - (-1 / 1073741824)| ≤ 2) := by
  have hsub : (Fl.fin 2 - Fl.fin (-1 / 1073741824) : Fl) = Fl.fin 2 :=
    ((Fl.fin_sub_fin 2 (-1 / 1073741824)).trans (Fl.round_eval binary32 (2 - (-1 / 1073741824)) 2 1 (-22) 8388608 (by norm_num [abs_of_nonneg, abs_of_nonpos]) (by norm_num [abs_of_nonneg, abs_of_nonpos]) (by norm_num [binary32]) (Or.inl (by norm_num [abs_lt])) (by norm_num) (by norm_num [binary32, abs_of_nonneg, abs_of_nonpos])))

  refine ⟨?_, ⟨Fl.isRep32_two, by norm_num [binary32]⟩,
    ⟨⟨-1, -30, by norm_num [binary32], by norm_num [binary32], by norm_num⟩,
      by norm_num [binary32, abs_of_nonpos]⟩, by norm_num [abs_of_nonneg]⟩
  rw [Crashed_eq_false_of_ne_nan _ _ _ (by simp only [hsub]; simp) (by simp) (by simp)]
  simp only [hsub]
  refine ⟨?_, ?_, ?_⟩
  · show Fl.fin |(2 : ℚ)| ≤ Fl.fin 2
    rw [Fl.fin_le_fin]; norm_num
  · rw [Fl.fin_le_fin]; norm_num
  · rw [Fl.fin_le_fin]; norm_num

/-- C1, amended: `Crashed` returns false (Landed) exactly when none of the
three `float` comparisons `abs(from.y - to.y) > 2`, `vx > 70000`,
`vy > 60000` holds; for a height difference and a velocity that are not NaN
that is `abs(from.y - to.y) <= 2`, `vx <= 70000` and `vy <= 60000` with the
`float` difference, and the `float` difference is the exact one when it is
representable, as it is for integer heights up to `2 ^ 23` in magnitude.
Endpoints (0,100),(0,101) with velocity (1000,1000) give Landed and endpoints
(0,100),(0,200) give Crashed for every velocity. -/
theorem Crashed_eq_false_iff :
    (∀ (pFrom pTo : Vector2f) (lander : Lander),
      pFrom.y - pTo.y ≠ Fl.nan → lander.currentSpeed.x ≠ Fl.nan →
      lander.currentSpeed.y ≠ Fl.nan →
      (Crashed pFrom pTo lander = false ↔
        Fl.abs (pFrom.y - pTo.y) ≤ Fl.fin 2 ∧ lander.currentSpeed.x ≤ Fl.fin 70000 ∧
          lander.currentSpeed.y ≤ Fl.fin 60000)) ∧
    (∀ (a b : ℚ) (x1 x2 : Fl) (lander : Lander), Fl.fin a - Fl.fin b = Fl.fin (a - b) →
      lander.currentSpeed.x ≠ Fl.nan → lander.currentSpeed.y ≠ Fl.nan →
      (Crashed ⟨x1, Fl.fin a⟩ ⟨x2, Fl.fin b⟩ lander = false ↔
        |a - b| ≤ 2 ∧ lander.currentSpeed.x ≤ Fl.fin 70000 ∧
          lander.currentSpeed.y ≤ Fl.fin 60000)) ∧
    (∀ (a b : ℤ), |a| ≤ 2 ^ 23 → |b| ≤ 2 ^ 23 →
      Fl.fin (a : ℚ) - Fl.fin (b : ℚ) = Fl.fin ((a : ℚ) - (b : ℚ))) ∧
    (∀ (position : Vector2f) (rotation : Fl) (thrustersOn : Bool),
      Crashed ⟨Fl.fin 0, Fl.fin 100⟩ ⟨Fl.fin 0, Fl.fin 101⟩
        ⟨position, rotation, thrustersOn, ⟨Fl.fin 1000, Fl.fin 1000⟩⟩ = false) ∧
    (∀ lander : Lander, Crashed ⟨Fl.fin 0, Fl.fin 100⟩ ⟨Fl.fin 0, Fl.fin 200⟩ lander = true) := by
  have hint : ∀ (a b : ℤ), |a| ≤ 2 ^ 23 → |b| ≤ 2 ^ 23 →
      Fl.fin (a : ℚ) - Fl.fin (b : ℚ) = Fl.fin ((a : ℚ) - (b : ℚ)) := by
    intro a b ha hb
    have hab : |a - b| ≤ 2 ^ 24 := by
      have ha' := abs_le.mp ha
      have hb' := abs_le.mp hb
      exact abs_le.mpr ⟨by linarith, by linarith⟩
    rw [Fl.sub_int a b hab]
    push_cast
    rfl
  have hexact : ∀ (a b : ℚ) (x1 x2 : Fl) (lander : Lander),
      Fl.fin a - Fl.fin b = Fl.fin (a - b) →
      lander.currentSpeed.x ≠ Fl.nan → lander.currentSpeed.y ≠ Fl.nan →
      (Crashed ⟨x1, Fl.fin a⟩ ⟨x2, Fl.fin b⟩ lander = false ↔
        |a - b| ≤ 2 ∧ lander.currentSpeed.x ≤ Fl.fin 70000 ∧
          lander.currentSpeed.y ≤ Fl.fin 60000) := by
    intro a b x1 x2 lander hex hx hy
    rw [Crashed_eq_false_of_ne_nan _ _ _ (by simp only [hex]; simp) hx hy]
    simp only [hex]
    show (Fl.fin |a - b| ≤ Fl.fin 2 ∧ _) ↔ _
    rw [Fl.fin_le_fin]
  refine ⟨Crashed_eq_false_of_ne_nan, hexact, hint, ?_, ?_⟩
  · intro position rotation thrustersOn
    have h := hint 100 101 (by norm_num) (by norm_num)
    norm_num at h
    have h' : (Fl.fin 100 - Fl.fin 101 : Fl) = Fl.fin (100 - 101) := by
      rw [h]; norm_num
    rw [hexact 100 101 _ _ _ h' (by simp) (by simp)]
    refine ⟨by norm_num [abs_of_nonpos], ?_, ?_⟩ <;> rw [Fl.fin_le_fin] <;> norm_num
  · intro lander
    have h := hint 100 200 (by norm_num) (by norm_num)
    norm_num at h
    have e2 : Fl.ofInt 2 = Fl.fin 2 := by rw [Fl.ofInt_eq 2 (by norm_num)]; norm_num
    unfold Crashed
    rw [if_pos]
    simp only [h, e2]
    show Fl.fin 2 < Fl.fin |(-100 : ℚ)|
    rw [Fl.fin_lt_fin]
    norm_num [abs_of_nonpos]

/-- Witness of C1 (amended): the integer heights 450 and 452 with the
velocity (70000, 60000) give Landed. -/
theorem Crashed_eq_false_iff_witness :
    Crashed ⟨Fl.fin 0, Fl.fin 450⟩ ⟨Fl.fin 40, Fl.fin 452⟩
      ⟨⟨Fl.fin 400, Fl.fin 430⟩, Fl.fin 0, false, ⟨Fl.fin 70000, Fl.fin 60000⟩⟩ = false := by
  have h := Crashed_eq_false_iff.2.2.1 450 452 (by norm_num) (by norm_num)
  norm_num at h
  have h' : (Fl.fin 450 - Fl.fin 452 : Fl) = Fl.fin (450 - 452) := by
    rw [h]; norm_num
  rw [Crashed_eq_false_iff.2.1 450 452 (Fl.fin 0) (Fl.fin 40) _ h' (by simp) (by simp)]
  refine ⟨by norm_num [abs_of_nonpos], ?_, ?_⟩ <;> rw [Fl.fin_le_fin]

/-! ## One-sided speed checks -/

/-- C13: the speed checks of `Crashed` are one-sided.  On a segment with
height difference 1 the velocity (-200000, 0) and the velocity (0, -100000),
whose speeds are above the thresholds in absolute value, are Landed; on every
segment with finite heights whose difference is at most 2, every velocity
with `vx <= 70000` and `vy <= 60000` is Landed, however negative its
components (minus infinity included). -/
theorem Crashed_one_sided :
    (∀ (position : Vector2f) (rotation : Fl) (thrustersOn : Bool),
      |(-200000 : ℚ)| > 70000 ∧
      Crashed ⟨Fl.fin 0, Fl.fin 100⟩ ⟨Fl.fin 40, Fl.fin 101⟩
        ⟨position, rotation, thrustersOn, ⟨Fl.fin (-200000), Fl.fin 0⟩⟩ = false) ∧
    (∀ (position : Vector2f) (rotation : Fl) (thrustersOn : Bool),
      |(-100000 : ℚ)| > 60000 ∧
      Crashed ⟨Fl.fin 0, Fl.fin 100⟩ ⟨Fl.fin 40, Fl.fin 101⟩
        ⟨position, rotation, thrustersOn, ⟨Fl.fin 0, Fl.fin (-100000)⟩⟩ = false) ∧
    (∀ (a b : ℚ) (x1 x2 : Fl) (lander : Lander), |a - b| ≤ 2 →
      lander.currentSpeed.x ≤ Fl.fin 70000 → lander.currentSpeed.y ≤ Fl.fin 60000 →
      Crashed ⟨x1, Fl.fin a⟩ ⟨x2, Fl.fin b⟩ lander = false) ∧
    (∀ (pFrom pTo : Vector2f) (lander : Lander), Fl.abs (pFrom.y - pTo.y) ≤ Fl.fin 2 →
      lander.currentSpeed.x ≤ Fl.fin 70000 → lander.currentSpeed.y ≤ Fl.fin 60000 →
      Crashed pFrom pTo lander = false) := by
  have e2 : Fl.ofInt 2 = Fl.fin 2 := by rw [Fl.ofInt_eq 2 (by norm_num)]; norm_num
  have e7 : Fl.ofInt MAX_HORIZONTAL_LANDING_SPEED = Fl.fin 70000 := by
    rw [Fl.ofInt_eq _ (by norm_num [MAX_HORIZONTAL_LANDING_SPEED])]
    norm_num [MAX_HORIZONTAL_LANDING_SPEED]
  have e6 : Fl.ofInt MAX_VERTICAL_LANDING_SPEED = Fl.fin 60000 := by
    rw [Fl.ofInt_eq _ (by norm_num [MAX_VERTICAL_LANDING_SPEED])]
    norm_num [MAX_VERTICAL_LANDING_SPEED]
  have key : ∀ (pFrom pTo : Vector2f) (lander : Lander),
      Fl.abs (pFrom.y - pTo.y) ≤ Fl.fin 2 →
      lander.currentSpeed.x ≤ Fl.fin 70000 → lander.currentSpeed.y ≤ Fl.fin 60000 →
      Crashed pFrom pTo lander = false := by
    intro pFrom pTo lander h1 h2 h3
    rw [Crashed_eq_false, e2, e7, e6]
    exact ⟨Fl.not_lt_of_le h1, Fl.not_lt_of_le h2, Fl.not_lt_of_le h3⟩
  have key2 : ∀ (a b : ℚ) (x1 x2 : Fl) (lander : Lander), |a - b| ≤ 2 →
      lander.currentSpeed.x ≤ Fl.fin 70000 → lander.currentSpeed.y ≤ Fl.fin 60000 →
      Crashed ⟨x1, Fl.fin a⟩ ⟨x2, Fl.fin b⟩ lander = false := by
    intro a b x1 x2 lander h1 h2 h3
    exact key _ _ _ (Fl.abs_sub_le_two a b h1) h2 h3
  refine ⟨?_, ?_, key2, key⟩
  · intro position rotation thrustersOn
    refine ⟨by norm_num [abs_of_nonpos], key2 _ _ _ _ _ (by norm_num [abs_of_nonpos]) ?_ ?_⟩ <;>
      · show Fl.fin _ ≤ Fl.fin _
        rw [Fl.fin_le_fin]; norm_num
  · intro position rotation thrustersOn
    refine ⟨by norm_num [abs_of_nonpos], key2 _ _ _ _ _ (by norm_num [abs_of_nonpos]) ?_ ?_⟩ <;>
      · show Fl.fin _ ≤ Fl.fin _
        rw [Fl.fin_le_fin]; norm_num

/-- Witness of C13: a flat segment and the velocity (-200000, -100000). -/
theorem Crashed_one_sided_witness :
    Crashed ⟨Fl.fin 0, Fl.fin 300⟩ ⟨Fl.fin 40, Fl.fin 300⟩
      ⟨⟨Fl.fin 400, Fl.fin 280⟩, Fl.fin 0, false, ⟨Fl.fin (-200000), Fl.fin (-100000)⟩⟩ = false :=
  Crashed_one_sided.2.2.1 300 300 (Fl.fin 0) (Fl.fin 40)
    ⟨⟨Fl.fin 400, Fl.fin 280⟩, Fl.fin 0, false, ⟨Fl.fin (-200000), Fl.fin (-100000)⟩⟩
    (by norm_num) (by show Fl.fin _ ≤ Fl.fin _; rw [Fl.fin_le_fin]; norm_num)
    (by show Fl.fin _ ≤ Fl.fin _; rw [Fl.fin_le_fin]; norm_num)

/-! ## The segment-intersection test -/

namespace Fl

lemma round_neg (f : Format) (q : ℚ) : round f (-q) = neg (round f q) := by
  unfold round
  rw [roundTo_neg, abs_neg]
  by_cases h : (2 : ℚ) ^ f.emax ≤ |roundTo f q|
  · rw [if_pos h, if_pos h]
    have hq : q ≠ 0 := by
      intro h0
      rw [h0, roundTo_zero, abs_zero] at h
      exact absurd h (not_le.mpr (two_zpow_pos _))
    simp only [neg, inf.injEq]
    rcases lt_or_gt_of_ne hq with h1 | h1
    · have : ¬ (-q < 0) := by linarith
      simp [h1, this]
    · have h2 : ¬ (q < 0) := by linarith
      have : -q < 0 := by linarith
      simp [h2, this]
  · rw [if_neg h, if_neg h]
    rfl

lemma neg_neg' (a : Fl) : neg (neg a) = a := by
  cases a <;> simp [neg]

lemma neg_add (f : Format) (a b : Fl) : neg (add f a b) = add f (neg a) (neg b) := by
  cases a with
  | fin x =>
    cases b with
    | fin y =>
      show neg (round f (x + y)) = round f (-x + -y)
      rw [← round_neg]
      congr 1
      ring
    | inf s => rfl
    | nan => rfl
  | inf s =>
    cases b with
    | fin y => rfl
    | inf s' => cases s <;> cases s' <;> simp [add, neg]
    | nan => rfl
  | nan => cases b <;> rfl

/-- The `float` difference is antisymmetric. -/
lemma sub_swap (a b : Fl) : a - b = -(b - a) := by
  show add binary32 a (neg b) = neg (add binary32 b (neg a))
  rw [neg_add, neg_neg']
  cases a with
  | fin x =>
    cases b with
    | fin y =>
      show round binary32 (x + -y) = round binary32 (-y + x)
      rw [add_comm]
    | inf s => rfl
    | nan => rfl
  | inf s =>
    cases b with
    | fin y => rfl
    | inf s' => cases s <;> cases s' <;> simp [add, neg]
    | nan => rfl
  | nan => cases b <;> rfl

lemma neg_sub_neg (a b : Fl) : (-a) - (-b) = -(a - b) := by
  show add binary32 (neg a) (neg (neg b)) = neg (add binary32 a (neg b))
  rw [neg_add]

/-- The `float` product is commutative. -/
lemma mul_comm' (a b : Fl) : a * b = b * a := by
  show mul binary32 a b = mul binary32 b a
  cases a with
  | fin x =>
    cases b with
    | fin y =>
      show round binary32 (x * y) = round binary32 (y * x)
      rw [mul_comm]
    | inf s =>
      show (if x = 0 then nan else inf (xor (decide (x < 0)) s)) =
        (if x = 0 then nan else inf (xor s (decide (x < 0))))
      rw [Bool.xor_comm]
    | nan => rfl
  | inf s =>
    cases b with
    | fin y =>
      show (if y = 0 then nan else inf (xor s (decide (y < 0)))) =
        (if y = 0 then nan else inf (xor (decide (y < 0)) s))
      rw [Bool.xor_comm]
    | inf s' =>
      show inf (xor s s') = inf (xor s' s)
      rw [Bool.xor_comm]
    | nan => rfl
  | nan => cases b <;> rfl

lemma mul_neg' (a b : Fl) : a * (-b) = -(a * b) := by
  show mul binary32 a (neg b) = neg (mul binary32 a b)
  cases a with
  | fin x =>
    cases b with
    | fin y =>
      show round binary32 (x * -y) = neg (round binary32 (x * y))
      rw [← round_neg]
      congr 1
      ring
    | inf s =>
      show (if x = 0 then nan else inf (xor (decide (x < 0)) (!s))) =
        neg (if x = 0 then nan else inf (xor (decide (x < 0)) s))
      by_cases hx : x = 0
      · simp [hx, neg]
      · simp only [hx, if_false, neg]
        cases s <;> cases decide (x < 0) <;> rfl
    | nan => rfl
  | inf s =>
    cases b with
    | fin y =>
      show (if -y = 0 then nan else inf (xor s (decide (-y < 0)))) =
        neg (if y = 0 then nan else inf (xor s (decide (y < 0))))
      by_cases hy : y = 0
      · simp [hy, neg]
      · have hy' : -y ≠ 0 := neg_ne_zero.mpr hy
        simp only [hy, hy', if_false, neg, inf.injEq]
        rcases lt_or_gt_of_ne hy with h1 | h1
        · have : ¬ (-y < 0) := by linarith
          cases s <;> simp [h1, this]
        · have h2 : ¬ (y < 0) := by linarith
          have : -y < 0 := by linarith
          cases s <;> simp [h2, this]
    | inf s' =>
      show inf (xor s (!s')) = inf (!(xor s s'))
      cases s <;> cases s' <;> rfl
    | nan => rfl
  | nan => cases b <;> rfl

lemma neg_mul' (a b : Fl) : (-a) * b = -(a * b) := by
  rw [mul_comm', mul_neg', mul_comm']

/-- The test `u >= 0 && u <= 1` of `LinesIntersect`. -/
lemma unit_div_neg_neg (a b : Fl) :
    ((-a) / (-b) ≥ ofInt 0 ∧ (-a) / (-b) ≤ ofInt 1) ↔ (a / b ≥ ofInt 0 ∧ a / b ≤ ofInt 1) := by
  have e0 : ofInt 0 = fin 0 := by rw [ofInt_eq 0 (by norm_num)]; norm_num
  have e1 : ofInt 1 = fin 1 := by rw [ofInt_eq 1 (by norm_num)]; norm_num
  rw [e0, e1]
  show (fin 0 ≤ div binary32 (neg a) (neg b) ∧ div binary32 (neg a) (neg b) ≤ fin 1) ↔
    (fin 0 ≤ div binary32 a b ∧ div binary32 a b ≤ fin 1)
  cases a with
  | fin x =>
    cases b with
    | fin y =>
      by_cases hy : y = 0
      · subst hy
        by_cases hx : x = 0
        · subst hx
          simp [div, neg, le_def, le]
        · have hx' : -x ≠ 0 := neg_ne_zero.mpr hx
          simp only [div, neg, neg_zero, if_true, hx, hx', if_false, le_def, le]
          rcases lt_or_gt_of_ne hx with h1 | h1
          · have : ¬ (-x < 0) := by linarith
            simp [h1, this]
          · have h2 : ¬ (x < 0) := by linarith
            have : -x < 0 := by linarith
            simp [h2, this]
      · have hy' : -y ≠ 0 := neg_ne_zero.mpr hy
        simp only [div, neg, hy, hy', if_false, neg_div_neg_eq]
    | inf s => simp [div, neg]
    | nan => simp [div, neg]
  | inf s =>
    cases b with
    | fin y =>
      simp only [div, neg, le_def, le]
      cases s <;> cases decide (y < 0) <;> cases decide (-y < 0) <;> simp
    | inf s' => simp [div, neg]
    | nan => simp [div, neg]
  | nan => cases b <;> simp [div, neg]

/-- A division by zero gives a value that fails `u >= 0 && u <= 1`. -/
lemma not_unit_div_zero (a : Fl) : ¬ (a / fin 0 ≥ ofInt 0 ∧ a / fin 0 ≤ ofInt 1) := by
  have e0 : ofInt 0 = fin 0 := by rw [ofInt_eq 0 (by norm_num)]; norm_num
  have e1 : ofInt 1 = fin 1 := by rw [ofInt_eq 1 (by norm_num)]; norm_num
  rw [e0, e1]
  show ¬ (fin 0 ≤ div binary32 a (fin 0) ∧ div binary32 a (fin 0) ≤ fin 1)
  cases a with
  | fin x =>
    by_cases hx : x = 0
    · simp [div, hx, le_def, le]
    · simp only [div, if_true, hx, if_false, le_def, le]
      cases decide (x < 0) <;> simp
  | inf s =>
    simp only [div, le_def, le]
    cases s <;> simp
  | nan => simp [div, le_def, le]

end Fl

/-- The result of `LinesIntersect` is the conjunction of its four
comparisons. -/
lemma LinesIntersect_eq_true_iff (x1 y1 x2 y2 x3 y3 x4 y4 : Fl) :
    LinesIntersect x1 y1 x2 y2 x3 y3 x4 y4 = true ↔
      (((x4 - x3) * (y1 - y3) - (y4 - y3) * (x1 - x3)) / denominator x1 y1 x2 y2 x3 y3 x4 y4
          ≥ Fl.ofInt 0 ∧
        ((x4 - x3) * (y1 - y3) - (y4 - y3) * (x1 - x3)) / denominator x1 y1 x2 y2 x3 y3 x4 y4
          ≤ Fl.ofInt 1) ∧
      (((x2 - x1) * (y1 - y3) - (y2 - y1) * (x1 - x3)) / denominator x1 y1 x2 y2 x3 y3 x4 y4
          ≥ Fl.ofInt 0 ∧
        ((x2 - x1) * (y1 - y3) - (y2 - y1) * (x1 - x3)) / denominator x1 y1 x2 y2 x3 y3 x4 y4
          ≤ Fl.ofInt 1) := by
  unfold LinesIntersect denominator
  simp only [and_assoc]
  constructor
  · intro h
    by_contra hc
    rw [if_neg hc] at h
    exact absurd h (by decide)
  · intro h
    rw [if_pos h]

/-- With a computed denominator that is zero `LinesIntersect` is false. -/
lemma LinesIntersect_of_denominator_zero (x1 y1 x2 y2 x3 y3 x4 y4 : Fl)
    (hden : denominator x1 y1 x2 y2 x3 y3 x4 y4 = Fl.fin 0) :
    LinesIntersect x1 y1 x2 y2 x3 y3 x4 y4 = false := by
  rw [← Bool.not_eq_true, LinesIntersect_eq_true_iff, hden]
  exact fun h => Fl.not_unit_div_zero _ h.1

/-- The result of `LinesIntersect` does not depend on which segment is given
first. -/
lemma LinesIntersect_swap (x1 y1 x2 y2 x3 y3 x4 y4 : Fl) :
    LinesIntersect x1 y1 x2 y2 x3 y3 x4 y4 = LinesIntersect x3 y3 x4 y4 x1 y1 x2 y2 := by
  have hden : denominator x3 y3 x4 y4 x1 y1 x2 y2 = -(denominator x1 y1 x2 y2 x3 y3 x4 y4) := by
    unfold denominator
    rw [Fl.mul_comm' (y2 - y1) (x4 - x3), Fl.mul_comm' (x2 - x1) (y4 - y3)]
    exact Fl.sub_swap _ _
  have hA : (x2 - x1) * (y3 - y1) - (y2 - y1) * (x3 - x1) =
      -((x2 - x1) * (y1 - y3) - (y2 - y1) * (x1 - x3)) := by
    rw [Fl.sub_swap y3 y1, Fl.sub_swap x3 x1, Fl.mul_neg', Fl.mul_neg', Fl.neg_sub_neg]
  have hB : (x4 - x3) * (y3 - y1) - (y4 - y3) * (x3 - x1) =
      -((x4 - x3) * (y1 - y3) - (y4 - y3) * (x1 - x3)) := by
    rw [Fl.sub_swap y3 y1, Fl.sub_swap x3 x1, Fl.mul_neg', Fl.mul_neg', Fl.neg_sub_neg]
  rw [Bool.eq_iff_iff, LinesIntersect_eq_true_iff, LinesIntersect_eq_true_iff, hden, hA, hB,
    Fl.unit_div_neg_neg, Fl.unit_div_neg_neg]
  exact and_comm

/-! ## Evaluations of the segment-intersection test -/

/-- The segments (4174, 4251)-(101, 937) and (3110, 8)-(101, 937) end at the same
point, and `LinesIntersect` computes `uB = 1 + 2 ^ (-23)` and returns false. -/
lemma LinesIntersect_eval_endpoint :
    LinesIntersect (Fl.fin 4174) (Fl.fin 4251) (Fl.fin 101) (Fl.fin 937) (Fl.fin 3110) (Fl.fin 8) (Fl.fin 101) (Fl.fin 937) = false := by
  have h1 : (Fl.fin 937 - Fl.fin 8 : Fl) = Fl.fin 929 :=
    ((Fl.fin_sub_fin 937 8).trans (Fl.round_eval binary32 (937 - 8) 929 9 (-14) 15220736 (by norm_num [abs_of_nonneg, abs_of_nonpos]) (by norm_num [abs_of_nonneg, abs_of_nonpos]) (by norm_num [binary32]) (Or.inl (by norm_num [abs_lt])) (by norm_num) (by norm_num [binary32, abs_of_nonneg, abs_of_nonpos])))
  have h2 : (Fl.fin 101 - Fl.fin 4174 : Fl) = Fl.fin (-4073) :=
    ((Fl.fin_sub_fin 101 4174).trans (Fl.round_eval binary32 (101 - 4174) (-4073) 11 (-12) (-16683008) (by norm_num [abs_of_nonneg, abs_of_nonpos]) (by norm_num [abs_of_nonneg, abs_of_nonpos]) (by norm_num [binary32]) (Or.inl (by norm_num [abs_lt])) (by norm_num) (by norm_num [binary32, abs_of_nonneg, abs_of_nonpos])))
  have h3 : (Fl.fin 929 * Fl.fin (-4073) : Fl) = Fl.fin (-3783817) :=
    ((Fl.fin_mul_fin 929 (-4073)).trans (Fl.round_eval binary32 (929 * (-4073)) (-3783817) 21 (-2) (-15135268) (by norm_num [abs_of_nonneg, abs_of_nonpos]) (by norm_num [abs_of_nonneg, abs_of_nonpos]) (by norm_num [binary32]) (Or.inl (by norm_num [abs_lt])) (by norm_num) (by norm_num [binary32, abs_of_nonneg, abs_of_nonpos])))
  have h4 : (Fl.fin 101 - Fl.fin 3110 : Fl) = Fl.fin (-3009) :=
    ((Fl.fin_sub_fin 101 3110).trans (Fl.round_eval binary32 (101 - 3110) (-3009) 11 (-12) (-12324864) (by norm_num [abs_of_nonneg, abs_of_nonpos]) (by norm_num [abs_of_nonneg, abs_of_nonpos]) (by norm_num [binary32]) (Or.inl (by norm_num [abs_lt])) (by norm_num) (by norm_num [binary32, abs_of_nonneg, abs_of_nonpos])))
  have h5 : (Fl.fin 937 - Fl.fin 4251 : Fl) = Fl.fin (-3314) :=
    ((Fl.fin_sub_fin 937 4251).trans (Fl.round_eval binary32 (937 - 4251) (-3314) 11 (-12) (-13574144) (by norm_num [abs_of_nonneg, abs_of_nonpos]) (by norm_num [abs_of_nonneg, abs_of_nonpos]) (by norm_num [binary32]) (Or.inl (by norm_num [abs_lt])) (by norm_num) (by norm_num [binary32, abs_of_nonneg, abs_of_nonpos])))
  have h6 : (Fl.fin (-3009) * Fl.fin (-3314) : Fl) = Fl.fin 9971826 :=
    ((Fl.fin_mul_fin (-3009) (-3314)).trans (Fl.round_eval binary32 ((-3009) * (-3314)) 9971826 23 0 9971826 (by norm_num [abs_of_nonneg, abs_of_nonpos]) (by norm_num [abs_of_nonneg, abs_of_nonpos]) (by norm_num [binary32]) (Or.inl (by norm_num [abs_lt])) (by norm_num) (by norm_num [binary32, abs_of_nonneg, abs_of_nonpos])))
  have h7 : (Fl.fin (-3783817) - Fl.fin 9971826 : Fl) = Fl.fin (-13755643) :=
    ((Fl.fin_sub_fin (-3783817) 9971826).trans (Fl.round_eval binary32 ((-3783817) - 9971826) (-13755643) 23 0 (-13755643) (by norm_num [abs_of_nonneg, abs_of_nonpos]) (by norm_num [abs_of_nonneg, abs_of_nonpos]) (by norm_num [binary32]) (Or.inl (by norm_num [abs_lt])) (by norm_num) (by norm_num [binary32, abs_of_nonneg, abs_of_nonpos])))
  have h8 : (Fl.fin 4251 - Fl.fin 8 : Fl) = Fl.fin 4243 :=
    ((Fl.fin_sub_fin 4251 8).trans (Fl.round_eval binary32 (4251 - 8) 4243 12 (-11) 8689664 (by norm_num [abs_of_nonneg, abs_of_nonpos]) (by norm_num [abs_of_nonneg, abs_of_nonpos]) (by norm_num [binary32]) (Or.inl (by norm_num [abs_lt])) (by norm_num) (by norm_num [binary32, abs_of_nonneg, abs_of_nonpos])))
  have h9 : (Fl.fin (-3009) * Fl.fin 4243 : Fl) = Fl.fin (-12767187) :=
    ((Fl.fin_mul_fin (-3009) 4243).trans (Fl.round_eval binary32 ((-3009) * 4243) (-12767187) 23 0 (-12767187) (by norm_num [abs_of_nonneg, abs_of_nonpos]) (by norm_num [abs_of_nonneg, abs_of_nonpos]) (by norm_num [binary32]) (Or.inl (by norm_num [abs_lt])) (by norm_num) (by norm_num [binary32, abs_of_nonneg, abs_of_nonpos])))
  have h10 : (Fl.fin 4174 - Fl.fin 3110 : Fl) = Fl.fin 1064 :=
    ((Fl.fin_sub_fin 4174 3110).trans (Fl.round_eval binary32 (4174 - 3110) 1064 10 (-13) 8716288 (by norm_num [abs_of_nonneg, abs_of_nonpos]) (by norm_num [abs_of_nonneg, abs_of_nonpos]) (by norm_num [binary32]) (Or.inl (by norm_num [abs_lt])) (by norm_num) (by norm_num [binary32, abs_of_nonneg, abs_of_nonpos])))
  have h11 : (Fl.fin 929 * Fl.fin 1064 : Fl) = Fl.fin 988456 :=
    ((Fl.fin_mul_fin 929 1064).trans (Fl.round_eval binary32 (929 * 1064) 988456 19 (-4) 15815296 (by norm_num [abs_of_nonneg, abs_of_nonpos]) (by norm_num [abs_of_nonneg, abs_of_nonpos]) (by norm_num [binary32]) (Or.inl (by norm_num [abs_lt])) (by norm_num) (by norm_num [binary32, abs_of_nonneg, abs_of_nonpos])))
  have h12 : (Fl.fin (-12767187) - Fl.fin 988456 : Fl) = Fl.fin (-13755643) :=
    ((Fl.fin_sub_fin (-12767187) 988456).trans (Fl.round_eval binary32 ((-12767187) - 988456) (-13755643) 23 0 (-13755643) (by norm_num [abs_of_nonneg, abs_of_nonpos]) (by norm_num [abs_of_nonneg, abs_of_nonpos]) (by norm_num [binary32]) (Or.inl (by norm_num [abs_lt])) (by norm_num) (by norm_num [binary32, abs_of_nonneg, abs_of_nonpos])))
  have h13 : (Fl.fin (-4073) * Fl.fin 4243 : Fl) = Fl.fin (-17281740) :=
    ((Fl.fin_mul_fin (-4073) 4243).trans (Fl.round_eval binary32 ((-4073) * 4243) (-17281740) 24 1 (-8640870) (by norm_num [abs_of_nonneg, abs_of_nonpos]) (by norm_num [abs_of_nonneg, abs_of_nonpos]) (by norm_num [binary32]) (Or.inr ⟨by norm_num, by norm_num [abs_of_nonneg, abs_of_nonpos]⟩) (by norm_num) (by norm_num [binary32, abs_of_nonneg, abs_of_nonpos])))
  have h14 : (Fl.fin (-3314) * Fl.fin 1064 : Fl) = Fl.fin (-3526096) :=
    ((Fl.fin_mul_fin (-3314) 1064).trans (Fl.round_eval binary32 ((-3314) * 1064) (-3526096) 21 (-2) (-14104384) (by norm_num [abs_of_nonneg, abs_of_nonpos]) (by norm_num [abs_of_nonneg, abs_of_nonpos]) (by norm_num [binary32]) (Or.inl (by norm_num [abs_lt])) (by norm_num) (by norm_num [binary32, abs_of_nonneg, abs_of_nonpos])))
  have h15 : (Fl.fin (-17281740) - Fl.fin (-3526096) : Fl) = Fl.fin (-13755644) :=
    ((Fl.fin_sub_fin (-17281740) (-3526096)).trans (Fl.round_eval binary32 ((-17281740) - (-3526096)) (-13755644) 23 0 (-13755644) (by norm_num [abs_of_nonneg, abs_of_nonpos]) (by norm_num [abs_of_nonneg, abs_of_nonpos]) (by norm_num [binary32]) (Or.inl (by norm_num [abs_lt])) (by norm_num) (by norm_num [binary32, abs_of_nonneg, abs_of_nonpos])))
  have h16 : (Fl.fin (-13755643) / Fl.fin (-13755643) : Fl) = Fl.fin 1 :=
    ((Fl.fin_div_fin (-13755643) (-13755643) (by norm_num)).trans (Fl.round_eval binary32 ((-13755643) / (-13755643)) 1 0 (-23) 8388608 (by norm_num [abs_of_nonneg, abs_of_nonpos]) (by norm_num [abs_of_nonneg, abs_of_nonpos]) (by norm_num [binary32]) (Or.inl (by norm_num [abs_lt])) (by norm_num) (by norm_num [binary32, abs_of_nonneg, abs_of_nonpos])))
  have h17 : (Fl.fin (-13755644) / Fl.fin (-13755643) : Fl) = Fl.fin (8388609 / 8388608) :=
    ((Fl.fin_div_fin (-13755644) (-13755643) (by norm_num)).trans (Fl.round_eval binary32 ((-13755644) / (-13755643)) (8388609 / 8388608) 0 (-23) 8388609 (by norm_num [abs_of_nonneg, abs_of_nonpos]) (by norm_num [abs_of_nonneg, abs_of_nonpos]) (by norm_num [binary32]) (Or.inl (by norm_num [abs_lt])) (by norm_num) (by norm_num [binary32, abs_of_nonneg, abs_of_nonpos])))
  have e0 : Fl.ofInt 0 = Fl.fin 0 := by rw [Fl.ofInt_eq 0 (by norm_num)]; norm_num
  have e1 : Fl.ofInt 1 = Fl.fin 1 := by rw [Fl.ofInt_eq 1 (by norm_num)]; norm_num
  rw [← Bool.not_eq_true, LinesIntersect_eq_true_iff]
  unfold denominator
  simp only [h1, h2, h3, h4, h5, h6, h7, h8, h9, h10, h11, h12, h13, h14, h15, h16, h17, e0, e1]
  intro h
  have h' : Fl.fin _ ≤ Fl.fin _ := h.2.2
  rw [Fl.fin_le_fin] at h'
  norm_num at h'

/-- The segments of `LinesIntersect_eval_endpoint` with the first one reversed:
`LinesIntersect` returns true. -/
lemma LinesIntersect_eval_endpoint_reversed :
    LinesIntersect (Fl.fin 101) (Fl.fin 937) (Fl.fin 4174) (Fl.fin 4251) (Fl.fin 3110) (Fl.fin 8) (Fl.fin 101) (Fl.fin 937) = true := by
  have h1 : (Fl.fin 937 - Fl.fin 8 : Fl) = Fl.fin 929 :=
    ((Fl.fin_sub_fin 937 8).trans (Fl.round_eval binary32 (937 - 8) 929 9 (-14) 15220736 (by norm_num [abs_of_nonneg, abs_of_nonpos]) (by norm_num [abs_of_nonneg, abs_of_nonpos]) (by norm_num [binary32]) (Or.inl (by norm_num [abs_lt])) (by norm_num) (by norm_num [binary32, abs_of_nonneg, abs_of_nonpos])))
  have h2 : (Fl.fin 4174 - Fl.fin 101 : Fl) = Fl.fin 4073 :=
    ((Fl.fin_sub_fin 4174 101).trans (Fl.round_eval binary32 (4174 - 101) 4073 11 (-12) 16683008 (by norm_num [abs_of_nonneg, abs_of_nonpos]) (by norm_num [abs_of_nonneg, abs_of_nonpos]) (by norm_num [binary32]) (Or.inl (by norm_num [abs_lt])) (by norm_num) (by norm_num [binary32, abs_of_nonneg, abs_of_nonpos])))
  have h3 : (Fl.fin 929 * Fl.fin 4073 : Fl) = Fl.fin 3783817 :=
    ((Fl.fin_mul_fin 929 4073).trans (Fl.round_eval binary32 (929 * 4073) 3783817 21 (-2) 15135268 (by norm_num [abs_of_nonneg, abs_of_nonpos]) (by norm_num [abs_of_nonneg, abs_of_nonpos]) (by norm_num [binary32]) (Or.inl (by norm_num [abs_lt])) (by norm_num) (by norm_num [binary32, abs_of_nonneg, abs_of_nonpos])))
  have h4 : (Fl.fin 101 - Fl.fin 3110 : Fl) = Fl.fin (-3009) :=
    ((Fl.fin_sub_fin 101 3110).trans (Fl.round_eval binary32 (101 - 3110) (-3009) 11 (-12) (-12324864) (by norm_num [abs_of_nonneg, abs_of_nonpos]) (by norm_num [abs_of_nonneg, abs_of_nonpos]) (by norm_num [binary32]) (Or.inl (by norm_num [abs_lt])) (by norm_num) (by norm_num [binary32, abs_of_nonneg, abs_of_nonpos])))
  have h5 : (Fl.fin 4251 - Fl.fin 937 : Fl) = Fl.fin 3314 :=
    ((Fl.fin_sub_fin 4251 937).trans (Fl.round_eval binary32 (4251 - 937) 3314 11 (-12) 13574144 (by norm_num [abs_of_nonneg, abs_of_nonpos]) (by norm_num [abs_of_nonneg, abs_of_nonpos]) (by norm_num [binary32]) (Or.inl (by norm_num [abs_lt])) (by norm_num) (by norm_num [binary32, abs_of_nonneg, abs_of_nonpos])))
  have h6 : (Fl.fin (-3009) * Fl.fin 3314 : Fl) = Fl.fin (-9971826) :=
    ((Fl.fin_mul_fin (-3009) 3314).trans (Fl.round_eval binary32 ((-3009) * 3314) (-9971826) 23 0 (-9971826) (by norm_num [abs_of_nonneg, abs_of_nonpos]) (by norm_num [abs_of_nonneg, abs_of_nonpos]) (by norm_num [binary32]) (Or.inl (by norm_num [abs_lt])) (by norm_num) (by norm_num [binary32, abs_of_nonneg, abs_of_nonpos])))
  have h7 : (Fl.fin 3783817 - Fl.fin (-9971826) : Fl) = Fl.fin 13755643 :=
    ((Fl.fin_sub_fin 3783817 (-9971826)).trans (Fl.round_eval binary32 (3783817 - (-9971826)) 13755643 23 0 13755643 (by norm_num [abs_of_nonneg, abs_of_nonpos]) (by norm_num [abs_of_nonneg, abs_of_nonpos]) (by norm_num [binary32]) (Or.inl (by norm_num [abs_lt])) (by norm_num) (by norm_num [binary32, abs_of_nonneg, abs_of_nonpos])))
  have h8 : (Fl.fin (-3009) * Fl.fin 929 : Fl) = Fl.fin (-2795361) :=
    ((Fl.fin_mul_fin (-3009) 929).trans (Fl.round_eval binary32 ((-3009) * 929) (-2795361) 21 (-2) (-11181444) (by norm_num [abs_of_nonneg, abs_of_nonpos]) (by norm_num [abs_of_nonneg, abs_of_nonpos]) (by norm_num [binary32]) (Or.inl (by norm_num [abs_lt])) (by norm_num) (by norm_num [binary32, abs_of_nonneg, abs_of_nonpos])))
  have h9 : (Fl.fin 929 * Fl.fin (-3009) : Fl) = Fl.fin (-2795361) :=
    ((Fl.fin_mul_fin 929 (-3009)).trans (Fl.round_eval binary32 (929 * (-3009)) (-2795361) 21 (-2) (-11181444) (by norm_num [abs_of_nonneg, abs_of_nonpos]) (by norm_num [abs_of_nonneg, abs_of_nonpos]) (by norm_num [binary32]) (Or.inl (by norm_num [abs_lt])) (by norm_num) (by norm_num [binary32, abs_of_nonneg, abs_of_nonpos])))
  have h10 : (Fl.fin (-2795361) - Fl.fin (-2795361) : Fl) = Fl.fin 0 :=
    ((Fl.fin_sub_fin (-2795361) (-2795361)).trans (Fl.round_zero_of binary32 ((-2795361) - (-2795361)) (by norm_num) (by norm_num [binary32])))
  have h11 : (Fl.fin 4073 * Fl.fin 929 : Fl) = Fl.fin 3783817 :=
    ((Fl.fin_mul_fin 4073 929).trans (Fl.round_eval binary32 (4073 * 929) 3783817 21 (-2) 15135268 (by norm_num [abs_of_nonneg, abs_of_nonpos]) (by norm_num [abs_of_nonneg, abs_of_nonpos]) (by norm_num [binary32]) (Or.inl (by norm_num [abs_lt])) (by norm_num) (by norm_num [binary32, abs_of_nonneg, abs_of_nonpos])))
  have h12 : (Fl.fin 3314 * Fl.fin (-3009) : Fl) = Fl.fin (-9971826) :=
    ((Fl.fin_mul_fin 3314 (-3009)).trans (Fl.round_eval binary32 (3314 * (-3009)) (-9971826) 23 0 (-9971826) (by norm_num [abs_of_nonneg, abs_of_nonpos]) (by norm_num [abs_of_nonneg, abs_of_nonpos]) (by norm_num [binary32]) (Or.inl (by norm_num [abs_lt])) (by norm_num) (by norm_num [binary32, abs_of_nonneg, abs_of_nonpos])))
  have h13 : (Fl.fin 0 / Fl.fin 13755643 : Fl) = Fl.fin 0 :=
    ((Fl.fin_div_fin 0 13755643 (by norm_num)).trans (Fl.round_zero_of binary32 (0 / 13755643) (by norm_num) (by norm_num [binary32])))
  have h14 : (Fl.fin 13755643 / Fl.fin 13755643 : Fl) = Fl.fin 1 :=
    ((Fl.fin_div_fin 13755643 13755643 (by norm_num)).trans (Fl.round_eval binary32 (13755643 / 13755643) 1 0 (-23) 8388608 (by norm_num [abs_of_nonneg, abs_of_nonpos]) (by norm_num [abs_of_nonneg, abs_of_nonpos]) (by norm_num [binary32]) (Or.inl (by norm_num [abs_lt])) (by norm_num) (by norm_num [binary32, abs_of_nonneg, abs_of_nonpos])))
  have e0 : Fl.ofInt 0 = Fl.fin 0 := by rw [Fl.ofInt_eq 0 (by norm_num)]; norm_num
  have e1 : Fl.ofInt 1 = Fl.fin 1 := by rw [Fl.ofInt_eq 1 (by norm_num)]; norm_num
  rw [LinesIntersect_eq_true_iff]
  unfold denominator
  simp only [h1, h2, h3, h4, h5, h6, h7, h8, h9, h10, h11, h12, h13, h14, e0, e1]
  refine ⟨⟨?_, ?_⟩, ⟨?_, ?_⟩⟩ <;>
    exact (Fl.fin_le_fin _ _).mpr (by norm_num)

/-- A terrain segment and the bottom edge of a bounding box, given from right to
left as `main` does: `LinesIntersect` computes `uB = 1` and returns true. -/
lemma LinesIntersect_eval_edge :
    LinesIntersect (Fl.fin (2947311 / 8192)) (Fl.fin 390) (Fl.fin (3119343 / 8192)) (Fl.fin 326) (Fl.fin 420) (Fl.fin (2690045 / 8192)) (Fl.fin 380) (Fl.fin (2690045 / 8192)) = true := by
  have h1 : (Fl.fin (2690045 / 8192) - Fl.fin (2690045 / 8192) : Fl) = Fl.fin 0 :=
    ((Fl.fin_sub_fin (2690045 / 8192) (2690045 / 8192)).trans (Fl.round_zero_of binary32 ((2690045 / 8192) - (2690045 / 8192)) (by norm_num) (by norm_num [binary32])))
  have h2 : (Fl.fin (3119343 / 8192) - Fl.fin (2947311 / 8192) : Fl) = Fl.fin 21 :=
    ((Fl.fin_sub_fin (3119343 / 8192) (2947311 / 8192)).trans (Fl.round_eval binary32 ((3119343 / 8192) - (2947311 / 8192)) 21 4 (-19) 11010048 (by norm_num [abs_of_nonneg, abs_of_nonpos]) (by norm_num [abs_of_nonneg, abs_of_nonpos]) (by norm_num [binary32]) (Or.inl (by norm_num [abs_lt])) (by norm_num) (by norm_num [binary32, abs_of_nonneg, abs_of_nonpos])))
  have h3 : (Fl.fin 0 * Fl.fin 21 : Fl) = Fl.fin 0 :=
    ((Fl.fin_mul_fin 0 21).trans (Fl.round_zero_of binary32 (0 * 21) (by norm_num) (by norm_num [binary32])))
  have h4 : (Fl.fin 380 - Fl.fin 420 : Fl) = Fl.fin (-40) :=
    ((Fl.fin_sub_fin 380 420).trans (Fl.round_eval binary32 (380 - 420) (-40) 5 (-18) (-10485760) (by norm_num [abs_of_nonneg, abs_of_nonpos]) (by norm_num [abs_of_nonneg, abs_of_nonpos]) (by norm_num [binary32]) (Or.inl (by norm_num [abs_lt])) (by norm_num) (by norm_num [binary32, abs_of_nonneg, abs_of_nonpos])))
  have h5 : (Fl.fin 326 - Fl.fin 390 : Fl) = Fl.fin (-64) :=
    ((Fl.fin_sub_fin 326 390).trans (Fl.round_eval binary32 (326 - 390) (-64) 6 (-17) (-8388608) (by norm_num [abs_of_nonneg, abs_of_nonpos]) (by norm_num [abs_of_nonneg, abs_of_nonpos]) (by norm_num [binary32]) (Or.inl (by norm_num [abs_lt])) (by norm_num) (by norm_num [binary32, abs_of_nonneg, abs_of_nonpos])))
  have h6 : (Fl.fin (-40) * Fl.fin (-64) : Fl) = Fl.fin 2560 :=
    ((Fl.fin_mul_fin (-40) (-64)).trans (Fl.round_eval binary32 ((-40) * (-64)) 2560 11 (-12) 10485760 (by norm_num [abs_of_nonneg, abs_of_nonpos]) (by norm_num [abs_of_nonneg, abs_of_nonpos]) (by norm_num [binary32]) (Or.inl (by norm_num [abs_lt])) (by norm_num) (by norm_num [binary32, abs_of_nonneg, abs_of_nonpos])))
  have h7 : (Fl.fin 0 - Fl.fin 2560 : Fl) = Fl.fin (-2560) :=
    ((Fl.fin_sub_fin 0 2560).trans (Fl.round_eval binary32 (0 - 2560) (-2560) 11 (-12) (-10485760) (by norm_num [abs_of_nonneg, abs_of_nonpos]) (by norm_num [abs_of_nonneg, abs_of_nonpos]) (by norm_num [binary32]) (Or.inl (by norm_num [abs_lt])) (by norm_num) (by norm_num [binary32, abs_of_nonneg, abs_of_nonpos])))
  have h8 : (Fl.fin 390 - Fl.fin (2690045 / 8192) : Fl) = Fl.fin (504835 / 8192) :=
    ((Fl.fin_sub_fin 390 (2690045 / 8192)).trans (Fl.round_eval binary32 (390 - (2690045 / 8192)) (504835 / 8192) 5 (-18) 16154720 (by norm_num [abs_of_nonneg, abs_of_nonpos]) (by norm_num [abs_of_nonneg, abs_of_nonpos]) (by norm_num [binary32]) (Or.inl (by norm_num [abs_lt])) (by norm_num) (by norm_num [binary32, abs_of_nonneg, abs_of_nonpos])))
  have h9 : (Fl.fin (-40) * Fl.fin (504835 / 8192) : Fl) = Fl.fin (-2524175 / 1024) :=
    ((Fl.fin_mul_fin (-40) (504835 / 8192)).trans (Fl.round_eval binary32 ((-40) * (504835 / 8192)) (-2524175 / 1024) 11 (-12) (-10096700) (by norm_num [abs_of_nonneg, abs_of_nonpos]) (by norm_num [abs_of_nonneg, abs_of_nonpos]) (by norm_num [binary32]) (Or.inl (by norm_num [abs_lt])) (by norm_num) (by norm_num [binary32, abs_of_nonneg, abs_of_nonpos])))
  have h10 : (Fl.fin (2947311 / 8192) - Fl.fin 420 : Fl) = Fl.fin (-493329 / 8192) :=
    ((Fl.fin_sub_fin (2947311 / 8192) 420).trans (Fl.round_eval binary32 ((2947311 / 8192) - 420) (-493329 / 8192) 5 (-18) (-15786528) (by norm_num [abs_of_nonneg, abs_of_nonpos]) (by norm_num [abs_of_nonneg, abs_of_nonpos]) (by norm_num [binary32]) (Or.inl (by norm_num [abs_lt])) (by norm_num) (by norm_num [binary32, abs_of_nonneg, abs_of_nonpos])))
  have h11 : (Fl.fin 0 * Fl.fin (-493329 / 8192) : Fl) = Fl.fin 0 :=
    ((Fl.fin_mul_fin 0 (-493329 / 8192)).trans (Fl.round_zero_of binary32 (0 * (-493329 / 8192)) (by norm_num) (by norm_num [binary32])))
  have h12 : (Fl.fin (-2524175 / 1024) - Fl.fin 0 : Fl) = Fl.fin (-2524175 / 1024) :=
    ((Fl.fin_sub_fin (-2524175 / 1024) 0).trans (Fl.round_eval binary32 ((-2524175 / 1024) - 0) (-2524175 / 1024) 11 (-12) (-10096700) (by norm_num [abs_of_nonneg, abs_of_nonpos]) (by norm_num [abs_of_nonneg, abs_of_nonpos]) (by norm_num [binary32]) (Or.inl (by norm_num [abs_lt])) (by norm_num) (by norm_num [binary32, abs_of_nonneg, abs_of_nonpos])))
  have h13 : (Fl.fin 21 * Fl.fin (504835 / 8192) : Fl) = Fl.fin (10601535 / 8192) :=
    ((Fl.fin_mul_fin 21 (504835 / 8192)).trans (Fl.round_eval binary32 (21 * (504835 / 8192)) (10601535 / 8192) 10 (-13) 10601535 (by norm_num [abs_of_nonneg, abs_of_nonpos]) (by norm_num [abs_of_nonneg, abs_of_nonpos]) (by norm_num [binary32]) (Or.inl (by norm_num [abs_lt])) (by norm_num) (by norm_num [binary32, abs_of_nonneg, abs_of_nonpos])))
  have h14 : (Fl.fin (-64) * Fl.fin (-493329 / 8192) : Fl) = Fl.fin (493329 / 128) :=
    ((Fl.fin_mul_fin (-64) (-493329 / 8192)).trans (Fl.round_eval binary32 ((-64) * (-493329 / 8192)) (493329 / 128) 11 (-12) 15786528 (by norm_num [abs_of_nonneg, abs_of_nonpos]) (by norm_num [abs_of_nonneg, abs_of_nonpos]) (by norm_num [binary32]) (Or.inl (by norm_num [abs_lt])) (by norm_num) (by norm_num [binary32, abs_of_nonneg, abs_of_nonpos])))
  have h15 : (Fl.fin (10601535 / 8192) - Fl.fin (493329 / 128) : Fl) = Fl.fin (-2560) :=
    ((Fl.fin_sub_fin (10601535 / 8192) (493329 / 128)).trans (Fl.round_eval binary32 ((10601535 / 8192) - (493329 / 128)) (-2560) 11 (-12) (-10485760) (by norm_num [abs_of_nonneg, abs_of_nonpos]) (by norm_num [abs_of_nonneg, abs_of_nonpos]) (by norm_num [binary32]) (Or.inr ⟨by norm_num, by norm_num [abs_of_nonneg, abs_of_nonpos]⟩) (by norm_num) (by norm_num [binary32, abs_of_nonneg, abs_of_nonpos])))
  have h16 : (Fl.fin (-2524175 / 1024) / Fl.fin (-2560) : Fl) = Fl.fin (504835 / 524288) :=
    ((Fl.fin_div_fin (-2524175 / 1024) (-2560) (by norm_num)).trans (Fl.round_eval binary32 ((-2524175 / 1024) / (-2560)) (504835 / 524288) (-1) (-24) 16154720 (by norm_num [abs_of_nonneg, abs_of_nonpos]) (by norm_num [abs_of_nonneg, abs_of_nonpos]) (by norm_num [binary32]) (Or.inl (by norm_num [abs_lt])) (by norm_num) (by norm_num [binary32, abs_of_nonneg, abs_of_nonpos])))
  have h17 : (Fl.fin (-2560) / Fl.fin (-2560) : Fl) = Fl.fin 1 :=
    ((Fl.fin_div_fin (-2560) (-2560) (by norm_num)).trans (Fl.round_eval binary32 ((-2560) / (-2560)) 1 0 (-23) 8388608 (by norm_num [abs_of_nonneg, abs_of_nonpos]) (by norm_num [abs_of_nonneg, abs_of_nonpos]) (by norm_num [binary32]) (Or.inl (by norm_num [abs_lt])) (by norm_num) (by norm_num [binary32, abs_of_nonneg, abs_of_nonpos])))
  have e0 : Fl.ofInt 0 = Fl.fin 0 := by rw [Fl.ofInt_eq 0 (by norm_num)]; norm_num
  have e1 : Fl.ofInt 1 = Fl.fin 1 := by rw [Fl.ofInt_eq 1 (by norm_num)]; norm_num
  rw [LinesIntersect_eq_true_iff]
  unfold denominator
  simp only [h1, h2, h3, h4, h5, h6, h7, h8, h9, h10, h11, h12, h13, h14, h15, h16, h17, e0, e1]
  refine ⟨⟨?_, ?_⟩, ⟨?_, ?_⟩⟩ <;>
    exact (Fl.fin_le_fin _ _).mpr (by norm_num)

/-- The segments of `LinesIntersect_eval_edge` with the edge given from left to
right: `LinesIntersect` computes a negative `uB` and returns false. -/
lemma LinesIntersect_eval_edge_reversed :
    LinesIntersect (Fl.fin (2947311 / 8192)) (Fl.fin 390) (Fl.fin (3119343 / 8192)) (Fl.fin 326) (Fl.fin 380) (Fl.fin (2690045 / 8192)) (Fl.fin 420) (Fl.fin (2690045 / 8192)) = false := by
  have h1 : (Fl.fin (2690045 / 8192) - Fl.fin (2690045 / 8192) : Fl) = Fl.fin 0 :=
    ((Fl.fin_sub_fin (2690045 / 8192) (2690045 / 8192)).trans (Fl.round_zero_of binary32 ((2690045 / 8192) - (2690045 / 8192)) (by norm_num) (by norm_num [binary32])))
  have h2 : (Fl.fin (3119343 / 8192) - Fl.fin (2947311 / 8192) : Fl) = Fl.fin 21 :=
    ((Fl.fin_sub_fin (3119343 / 8192) (2947311 / 8192)).trans (Fl.round_eval binary32 ((3119343 / 8192) - (2947311 / 8192)) 21 4 (-19) 11010048 (by norm_num [abs_of_nonneg, abs_of_nonpos]) (by norm_num [abs_of_nonneg, abs_of_nonpos]) (by norm_num [binary32]) (Or.inl (by norm_num [abs_lt])) (by norm_num) (by norm_num [binary32, abs_of_nonneg, abs_of_nonpos])))
  have h3 : (Fl.fin 0 * Fl.fin 21 : Fl) = Fl.fin 0 :=
    ((Fl.fin_mul_fin 0 21).trans (Fl.round_zero_of binary32 (0 * 21) (by norm_num) (by norm_num [binary32])))
  have h4 : (Fl.fin 420 - Fl.fin 380 : Fl) = Fl.fin 40 :=
    ((Fl.fin_sub_fin 420 380).trans (Fl.round_eval binary32 (420 - 380) 40 5 (-18) 10485760 (by norm_num [abs_of_nonneg, abs_of_nonpos]) (by norm_num [abs_of_nonneg, abs_of_nonpos]) (by norm_num [binary32]) (Or.inl (by norm_num [abs_lt])) (by norm_num) (by norm_num [binary32, abs_of_nonneg, abs_of_nonpos])))
  have h5 : (Fl.fin 326 - Fl.fin 390 : Fl) = Fl.fin (-64) :=
    ((Fl.fin_sub_fin 326 390).trans (Fl.round_eval binary32 (326 - 390) (-64) 6 (-17) (-8388608) (by norm_num [abs_of_nonneg, abs_of_nonpos]) (by norm_num [abs_of_nonneg, abs_of_nonpos]) (by norm_num [binary32]) (Or.inl (by norm_num [abs_lt])) (by norm_num) (by norm_num [binary32, abs_of_nonneg, abs_of_nonpos])))
  have h6 : (Fl.fin 40 * Fl.fin (-64) : Fl) = Fl.fin (-2560) :=
    ((Fl.fin_mul_fin 40 (-64)).trans (Fl.round_eval binary32 (40 * (-64)) (-2560) 11 (-12) (-10485760) (by norm_num [abs_of_nonneg, abs_of_nonpos]) (by norm_num [abs_of_nonneg, abs_of_nonpos]) (by norm_num [binary32]) (Or.inl (by norm_num [abs_lt])) (by norm_num) (by norm_num [binary32, abs_of_nonneg, abs_of_nonpos])))
  have h7 : (Fl.fin 0 - Fl.fin (-2560) : Fl) = Fl.fin 2560 :=
    ((Fl.fin_sub_fin 0 (-2560)).trans (Fl.round_eval binary32 (0 - (-2560)) 2560 11 (-12) 10485760 (by norm_num [abs_of_nonneg, abs_of_nonpos]) (by norm_num [abs_of_nonneg, abs_of_nonpos]) (by norm_num [binary32]) (Or.inl (by norm_num [abs_lt])) (by norm_num) (by norm_num [binary32, abs_of_nonneg, abs_of_nonpos])))
  have h8 : (Fl.fin 390 - Fl.fin (2690045 / 8192) : Fl) = Fl.fin (504835 / 8192) :=
    ((Fl.fin_sub_fin 390 (2690045 / 8192)).trans (Fl.round_eval binary32 (390 - (2690045 / 8192)) (504835 / 8192) 5 (-18) 16154720 (by norm_num [abs_of_nonneg, abs_of_nonpos]) (by norm_num [abs_of_nonneg, abs_of_nonpos]) (by norm_num [binary32]) (Or.inl (by norm_num [abs_lt])) (by norm_num) (by norm_num [binary32, abs_of_nonneg, abs_of_nonpos])))
  have h9 : (Fl.fin 40 * Fl.fin (504835 / 8192) : Fl) = Fl.fin (2524175 / 1024) :=
    ((Fl.fin_mul_fin 40 (504835 / 8192)).trans (Fl.round_eval binary32 (40 * (504835 / 8192)) (2524175 / 1024) 11 (-12) 10096700 (by norm_num [abs_of_nonneg, abs_of_nonpos]) (by norm_num [abs_of_nonneg, abs_of_nonpos]) (by norm_num [binary32]) (Or.inl (by norm_num [abs_lt])) (by norm_num) (by norm_num [binary32, abs_of_nonneg, abs_of_nonpos])))
  have h10 : (Fl.fin (2947311 / 8192) - Fl.fin 380 : Fl) = Fl.fin (-165649 / 8192) :=
    ((Fl.fin_sub_fin (2947311 / 8192) 380).trans (Fl.round_eval binary32 ((2947311 / 8192) - 380) (-165649 / 8192) 4 (-19) (-10601536) (by norm_num [abs_of_nonneg, abs_of_nonpos]) (by norm_num [abs_of_nonneg, abs_of_nonpos]) (by norm_num [binary32]) (Or.inl (by norm_num [abs_lt])) (by norm_num) (by norm_num [binary32, abs_of_nonneg, abs_of_nonpos])))
  have h11 : (Fl.fin 0 * Fl.fin (-165649 / 8192) : Fl) = Fl.fin 0 :=
    ((Fl.fin_mul_fin 0 (-165649 / 8192)).trans (Fl.round_zero_of binary32 (0 * (-165649 / 8192)) (by norm_num) (by norm_num [binary32])))
  have h12 : (Fl.fin (2524175 / 1024) - Fl.fin 0 : Fl) = Fl.fin (2524175 / 1024) :=
    ((Fl.fin_sub_fin (2524175 / 1024) 0).trans (Fl.round_eval binary32 ((2524175 / 1024) - 0) (2524175 / 1024) 11 (-12) 10096700 (by norm_num [abs_of_nonneg, abs_of_nonpos]) (by norm_num [abs_of_nonneg, abs_of_nonpos]) (by norm_num [binary32]) (Or.inl (by norm_num [abs_lt])) (by norm_num) (by norm_num [binary32, abs_of_nonneg, abs_of_nonpos])))
  have h13 : (Fl.fin 21 * Fl.fin (504835 / 8192) : Fl) = Fl.fin (10601535 / 8192) :=
    ((Fl.fin_mul_fin 21 (504835 / 8192)).trans (Fl.round_eval binary32 (21 * (504835 / 8192)) (10601535 / 8192) 10 (-13) 10601535 (by norm_num [abs_of_nonneg, abs_of_nonpos]) (by norm_num [abs_of_nonneg, abs_of_nonpos]) (by norm_num [binary32]) (Or.inl (by norm_num [abs_lt])) (by norm_num) (by norm_num [binary32, abs_of_nonneg, abs_of_nonpos])))
  have h14 : (Fl.fin (-64) * Fl.fin (-165649 / 8192) : Fl) = Fl.fin (165649 / 128) :=
    ((Fl.fin_mul_fin (-64) (-165649 / 8192)).trans (Fl.round_eval binary32 ((-64) * (-165649 / 8192)) (165649 / 128) 10 (-13) 10601536 (by norm_num [abs_of_nonneg, abs_of_nonpos]) (by norm_num [abs_of_nonneg, abs_of_nonpos]) (by norm_num [binary32]) (Or.inl (by norm_num [abs_lt])) (by norm_num) (by norm_num [binary32, abs_of_nonneg, abs_of_nonpos])))
  have h15 : (Fl.fin (10601535 / 8192) - Fl.fin (165649 / 128) : Fl) = Fl.fin (-1 / 8192) :=
    ((Fl.fin_sub_fin (10601535 / 8192) (165649 / 128)).trans (Fl.round_eval binary32 ((10601535 / 8192) - (165649 / 128)) (-1 / 8192) (-13) (-36) (-8388608) (by norm_num [abs_of_nonneg, abs_of_nonpos]) (by norm_num [abs_of_nonneg, abs_of_nonpos]) (by norm_num [binary32]) (Or.inl (by norm_num [abs_lt])) (by norm_num) (by norm_num [binary32, abs_of_nonneg, abs_of_nonpos])))
  have h16 : (Fl.fin (2524175 / 1024) / Fl.fin 2560 : Fl) = Fl.fin (504835 / 524288) :=
    ((Fl.fin_div_fin (2524175 / 1024) 2560 (by norm_num)).trans (Fl.round_eval binary32 ((2524175 / 1024) / 2560) (504835 / 524288) (-1) (-24) 16154720 (by norm_num [abs_of_nonneg, abs_of_nonpos]) (by norm_num [abs_of_nonneg, abs_of_nonpos]) (by norm_num [binary32]) (Or.inl (by norm_num [abs_lt])) (by norm_num) (by norm_num [binary32, abs_of_nonneg, abs_of_nonpos])))
  have h17 : (Fl.fin (-1 / 8192) / Fl.fin 2560 : Fl) = Fl.fin (-13421773 / 281474976710656) :=
    ((Fl.fin_div_fin (-1 / 8192) 2560 (by norm_num)).trans (Fl.round_eval binary32 ((-1 / 8192) / 2560) (-13421773 / 281474976710656) (-25) (-48) (-13421773) (by norm_num [abs_of_nonneg, abs_of_nonpos]) (by norm_num [abs_of_nonneg, abs_of_nonpos]) (by norm_num [binary32]) (Or.inl (by norm_num [abs_lt])) (by norm_num) (by norm_num [binary32, abs_of_nonneg, abs_of_nonpos])))
  have e0 : Fl.ofInt 0 = Fl.fin 0 := by rw [Fl.ofInt_eq 0 (by norm_num)]; norm_num
  have e1 : Fl.ofInt 1 = Fl.fin 1 := by rw [Fl.ofInt_eq 1 (by norm_num)]; norm_num
  rw [← Bool.not_eq_true, LinesIntersect_eq_true_iff]
  unfold denominator
  simp only [h1, h2, h3, h4, h5, h6, h7, h8, h9, h10, h11, h12, h13, h14, h15, h16, h17, e0, e1]
  intro h
  have h' : Fl.fin _ ≤ Fl.fin _ := h.2.1
  rw [Fl.fin_le_fin] at h'
  norm_num at h'

/-- Two overlapping segments of the line `3 y = 2 x`: the computed denominator
is `2 ^ 27`, not 0, and `LinesIntersect` returns true. -/
lemma LinesIntersect_eval_collinear :
    LinesIntersect (Fl.fin 4325376) (Fl.fin 2883584) (Fl.fin 12) (Fl.fin 8) (Fl.fin 288) (Fl.fin 192) (Fl.fin 553648128) (Fl.fin 369098752) = true := by
  have h1 : (Fl.fin 369098752 - Fl.fin 192 : Fl) = Fl.fin 369098560 :=
    ((Fl.fin_sub_fin 369098752 192).trans (Fl.round_eval binary32 (369098752 - 192) 369098560 28 5 11534330 (by norm_num [abs_of_nonneg, abs_of_nonpos]) (by norm_num [abs_of_nonneg, abs_of_nonpos]) (by norm_num [binary32]) (Or.inl (by norm_num [abs_lt])) (by norm_num) (by norm_num [binary32, abs_of_nonneg, abs_of_nonpos])))
  have h2 : (Fl.fin 12 - Fl.fin 4325376 : Fl) = Fl.fin (-4325364) :=
    ((Fl.fin_sub_fin 12 4325376).trans (Fl.round_eval binary32 (12 - 4325376) (-4325364) 22 (-1) (-8650728) (by norm_num [abs_of_nonneg, abs_of_nonpos]) (by norm_num [abs_of_nonneg, abs_of_nonpos]) (by norm_num [binary32]) (Or.inl (by norm_num [abs_lt])) (by norm_num) (by norm_num [binary32, abs_of_nonneg, abs_of_nonpos])))
  have h3 : (Fl.fin 369098560 * Fl.fin (-4325364) : Fl) = Fl.fin (-1596485649039360) :=
    ((Fl.fin_mul_fin 369098560 (-4325364)).trans (Fl.round_eval binary32 (369098560 * (-4325364)) (-1596485649039360) 50 27 (-11894745) (by norm_num [abs_of_nonneg, abs_of_nonpos]) (by norm_num [abs_of_nonneg, abs_of_nonpos]) (by norm_num [binary32]) (Or.inl (by norm_num [abs_lt])) (by norm_num) (by norm_num [binary32, abs_of_nonneg, abs_of_nonpos])))
  have h4 : (Fl.fin 553648128 - Fl.fin 288 : Fl) = Fl.fin 553647872 :=
    ((Fl.fin_sub_fin 553648128 288).trans (Fl.round_eval binary32 (553648128 - 288) 553647872 29 6 8650748 (by norm_num [abs_of_nonneg, abs_of_nonpos]) (by norm_num [abs_of_nonneg, abs_of_nonpos]) (by norm_num [binary32]) (Or.inr ⟨by norm_num, by norm_num [abs_of_nonneg, abs_of_nonpos]⟩) (by norm_num) (by norm_num [binary32, abs_of_nonneg, abs_of_nonpos])))
  have h5 : (Fl.fin 8 - Fl.fin 2883584 : Fl) = Fl.fin (-2883576) :=
    ((Fl.fin_sub_fin 8 2883584).trans (Fl.round_eval binary32 (8 - 2883584) (-2883576) 21 (-2) (-11534304) (by norm_num [abs_of_nonneg, abs_of_nonpos]) (by norm_num [abs_of_nonneg, abs_of_nonpos]) (by norm_num [binary32]) (Or.inl (by norm_num [abs_lt])) (by norm_num) (by norm_num [binary32, abs_of_nonneg, abs_of_nonpos])))
  have h6 : (Fl.fin 553647872 * Fl.fin (-2883576) : Fl) = Fl.fin (-1596485783257088) :=
    ((Fl.fin_mul_fin 553647872 (-2883576)).trans (Fl.round_eval binary32 (553647872 * (-2883576)) (-1596485783257088) 50 27 (-11894746) (by norm_num [abs_of_nonneg, abs_of_nonpos]) (by norm_num [abs_of_nonneg, abs_of_nonpos]) (by norm_num [binary32]) (Or.inl (by norm_num [abs_lt])) (by norm_num) (by norm_num [binary32, abs_of_nonneg, abs_of_nonpos])))
  have h7 : (Fl.fin (-1596485649039360) - Fl.fin (-1596485783257088) : Fl) = Fl.fin 134217728 :=
    ((Fl.fin_sub_fin (-1596485649039360) (-1596485783257088)).trans (Fl.round_eval binary32 ((-1596485649039360) - (-1596485783257088)) 134217728 27 4 8388608 (by norm_num [abs_of_nonneg, abs_of_nonpos]) (by norm_num [abs_of_nonneg, abs_of_nonpos]) (by norm_num [binary32]) (Or.inl (by norm_num [abs_lt])) (by norm_num) (by norm_num [binary32, abs_of_nonneg, abs_of_nonpos])))
  have h8 : (Fl.fin 2883584 - Fl.fin 192 : Fl) = Fl.fin 2883392 :=
    ((Fl.fin_sub_fin 2883584 192).trans (Fl.round_eval binary32 (2883584 - 192) 2883392 21 (-2) 11533568 (by norm_num [abs_of_nonneg, abs_of_nonpos]) (by norm_num [abs_of_nonneg, abs_of_nonpos]) (by norm_num [binary32]) (Or.inl (by norm_num [abs_lt])) (by norm_num) (by norm_num [binary32, abs_of_nonneg, abs_of_nonpos])))
  have h9 : (Fl.fin 553647872 * Fl.fin 2883392 : Fl) = Fl.fin 1596383912001536 :=
    ((Fl.fin_mul_fin 553647872 2883392).trans (Fl.round_eval binary32 (553647872 * 2883392) 1596383912001536 50 27 11893987 (by norm_num [abs_of_nonneg, abs_of_nonpos]) (by norm_num [abs_of_nonneg, abs_of_nonpos]) (by norm_num [binary32]) (Or.inl (by norm_num [abs_lt])) (by norm_num) (by norm_num [binary32, abs_of_nonneg, abs_of_nonpos])))
  have h10 : (Fl.fin 4325376 - Fl.fin 288 : Fl) = Fl.fin 4325088 :=
    ((Fl.fin_sub_fin 4325376 288).trans (Fl.round_eval binary32 (4325376 - 288) 4325088 22 (-1) 8650176 (by norm_num [abs_of_nonneg, abs_of_nonpos]) (by norm_num [abs_of_nonneg, abs_of_nonpos]) (by norm_num [binary32]) (Or.inl (by norm_num [abs_lt])) (by norm_num) (by norm_num [binary32, abs_of_nonneg, abs_of_nonpos])))
  have h11 : (Fl.fin 369098560 * Fl.fin 4325088 : Fl) = Fl.fin 1596383777783808 :=
    ((Fl.fin_mul_fin 369098560 4325088).trans (Fl.round_eval binary32 (369098560 * 4325088) 1596383777783808 50 27 11893986 (by norm_num [abs_of_nonneg, abs_of_nonpos]) (by norm_num [abs_of_nonneg, abs_of_nonpos]) (by norm_num [binary32]) (Or.inl (by norm_num [abs_lt])) (by norm_num) (by norm_num [binary32, abs_of_nonneg, abs_of_nonpos])))
  have h12 : (Fl.fin 1596383912001536 - Fl.fin 1596383777783808 : Fl) = Fl.fin 134217728 :=
    ((Fl.fin_sub_fin 1596383912001536 1596383777783808).trans (Fl.round_eval binary32 (1596383912001536 - 1596383777783808) 134217728 27 4 8388608 (by norm_num [abs_of_nonneg, abs_of_nonpos]) (by norm_num [abs_of_nonneg, abs_of_nonpos]) (by norm_num [binary32]) (Or.inl (by norm_num [abs_lt])) (by norm_num) (by norm_num [binary32, abs_of_nonneg, abs_of_nonpos])))
  have h13 : (Fl.fin (-4325364) * Fl.fin 2883392 : Fl) = Fl.fin (-12471719952384) :=
    ((Fl.fin_mul_fin (-4325364) 2883392).trans (Fl.round_eval binary32 ((-4325364) * 2883392) (-12471719952384) 43 20 (-11893959) (by norm_num [abs_of_nonneg, abs_of_nonpos]) (by norm_num [abs_of_nonneg, abs_of_nonpos]) (by norm_num [binary32]) (Or.inl (by norm_num [abs_lt])) (by norm_num) (by norm_num [binary32, abs_of_nonneg, abs_of_nonpos])))
  have h14 : (Fl.fin (-2883576) * Fl.fin 4325088 : Fl) = Fl.fin (-12471719952384) :=
    ((Fl.fin_mul_fin (-2883576) 4325088).trans (Fl.round_eval binary32 ((-2883576) * 4325088) (-12471719952384) 43 20 (-11893959) (by norm_num [abs_of_nonneg, abs_of_nonpos]) (by norm_num [abs_of_nonneg, abs_of_nonpos]) (by norm_num [binary32]) (Or.inl (by norm_num [abs_lt])) (by norm_num) (by norm_num [binary32, abs_of_nonneg, abs_of_nonpos])))
  have h15 : (Fl.fin (-12471719952384) - Fl.fin (-12471719952384) : Fl) = Fl.fin 0 :=
    ((Fl.fin_sub_fin (-12471719952384) (-12471719952384)).trans (Fl.round_zero_of binary32 ((-12471719952384) - (-12471719952384)) (by norm_num) (by norm_num [binary32])))
  have h16 : (Fl.fin 134217728 / Fl.fin 134217728 : Fl) = Fl.fin 1 :=
    ((Fl.fin_div_fin 134217728 134217728 (by norm_num)).trans (Fl.round_eval binary32 (134217728 / 134217728) 1 0 (-23) 8388608 (by norm_num [abs_of_nonneg, abs_of_nonpos]) (by norm_num [abs_of_nonneg, abs_of_nonpos]) (by norm_num [binary32]) (Or.inl (by norm_num [abs_lt])) (by norm_num) (by norm_num [binary32, abs_of_nonneg, abs_of_nonpos])))
  have h17 : (Fl.fin 0 / Fl.fin 134217728 : Fl) = Fl.fin 0 :=
    ((Fl.fin_div_fin 0 134217728 (by norm_num)).trans (Fl.round_zero_of binary32 (0 / 134217728) (by norm_num) (by norm_num [binary32])))
  have e0 : Fl.ofInt 0 = Fl.fin 0 := by rw [Fl.ofInt_eq 0 (by norm_num)]; norm_num
  have e1 : Fl.ofInt 1 = Fl.fin 1 := by rw [Fl.ofInt_eq 1 (by norm_num)]; norm_num
  rw [LinesIntersect_eq_true_iff]
  unfold denominator
  simp only [h1, h2, h3, h4, h5, h6, h7, h8, h9, h10, h11, h12, h13, h14, h15, h16, h17, e0, e1]
  refine ⟨⟨?_, ?_⟩, ⟨?_, ?_⟩⟩ <;>
    exact (Fl.fin_le_fin _ _).mpr (by norm_num)

/-! ## The segment-intersection test on integer coordinates -/

namespace Fl

/-- The expression `(a - b) * (c - d) - (e - f) * (g - h)` of `LinesIntersect`
is computed exactly on integers up to 1024 in magnitude. -/
lemma cross_int (a b c d e f g h : ℤ) (ha : |a| ≤ 1024) (hb : |b| ≤ 1024) (hc : |c| ≤ 1024)
    (hd : |d| ≤ 1024) (he : |e| ≤ 1024) (hf : |f| ≤ 1024) (hg : |g| ≤ 1024)
    (hh : |h| ≤ 1024) :
    ((fin a - fin b) * (fin c - fin d) - (fin e - fin f) * (fin g - fin h) : Fl) =
      fin (((a - b) * (c - d) - (e - f) * (g - h) : ℤ)) ∧
    |(a - b) * (c - d) - (e - f) * (g - h)| ≤ 2 ^ 23 := by
  have s : ∀ u v : ℤ, |u| ≤ 1024 → |v| ≤ 1024 → |u - v| ≤ 2048 := by
    intro u v hu hv
    have hu' := abs_le.mp hu
    have hv' := abs_le.mp hv
    exact abs_le.mpr ⟨by linarith, by linarith⟩
  have m : ∀ u v : ℤ, |u| ≤ 2048 → |v| ≤ 2048 → |u * v| ≤ 4194304 := by
    intro u v hu hv
    rw [abs_mul]
    calc |u| * |v| ≤ 2048 * 2048 := mul_le_mul hu hv (abs_nonneg _) (by norm_num)
      _ = 4194304 := by norm_num
  have hab := s a b ha hb
  have hcd := s c d hc hd
  have hef := s e f he hf
  have hgh := s g h hg hh
  have hp := m _ _ hab hcd
  have hq := m _ _ hef hgh
  have hpq : |(a - b) * (c - d) - (e - f) * (g - h)| ≤ 2 ^ 23 := by
    have hp' := abs_le.mp hp
    have hq' := abs_le.mp hq
    exact abs_le.mpr ⟨by linarith, by linarith⟩
  refine ⟨?_, hpq⟩
  rw [sub_int a b (hab.trans (by norm_num)), sub_int c d (hcd.trans (by norm_num)),
    sub_int e f (hef.trans (by norm_num)), sub_int g h (hgh.trans (by norm_num)),
    mul_int _ _ (hp.trans (by norm_num)), mul_int _ _ (hq.trans (by norm_num)),
    sub_int _ _ (hpq.trans (by norm_num))]

/-- A negative quotient of integers is at most `-1 / M` when the divisor is at
most `M` in magnitude. -/
lemma quot_gap (n d : ℤ) (M : ℚ) (hM : |(d : ℚ)| ≤ M) (h : (n : ℚ) / d < 0) :
    (n : ℚ) / d ≤ -(1 / M) := by
  have hd : (d : ℚ) ≠ 0 := by
    intro h0
    rw [h0, div_zero] at h
    exact absurd h (lt_irrefl _)
  have hn : n ≠ 0 := by
    intro h0
    rw [h0, Int.cast_zero, zero_div] at h
    exact absurd h (lt_irrefl _)
  have hdpos : (0 : ℚ) < |(d : ℚ)| := abs_pos.mpr hd
  have hMpos : (0 : ℚ) < M := lt_of_lt_of_le hdpos hM
  have hn1 : (1 : ℚ) ≤ |(n : ℚ)| := by
    have : (1 : ℤ) ≤ |n| := Int.one_le_abs hn
    have : ((1 : ℤ) : ℚ) ≤ ((|n| : ℤ) : ℚ) := by exact_mod_cast this
    simpa using this
  have h1 : 1 / M ≤ |(n : ℚ) / d| := by
    rw [abs_div, div_le_div_iff₀ hMpos hdpos]
    nlinarith
  rw [abs_of_neg h] at h1
  linarith

lemma isRep32_one : IsRep binary32 (1 : ℚ) := by
  have := isRep32_intCast 1 (by norm_num)
  simpa using this

/-- On a quotient of integers with a divisor of at most `2 ^ 23` in magnitude
the test `u >= 0 && u <= 1` of `LinesIntersect` has the outcome that it has in
exact arithmetic. -/
lemma unit_div_int (n d : ℤ) (hd : d ≠ 0) (hdb : |d| ≤ 2 ^ 23) :
    ((fin n / fin d : Fl) ≥ ofInt 0 ∧ (fin n / fin d : Fl) ≤ ofInt 1) ↔
      (0 ≤ (n : ℚ) / d ∧ (n : ℚ) / d ≤ 1) := by
  have e0 : ofInt 0 = fin 0 := by rw [ofInt_eq 0 (by norm_num)]; norm_num
  have e1 : ofInt 1 = fin 1 := by rw [ofInt_eq 1 (by norm_num)]; norm_num
  have hdq : (d : ℚ) ≠ 0 := by exact_mod_cast hd
  have hM : |(d : ℚ)| ≤ 2 ^ 23 := by
    have : ((|d| : ℤ) : ℚ) ≤ ((2 ^ 23 : ℤ) : ℚ) := by exact_mod_cast hdb
    simpa using this
  rw [e0, e1, fin_div_fin _ _ hdq]
  show (fin 0 ≤ round binary32 _ ∧ round binary32 _ ≤ fin 1) ↔ _
  constructor
  · rintro ⟨h0, h1⟩
    constructor
    · by_contra hneg
      have hlt : (n : ℚ) / d < 0 := not_le.mp hneg
      have hgap := quot_gap n d _ hM hlt
      have hr : IsRep binary32 (-(1 / 2 ^ 23) : ℚ) :=
        ⟨-1, -23, by norm_num [binary32], by norm_num [binary32], by norm_num⟩
      have := round_le_of_le binary32 prec32 _ _ hr (by norm_num [binary32]) hgap
      have h2 := le_trans' h0 this
      rw [fin_le_fin] at h2
      norm_num at h2
    · by_contra hgt
      have hlt : ((d - n : ℤ) : ℚ) / d < 0 := by
        have : ((d - n : ℤ) : ℚ) / d = 1 - (n : ℚ) / d := by
          push_cast
          field_simp
        rw [this]
        linarith [not_le.mp hgt]
      have hgap := quot_gap (d - n) d _ hM hlt
      have hge : (1 + 1 / 2 ^ 23 : ℚ) ≤ (n : ℚ) / d := by
        have : ((d - n : ℤ) : ℚ) / d = 1 - (n : ℚ) / d := by
          push_cast
          field_simp
        rw [this] at hgap
        linarith
      have hr : IsRep binary32 (1 + 1 / 2 ^ 23 : ℚ) :=
        ⟨8388609, -23, by norm_num [binary32], by norm_num [binary32], by norm_num⟩
      have := le_round_of_le binary32 prec32 _ _ hr
        (by
          have : (0 : ℚ) < 2 ^ binary32.emax := two_zpow_pos _
          have h3 : (0 : ℚ) < 1 + 1 / 2 ^ 23 := by norm_num
          linarith) hge
      have h2 := le_trans' this h1
      rw [fin_le_fin] at h2
      norm_num at h2
  · rintro ⟨h0, h1⟩
    exact ⟨round_nonneg _ _ h0,
      round_le_of_le binary32 prec32 _ 1 isRep32_one (by norm_num [binary32]) h1⟩

end Fl

/-- In exact arithmetic, with a non-zero denominator, the two closed segments
share a point exactly when both parameters lie in `[0,1]`. -/
lemma sharePoint_iff (x1 y1 x2 y2 x3 y3 x4 y4 : ℚ)
    (hden : exactDenominator x1 y1 x2 y2 x3 y3 x4 y4 ≠ 0) :
    SharePoint x1 y1 x2 y2 x3 y3 x4 y4 ↔
      (0 ≤ ((x4 - x3) * (y1 - y3) - (y4 - y3) * (x1 - x3)) /
          exactDenominator x1 y1 x2 y2 x3 y3 x4 y4 ∧
        ((x4 - x3) * (y1 - y3) - (y4 - y3) * (x1 - x3)) /
          exactDenominator x1 y1 x2 y2 x3 y3 x4 y4 ≤ 1) ∧
      (0 ≤ ((x2 - x1) * (y1 - y3) - (y2 - y1) * (x1 - x3)) /
          exactDenominator x1 y1 x2 y2 x3 y3 x4 y4 ∧
        ((x2 - x1) * (y1 - y3) - (y2 - y1) * (x1 - x3)) /
          exactDenominator x1 y1 x2 y2 x3 y3 x4 y4 ≤ 1) := by
  unfold SharePoint
  constructor
  · rintro ⟨s, t, hs, ht, hx, hy⟩
    have hsA : s = ((x4 - x3) * (y1 - y3) - (y4 - y3) * (x1 - x3)) /
        exactDenominator x1 y1 x2 y2 x3 y3 x4 y4 := by
      rw [eq_div_iff hden]
      unfold exactDenominator
      linear_combination (y4 - y3) * hx - (x4 - x3) * hy
    have htB : t = ((x2 - x1) * (y1 - y3) - (y2 - y1) * (x1 - x3)) /
        exactDenominator x1 y1 x2 y2 x3 y3 x4 y4 := by
      rw [eq_div_iff hden]
      unfold exactDenominator
      linear_combination (y2 - y1) * hx - (x2 - x1) * hy
    rw [← hsA, ← htB]
    exact ⟨hs, ht⟩
  · rintro ⟨hA, hB⟩
    refine ⟨_, _, hA, hB, ?_, ?_⟩
    · unfold exactDenominator at hden ⊢
      field_simp
      ring
    · unfold exactDenominator at hden ⊢
      field_simp
      ring

/-- In exact arithmetic the property of sharing a point does not depend on the
order of the two segments nor on the direction of either. -/
lemma sharePoint_symm (x1 y1 x2 y2 x3 y3 x4 y4 : ℚ) :
    (SharePoint x1 y1 x2 y2 x3 y3 x4 y4 ↔ SharePoint x2 y2 x1 y1 x3 y3 x4 y4) ∧
    (SharePoint x1 y1 x2 y2 x3 y3 x4 y4 ↔ SharePoint x1 y1 x2 y2 x4 y4 x3 y3) := by
  unfold SharePoint
  refine ⟨⟨?_, ?_⟩, ⟨?_, ?_⟩⟩
  · rintro ⟨s, t, hs, ht, hx, hy⟩
    exact ⟨1 - s, t, ⟨by linarith [hs.2], by linarith [hs.1]⟩, ht,
      by linear_combination hx, by linear_combination hy⟩
  · rintro ⟨s, t, hs, ht, hx, hy⟩
    exact ⟨1 - s, t, ⟨by linarith [hs.2], by linarith [hs.1]⟩, ht,
      by linear_combination hx, by linear_combination hy⟩
  · rintro ⟨s, t, hs, ht, hx, hy⟩
    exact ⟨s, 1 - t, hs, ⟨by linarith [ht.2], by linarith [ht.1]⟩,
      by linear_combination hx, by linear_combination hy⟩
  · rintro ⟨s, t, hs, ht, hx, hy⟩
    exact ⟨s, 1 - t, hs, ⟨by linarith [ht.2], by linarith [ht.1]⟩,
      by linear_combination hx, by linear_combination hy⟩

/-- On integer coordinates up to 1024 in magnitude the computed denominator
is the exact one. -/
lemma denominator_int (x1 y1 x2 y2 x3 y3 x4 y4 : ℤ)
    (hb : ∀ c ∈ [x1, y1, x2, y2, x3, y3, x4, y4], |c| ≤ 1024) :
    denominator (Fl.fin x1) (Fl.fin y1) (Fl.fin x2) (Fl.fin y2) (Fl.fin x3) (Fl.fin y3)
      (Fl.fin x4) (Fl.fin y4) = Fl.fin (exactDenominator x1 y1 x2 y2 x3 y3 x4 y4) := by
  unfold denominator exactDenominator
  rw [(Fl.cross_int y4 y3 x2 x1 x4 x3 y2 y1 (hb _ (by simp)) (hb _ (by simp)) (hb _ (by simp))
    (hb _ (by simp)) (hb _ (by simp)) (hb _ (by simp)) (hb _ (by simp)) (hb _ (by simp))).1]
  push_cast
  rfl

/-- On integer coordinates up to 1024 in magnitude, with a non-zero exact
denominator, `LinesIntersect` returns true exactly when the closed segments
share a point. -/
lemma LinesIntersect_int_iff (x1 y1 x2 y2 x3 y3 x4 y4 : ℤ)
    (hb : ∀ c ∈ [x1, y1, x2, y2, x3, y3, x4, y4], |c| ≤ 1024)
    (hden : exactDenominator x1 y1 x2 y2 x3 y3 x4 y4 ≠ 0) :
    LinesIntersect (Fl.fin x1) (Fl.fin y1) (Fl.fin x2) (Fl.fin y2) (Fl.fin x3) (Fl.fin y3)
      (Fl.fin x4) (Fl.fin y4) = true ↔ SharePoint x1 y1 x2 y2 x3 y3 x4 y4 := by
  have hx1 := hb x1 (by simp)
  have hy1 := hb y1 (by simp)
  have hx2 := hb x2 (by simp)
  have hy2 := hb y2 (by simp)
  have hx3 := hb x3 (by simp)
  have hy3 := hb y3 (by simp)
  have hx4 := hb x4 (by simp)
  have hy4 := hb y4 (by simp)
  obtain ⟨hD, hDb⟩ := Fl.cross_int y4 y3 x2 x1 x4 x3 y2 y1 hy4 hy3 hx2 hx1 hx4 hx3 hy2 hy1
  obtain ⟨hA, -⟩ := Fl.cross_int x4 x3 y1 y3 y4 y3 x1 x3 hx4 hx3 hy1 hy3 hy4 hy3 hx1 hx3
  obtain ⟨hB, -⟩ := Fl.cross_int x2 x1 y1 y3 y2 y1 x1 x3 hx2 hx1 hy1 hy3 hy2 hy1 hx1 hx3
  have hD0 : (y4 - y3) * (x2 - x1) - (x4 - x3) * (y2 - y1) ≠ 0 := by
    intro h0
    apply hden
    unfold exactDenominator
    have : (((y4 - y3) * (x2 - x1) - (x4 - x3) * (y2 - y1) : ℤ) : ℚ) = 0 := by
      rw [h0]; simp
    push_cast at this
    exact this
  rw [LinesIntersect_eq_true_iff, sharePoint_iff _ _ _ _ _ _ _ _ hden]
  unfold denominator
  rw [hD, hA, hB, Fl.unit_div_int _ _ hD0 hDb, Fl.unit_div_int _ _ hD0 hDb]
  unfold exactDenominator
  push_cast
  rfl

/-- On integer coordinates up to 1024 in magnitude, with an exact denominator
that is zero, `LinesIntersect` returns false. -/
lemma LinesIntersect_int_zero (x1 y1 x2 y2 x3 y3 x4 y4 : ℤ)
    (hb : ∀ c ∈ [x1, y1, x2, y2, x3, y3, x4, y4], |c| ≤ 1024)
    (hden : exactDenominator x1 y1 x2 y2 x3 y3 x4 y4 = 0) :
    LinesIntersect (Fl.fin x1) (Fl.fin y1) (Fl.fin x2) (Fl.fin y2) (Fl.fin x3) (Fl.fin y3)
      (Fl.fin x4) (Fl.fin y4) = false := by
  apply LinesIntersect_of_denominator_zero
  rw [denominator_int _ _ _ _ _ _ _ _ hb, hden]

/-! ## The segment-intersection test: geometry, degenerate inputs, symmetry -/

/-- C2, as stated, fails in both directions, because `uA` and `uB` are rounded
quotients of rounded products.  The segments (4174, 4251)-(101, 937) and
(3110, 8)-(101, 937) have a non-zero denominator and share their end point,
and `LinesIntersect` returns false.  A terrain segment and a box edge of the
kind `main` passes have a non-zero denominator and share no point (the exact
`uB` is `20971521 / 20971520`), and `LinesIntersect` returns true. -/
theorem LinesIntersect_iff_share_point_counterexample :
    (exactDenominator 4174 4251 101 937 3110 8 101 937 ≠ 0 ∧
      SharePoint 4174 4251 101 937 3110 8 101 937 ∧
      LinesIntersect (Fl.fin 4174) (Fl.fin 4251) (Fl.fin 101) (Fl.fin 937)
        (Fl.fin 3110) (Fl.fin 8) (Fl.fin 101) (Fl.fin 937) = false) ∧
    (exactDenominator (2947311 / 8192) 390 (3119343 / 8192) 326
        420 (2690045 / 8192) 380 (2690045 / 8192) ≠ 0 ∧
      ¬ SharePoint (2947311 / 8192) 390 (3119343 / 8192) 326
        420 (2690045 / 8192) 380 (2690045 / 8192) ∧
      LinesIntersect (Fl.fin (2947311 / 8192)) (Fl.fin 390) (Fl.fin (3119343 / 8192))
        (Fl.fin 326) (Fl.fin 420) (Fl.fin (2690045 / 8192)) (Fl.fin 380)
        (Fl.fin (2690045 / 8192)) = true ∧
      (Fl.fin (2947311 / 8192)).IsFloat ∧ (Fl.fin (3119343 / 8192)).IsFloat ∧
      (Fl.fin (2690045 / 8192)).IsFloat) := by
  refine ⟨⟨by norm_num [exactDenominator], ⟨1, 1, by norm_num, by norm_num, by norm_num,
    by norm_num⟩, LinesIntersect_eval_endpoint⟩, ?_, ?_, LinesIntersect_eval_edge, ?_, ?_, ?_⟩
  · norm_num [exactDenominator]
  · rw [sharePoint_iff _ _ _ _ _ _ _ _ (by norm_num [exactDenominator])]
    intro h
    have := h.2.2
    norm_num [exactDenominator] at this
  · exact ⟨⟨2947311, -13, by norm_num [binary32], by norm_num [binary32], by norm_num⟩,
      by norm_num [binary32, abs_of_nonneg]⟩
  · exact ⟨⟨3119343, -13, by norm_num [binary32], by norm_num [binary32], by norm_num⟩,
      by norm_num [binary32, abs_of_nonneg]⟩
  · exact ⟨⟨2690045, -13, by norm_num [binary32], by norm_num [binary32], by norm_num⟩,
      by norm_num [binary32, abs_of_nonneg]⟩

/-- C2, amended: for two segments with integer coordinates of magnitude at most
1024 and a non-zero denominator, `LinesIntersect` returns true exactly when the
closed segments share a point, that is when there are parameters `s`, `t` in
`[0,1]` with `P1 + s (P2 - P1) = P3 + t (P4 - P3)`; the crossing pair
(0,0)-(10,10), (0,10)-(10,0) returns true, and so does a T-junction that
touches at an endpoint (parameter exactly 0). -/
theorem LinesIntersect_iff_share_point (x1 y1 x2 y2 x3 y3 x4 y4 : ℤ)
    (hb : ∀ c ∈ [x1, y1, x2, y2, x3, y3, x4, y4], |c| ≤ 1024)
    (hden : exactDenominator x1 y1 x2 y2 x3 y3 x4 y4 ≠ 0) :
    (LinesIntersect (Fl.fin x1) (Fl.fin y1) (Fl.fin x2) (Fl.fin y2) (Fl.fin x3) (Fl.fin y3)
      (Fl.fin x4) (Fl.fin y4) = true ↔ SharePoint x1 y1 x2 y2 x3 y3 x4 y4) ∧
    LinesIntersect (Fl.fin 0) (Fl.fin 0) (Fl.fin 10) (Fl.fin 10)
      (Fl.fin 0) (Fl.fin 10) (Fl.fin 10) (Fl.fin 0) = true ∧
    LinesIntersect (Fl.fin 0) (Fl.fin 0) (Fl.fin 10) (Fl.fin 0)
      (Fl.fin 5) (Fl.fin 0) (Fl.fin 5) (Fl.fin 10) = true := by
  refine ⟨LinesIntersect_int_iff _ _ _ _ _ _ _ _ hb hden, ?_, ?_⟩
  · have h := (LinesIntersect_int_iff 0 0 10 10 0 10 10 0
      (by
      intro c hc
      simp only [List.mem_cons, List.mem_singleton, List.not_mem_nil, or_false] at hc
      rcases hc with rfl | rfl | rfl | rfl | rfl | rfl | rfl | rfl <;> norm_num)
      (by norm_num [exactDenominator])).mpr
      ⟨1 / 2, 1 / 2, by norm_num, by norm_num, by norm_num, by norm_num⟩
    simpa only [Int.cast_ofNat, Int.cast_zero] using h
  · have h := (LinesIntersect_int_iff 0 0 10 0 5 0 5 10
      (by
      intro c hc
      simp only [List.mem_cons, List.mem_singleton, List.not_mem_nil, or_false] at hc
      rcases hc with rfl | rfl | rfl | rfl | rfl | rfl | rfl | rfl <;> norm_num)
      (by norm_num [exactDenominator])).mpr
      ⟨1 / 2, 0, by norm_num, by norm_num, by norm_num, by norm_num⟩
    simpa only [Int.cast_ofNat, Int.cast_zero] using h

/-- Witness of C2 (amended) at the crossing pair (0,0)-(10,10),
(0,10)-(10,0). -/
theorem LinesIntersect_iff_share_point_witness :
    exactDenominator 0 0 10 10 0 10 10 0 ≠ 0 ∧
    (LinesIntersect (Fl.fin 0) (Fl.fin 0) (Fl.fin 10) (Fl.fin 10)
      (Fl.fin 0) (Fl.fin 10) (Fl.fin 10) (Fl.fin 0) = true ↔
      SharePoint 0 0 10 10 0 10 10 0) := by
  have h := (LinesIntersect_iff_share_point 0 0 10 10 0 10 10 0
    (by
      intro c hc
      simp only [List.mem_cons, List.mem_singleton, List.not_mem_nil, or_false] at hc
      rcases hc with rfl | rfl | rfl | rfl | rfl | rfl | rfl | rfl <;> norm_num)
    (by norm_num [exactDenominator])).1
  refine ⟨by norm_num [exactDenominator], ?_⟩
  simpa only [Int.cast_ofNat, Int.cast_zero] using h

/-- C3, as stated, fails for collinear segments whose coordinates differ in
scale by more than `2 ^ 24`: the segments (4325376, 2883584)-(12, 8) and
(288, 192)-(553648128, 369098752) of the line `3 y = 2 x` overlap and their
denominator is zero in exact arithmetic, but the computed denominator is
`2 ^ 27` and `LinesIntersect` returns true. -/
theorem LinesIntersect_zero_denominator_counterexample :
    exactDenominator 4325376 2883584 12 8 288 192 553648128 369098752 = 0 ∧
    SharePoint 4325376 2883584 12 8 288 192 553648128 369098752 ∧
    LinesIntersect (Fl.fin 4325376) (Fl.fin 2883584) (Fl.fin 12) (Fl.fin 8) (Fl.fin 288)
      (Fl.fin 192) (Fl.fin 553648128) (Fl.fin 369098752) = true ∧
    (Fl.fin 553648128).IsFloat ∧ (Fl.fin 369098752).IsFloat := by
  refine ⟨by norm_num [exactDenominator],
    ⟨360424 / 360447, 0, by norm_num, by norm_num, by norm_num, by norm_num⟩,
    LinesIntersect_eval_collinear, ?_, ?_⟩
  · exact ⟨⟨33, 24, by norm_num [binary32], by norm_num [binary32], by norm_num⟩,
      by norm_num [binary32, abs_of_nonneg]⟩
  · exact ⟨⟨11, 25, by norm_num [binary32], by norm_num [binary32], by norm_num⟩,
      by norm_num [binary32, abs_of_nonneg]⟩

/-- C3, amended: for every input whose computed denominator is zero
`LinesIntersect` returns false, and for integer coordinates of magnitude at
most 1024 the computed denominator is the exact one, so every parallel,
collinear or zero-length pair of such segments gives false; so do the parallel
pair (0,0)-(10,0), (0,5)-(10,5) and the overlapping collinear pair
(0,0)-(10,0), (5,0)-(15,0). -/
theorem LinesIntersect_zero_denominator :
    (∀ x1 y1 x2 y2 x3 y3 x4 y4 : Fl, denominator x1 y1 x2 y2 x3 y3 x4 y4 = Fl.fin 0 →
      LinesIntersect x1 y1 x2 y2 x3 y3 x4 y4 = false) ∧
    (∀ x1 y1 x2 y2 x3 y3 x4 y4 : ℤ,
      (∀ c ∈ [x1, y1, x2, y2, x3, y3, x4, y4], |c| ≤ 1024) →
      exactDenominator x1 y1 x2 y2 x3 y3 x4 y4 = 0 →
      denominator (Fl.fin x1) (Fl.fin y1) (Fl.fin x2) (Fl.fin y2) (Fl.fin x3) (Fl.fin y3)
        (Fl.fin x4) (Fl.fin y4) = Fl.fin 0 ∧
      LinesIntersect (Fl.fin x1) (Fl.fin y1) (Fl.fin x2) (Fl.fin y2) (Fl.fin x3) (Fl.fin y3)
        (Fl.fin x4) (Fl.fin y4) = false) ∧
    LinesIntersect (Fl.fin 0) (Fl.fin 0) (Fl.fin 10) (Fl.fin 0)
      (Fl.fin 0) (Fl.fin 5) (Fl.fin 10) (Fl.fin 5) = false ∧
    LinesIntersect (Fl.fin 0) (Fl.fin 0) (Fl.fin 10) (Fl.fin 0)
      (Fl.fin 5) (Fl.fin 0) (Fl.fin 15) (Fl.fin 0) = false := by
  refine ⟨LinesIntersect_of_denominator_zero, ?_, ?_, ?_⟩
  · intro x1 y1 x2 y2 x3 y3 x4 y4 hb hden
    exact ⟨by rw [denominator_int _ _ _ _ _ _ _ _ hb, hden],
      LinesIntersect_int_zero _ _ _ _ _ _ _ _ hb hden⟩
  · have h := LinesIntersect_int_zero 0 0 10 0 0 5 10 5
      (by
      intro c hc
      simp only [List.mem_cons, List.mem_singleton, List.not_mem_nil, or_false] at hc
      rcases hc with rfl | rfl | rfl | rfl | rfl | rfl | rfl | rfl <;> norm_num)
      (by norm_num [exactDenominator])
    simpa only [Int.cast_ofNat, Int.cast_zero] using h
  · have h := LinesIntersect_int_zero 0 0 10 0 5 0 15 0
      (by
      intro c hc
      simp only [List.mem_cons, List.mem_singleton, List.not_mem_nil, or_false] at hc
      rcases hc with rfl | rfl | rfl | rfl | rfl | rfl | rfl | rfl <;> norm_num)
      (by norm_num [exactDenominator])
    simpa only [Int.cast_ofNat, Int.cast_zero] using h

/-- Witness of C3 (amended) at the overlapping collinear pair (0,0)-(10,0),
(5,0)-(15,0). -/
theorem LinesIntersect_zero_denominator_witness :
    exactDenominator 0 0 10 0 5 0 15 0 = 0 ∧
    LinesIntersect (Fl.fin 0) (Fl.fin 0) (Fl.fin 10) (Fl.fin 0)
      (Fl.fin 5) (Fl.fin 0) (Fl.fin 15) (Fl.fin 0) = false := by
  have h := (LinesIntersect_zero_denominator.2.1 0 0 10 0 5 0 15 0
    (by
      intro c hc
      simp only [List.mem_cons, List.mem_singleton, List.not_mem_nil, or_false] at hc
      rcases hc with rfl | rfl | rfl | rfl | rfl | rfl | rfl | rfl <;> norm_num)
    (by norm_num [exactDenominator])).2
  refine ⟨by norm_num [exactDenominator], ?_⟩
  simpa only [Int.cast_ofNat, Int.cast_zero] using h

/-- C19, as stated, fails for the direction of a segment.  For the segments
(4174, 4251)-(101, 937) and (3110, 8)-(101, 937) `LinesIntersect` returns
false, and true when the first segment is given from its other end; for a
terrain segment and a box edge of the kind `main` passes it returns true, and
false when the edge is given from its other end. -/
theorem LinesIntersect_symmetric_counterexample :
    (LinesIntersect (Fl.fin 4174) (Fl.fin 4251) (Fl.fin 101) (Fl.fin 937)
        (Fl.fin 3110) (Fl.fin 8) (Fl.fin 101) (Fl.fin 937) = false ∧
      LinesIntersect (Fl.fin 101) (Fl.fin 937) (Fl.fin 4174) (Fl.fin 4251)
        (Fl.fin 3110) (Fl.fin 8) (Fl.fin 101) (Fl.fin 937) = true) ∧
    (LinesIntersect (Fl.fin (2947311 / 8192)) (Fl.fin 390) (Fl.fin (3119343 / 8192))
        (Fl.fin 326) (Fl.fin 420) (Fl.fin (2690045 / 8192)) (Fl.fin 380)
        (Fl.fin (2690045 / 8192)) = true ∧
      LinesIntersect (Fl.fin (2947311 / 8192)) (Fl.fin 390) (Fl.fin (3119343 / 8192))
        (Fl.fin 326) (Fl.fin 380) (Fl.fin (2690045 / 8192)) (Fl.fin 420)
        (Fl.fin (2690045 / 8192)) = false) :=
  ⟨⟨LinesIntersect_eval_endpoint, LinesIntersect_eval_endpoint_reversed⟩,
    ⟨LinesIntersect_eval_edge, LinesIntersect_eval_edge_reversed⟩⟩

/-- C19, amended: for all inputs `LinesIntersect` does not depend on which
segment is given first; for integer coordinates of magnitude at most 1024 it
does not depend on the direction of either segment. -/
theorem LinesIntersect_symmetric :
    (∀ x1 y1 x2 y2 x3 y3 x4 y4 : Fl,
      LinesIntersect x1 y1 x2 y2 x3 y3 x4 y4 = LinesIntersect x3 y3 x4 y4 x1 y1 x2 y2) ∧
    (∀ x1 y1 x2 y2 x3 y3 x4 y4 : ℤ,
      (∀ c ∈ [x1, y1, x2, y2, x3, y3, x4, y4], |c| ≤ 1024) →
      LinesIntersect (Fl.fin x1) (Fl.fin y1) (Fl.fin x2) (Fl.fin y2) (Fl.fin x3) (Fl.fin y3)
          (Fl.fin x4) (Fl.fin y4) =
        LinesIntersect (Fl.fin x2) (Fl.fin y2) (Fl.fin x1) (Fl.fin y1) (Fl.fin x3) (Fl.fin y3)
          (Fl.fin x4) (Fl.fin y4) ∧
      LinesIntersect (Fl.fin x1) (Fl.fin y1) (Fl.fin x2) (Fl.fin y2) (Fl.fin x3) (Fl.fin y3)
          (Fl.fin x4) (Fl.fin y4) =
        LinesIntersect (Fl.fin x1) (Fl.fin y1) (Fl.fin x2) (Fl.fin y2) (Fl.fin x4) (Fl.fin y4)
          (Fl.fin x3) (Fl.fin y3)) := by
  refine ⟨LinesIntersect_swap, ?_⟩
  intro x1 y1 x2 y2 x3 y3 x4 y4 hb
  have hb2 : ∀ c ∈ [x2, y2, x1, y1, x3, y3, x4, y4], |c| ≤ 1024 := by
    intro c hc
    apply hb
    simp only [List.mem_cons, List.mem_singleton, List.not_mem_nil, or_false] at hc ⊢
    tauto
  have hb3 : ∀ c ∈ [x1, y1, x2, y2, x4, y4, x3, y3], |c| ≤ 1024 := by
    intro c hc
    apply hb
    simp only [List.mem_cons, List.mem_singleton, List.not_mem_nil, or_false] at hc ⊢
    tauto
  have e2 : exactDenominator x2 y2 x1 y1 x3 y3 x4 y4 =
      -exactDenominator x1 y1 x2 y2 x3 y3 x4 y4 := by
    unfold exactDenominator; ring
  have e3 : exactDenominator x1 y1 x2 y2 x4 y4 x3 y3 =
      -exactDenominator x1 y1 x2 y2 x3 y3 x4 y4 := by
    unfold exactDenominator; ring
  by_cases h : exactDenominator x1 y1 x2 y2 x3 y3 x4 y4 = 0
  · rw [LinesIntersect_int_zero _ _ _ _ _ _ _ _ hb h,
      LinesIntersect_int_zero _ _ _ _ _ _ _ _ hb2 (by rw [e2, h, neg_zero]),
      LinesIntersect_int_zero _ _ _ _ _ _ _ _ hb3 (by rw [e3, h, neg_zero])]
    exact ⟨rfl, rfl⟩
  · have h2 : exactDenominator x2 y2 x1 y1 x3 y3 x4 y4 ≠ 0 := by
      rw [e2]; exact neg_ne_zero.mpr h
    have h3 : exactDenominator x1 y1 x2 y2 x4 y4 x3 y3 ≠ 0 := by
      rw [e3]; exact neg_ne_zero.mpr h
    constructor
    · rw [Bool.eq_iff_iff, LinesIntersect_int_iff _ _ _ _ _ _ _ _ hb h,
        LinesIntersect_int_iff _ _ _ _ _ _ _ _ hb2 h2]
      exact (sharePoint_symm _ _ _ _ _ _ _ _).1
    · rw [Bool.eq_iff_iff, LinesIntersect_int_iff _ _ _ _ _ _ _ _ hb h,
        LinesIntersect_int_iff _ _ _ _ _ _ _ _ hb3 h3]
      exact (sharePoint_symm _ _ _ _ _ _ _ _).2

/-- Witness of C19 (amended) at the crossing pair (0,0)-(10,10),
(0,10)-(10,0), first segment reversed. -/
theorem LinesIntersect_symmetric_witness :
    LinesIntersect (Fl.fin 0) (Fl.fin 0) (Fl.fin 10) (Fl.fin 10)
        (Fl.fin 0) (Fl.fin 10) (Fl.fin 10) (Fl.fin 0) =
      LinesIntersect (Fl.fin 10) (Fl.fin 10) (Fl.fin 0) (Fl.fin 0)
        (Fl.fin 0) (Fl.fin 10) (Fl.fin 10) (Fl.fin 0) := by
  have h := (LinesIntersect_symmetric.2 0 0 10 10 0 10 10 0
    (by
      intro c hc
      simp only [List.mem_cons, List.mem_singleton, List.not_mem_nil, or_false] at hc
      rcases hc with rfl | rfl | rfl | rfl | rfl | rfl | rfl | rfl <;> norm_num)).1
  simpa only [Int.cast_ofNat, Int.cast_zero] using h

/-! ## The points appended by `GenerateTerrain` -/

namespace Fl

/-- The error of a `float` rounding: a real number below `2 ^ n` in magnitude
is stored as a finite value at most `2 ^ (n - 25)` away from it. -/
lemma round32_err (y : ℚ) (n : ℤ) (hn1 : -125 ≤ n) (hn2 : n ≤ 127) (h : |y| < 2 ^ n) :
    ∃ r : ℚ, round binary32 y = fin r ∧ |r - y| ≤ 2 ^ (n - 25) := by
  by_cases hy : y = 0
  · subst hy
    exact ⟨0, round_zero_of _ _ rfl (two_zpow_pos _), by
      simp only [sub_zero, abs_zero]
      exact le_of_lt (two_zpow_pos _)⟩
  have hpos : 0 < |y| := abs_pos.mpr hy
  have hlog : Int.log 2 |y| < n := (Int.lt_zpow_iff_log_lt (by norm_num) hpos).mp (by
    have : ((2 : ℕ) : ℚ) ^ n = 2 ^ n := by norm_num
    rw [this]; exact h)
  have hu : ulpExp binary32 y ≤ n - 24 := by
    unfold ulpExp
    simp only [binary32]
    omega
  have herr := roundTo_error binary32 y
  have hpow : (2 : ℚ) ^ ulpExp binary32 y ≤ 2 ^ (n - 24) :=
    zpow_le_zpow_right₀ (by norm_num) hu
  have h24 : (2 : ℚ) ^ (n - 24) = 2 * 2 ^ (n - 25) := by
    rw [show n - 24 = (n - 25) + 1 by ring, zpow_add₀ (by norm_num : (2 : ℚ) ≠ 0)]
    ring
  have h1 : |roundTo binary32 y - y| ≤ 2 ^ (n - 25) := by
    rw [h24] at hpow
    linarith
  have hsmall : (2 : ℚ) ^ (n - 25) ≤ 2 ^ n := zpow_le_zpow_right₀ (by norm_num) (by omega)
  have h127 : (2 : ℚ) ^ n ≤ 2 ^ (127 : ℤ) := zpow_le_zpow_right₀ (by norm_num) hn2
  have hfin : |roundTo binary32 y| < (2 : ℚ) ^ binary32.emax := by
    have h2 : |roundTo binary32 y| ≤ |roundTo binary32 y - y| + |y| := by
      have := abs_add (roundTo binary32 y - y) y
      simpa using this
    have h128 : (2 : ℚ) ^ binary32.emax = 2 * 2 ^ (127 : ℤ) := by
      simp only [binary32]
      norm_num
    rw [h128]
    linarith
  refine ⟨roundTo binary32 y, ?_, h1⟩
  unfold round
  rw [if_neg (not_le.mpr hfin)]

end Fl

namespace Terrain

/-- One pass of the loop of `GenerateTerrain` that leaves the loop. -/
lemma GenerateTerrain_done (fuel : Nat) (t : Terrain) (p : Vector2f)
    (hp : t.vertices.getLast? = some p) (hge : p.x ≥ t.width) :
    GenerateTerrain (fuel + 1) t = some t := by
  rw [GenerateTerrain]
  simp only [hp]
  rw [if_pos hge]

/-- One pass of the loop of `GenerateTerrain` that appends a vertex. -/
lemma GenerateTerrain_append (fuel : Nat) (t : Terrain) (p : Vector2f)
    (hp : t.vertices.getLast? = some p) (hlt : ¬ p.x ≥ t.width) :
    GenerateTerrain (fuel + 1) t =
      GenerateTerrain fuel (AddVertex { t with generator := fun n => t.generator (n + 1) }
        (p.x + Fl.ofInt (t.generator 0).xDist)
        (stdMax t.minY (stdMin (p.y + Fl.ofInt
          (if (t.generator 0).isFlat = 0 then 0 else (t.generator 0).yDist)) t.maxY))) := by
  rw [GenerateTerrain]
  simp only [hp]
  rw [if_neg hlt]

/-- Every vertex that `GenerateTerrain` appends: the vertex before it was left
of the width, its `x` is the `float` sum of the `x` before it and a draw of
`xDist`, and its `y` is the clamped `float` sum of the `y` before it and a
delta of absolute value at most 80. -/
lemma GenerateTerrain_steps : ∀ (fuel : Nat) (t t' : Terrain),
    GenerateTerrain fuel t = some t' →
    ∀ (i : Nat) (a b : Vector2f), t'.vertices[i]? = some a → t'.vertices[i + 1]? = some b →
      t.vertices.length ≤ i + 1 →
      ¬ (a.x ≥ t.width) ∧
      (∃ d : ℤ, 20 ≤ d ∧ d ≤ 40 ∧ b.x = a.x + Fl.ofInt d) ∧
      ∃ d : ℤ, |d| ≤ 80 ∧ b.y = stdMax t.minY (stdMin (a.y + Fl.ofInt d) t.maxY) := by
  intro fuel
  induction fuel with
  | zero => intro t t' h; simp [GenerateTerrain] at h
  | succ n ih =>
    intro t t' h i a b ha hb hlen
    rw [GenerateTerrain] at h
    split at h
    · exact absurd h (by simp)
    · rename_i lastPoint hlast
      split at h
      · simp only [Option.some.injEq] at h
        subst h
        rw [List.getElem?_eq_none hlen] at hb
        exact absurd hb (by simp)
      · rename_i hge
        have hstep := ih _ _ h i a b ha hb
        obtain ⟨-, -, -, ⟨ext, hext, -⟩, -⟩ := GenerateTerrain_some n _ _ h
        simp only [AddVertex] at hstep hext
        by_cases hi : t.vertices.length + 1 ≤ i + 1
        · exact hstep (by simpa using hi)
        · have hi' : i + 1 = t.vertices.length := by omega
          have hlast' : t.vertices[i]? = some lastPoint := by
            rw [List.getLast?_eq_getElem?] at hlast
            rw [← hlast]
            congr 1
            omega
          have ha' : t'.vertices[i]? = t.vertices[i]? := by
            rw [hext, List.append_assoc, List.getElem?_append_left (by omega)]
          have hb' : t'.vertices[i + 1]? = some
              (⟨lastPoint.x + Fl.ofInt (t.generator 0).xDist,
                stdMax t.minY (stdMin (lastPoint.y + Fl.ofInt
                  (if (t.generator 0).isFlat = 0 then 0 else (t.generator 0).yDist))
                  t.maxY)⟩ : Vector2f) := by
            rw [hext, List.append_assoc, List.getElem?_append_right (by omega), hi']
            simp
          rw [ha', hlast'] at ha
          rw [hb'] at hb
          simp only [Option.some.injEq] at ha hb
          subst ha
          subst hb
          have hx := (t.generator 0).xDist_range
          have hy := (t.generator 0).yDist_range
          refine ⟨hge, ⟨_, hx.1, hx.2, rfl⟩, _, ?_, rfl⟩
          split_ifs
          · norm_num
          · exact abs_le.mpr hy

/-- The gap of an appended vertex: when the exact sum `x + d` is below `2 ^ n`
in magnitude, the stored sum is finite and differs from it by at most
`2 ^ (n - 25)`. -/
lemma gap_near (x : ℚ) (d : ℤ) (n : ℤ) (hd1 : 20 ≤ d) (hd2 : d ≤ 40) (hn1 : -125 ≤ n)
    (hn2 : n ≤ 127) (h : |x + d| < 2 ^ n) :
    ∃ r : ℚ, Fl.fin x + Fl.ofInt d = Fl.fin r ∧ |r - x - d| ≤ 2 ^ (n - 25) := by
  have hofInt : Fl.ofInt d = Fl.fin (d : ℚ) :=
    Fl.ofInt_eq _ (by rw [abs_le]; constructor <;> omega)
  obtain ⟨r, hr, herr⟩ := Fl.round32_err (x + d) n hn1 hn2 h
  refine ⟨r, by rw [hofInt, Fl.fin_add_fin, hr], ?_⟩
  rw [show r - x - d = r - (x + d) by ring]
  exact herr

end Terrain

/-! ## Termination and number of appended points -/

namespace Fl

lemma isRep32_int (n : ℤ) (h : |n| ≤ 2 ^ 24) : IsRep binary32 (n : ℚ) := isRep32_intCast n h

/-- A `float` sum is not below an integer of magnitude at most `2 ^ 24` that
the exact sum is not below. -/
lemma int_le_add (x : ℚ) (d I : ℤ) (hd : |d| ≤ 2 ^ 24) (hI : |I| ≤ 2 ^ 24)
    (h : (I : ℚ) ≤ x + d) : fin (I : ℚ) ≤ fin x + ofInt d := by
  rw [ofInt_eq d hd, fin_add_fin]
  refine le_round_of_le binary32 prec32 _ _ (isRep32_intCast I hI) ?_ h
  have := abs_int_lt_emax32 I hI
  rw [abs_lt] at this
  exact this.1

/-- A `float` sum is not above an integer of magnitude at most `2 ^ 24` that
the exact sum is not above. -/
lemma add_le_int (x : ℚ) (d J : ℤ) (hd : |d| ≤ 2 ^ 24) (hJ : |J| ≤ 2 ^ 24)
    (h : x + d ≤ (J : ℚ)) : fin x + ofInt d ≤ fin (J : ℚ) := by
  rw [ofInt_eq d hd, fin_add_fin]
  refine round_le_of_le binary32 prec32 _ _ (isRep32_intCast J hJ) ?_ h
  have := abs_int_lt_emax32 J hJ
  rw [abs_lt] at this
  exact this.2

end Fl

namespace Terrain

/-- The new last `x` of one pass of the loop, in the window: it is finite and
not below `-2 ^ 24`. -/
lemma next_x (x : ℚ) (w : ℚ) (d : ℤ) (hd1 : 20 ≤ d) (hd2 : d ≤ 40) (hlo : -2 ^ 24 ≤ x)
    (hxw : x < w) (hhi : w ≤ 2 ^ 24) :
    ∃ r : ℚ, Fl.fin x + Fl.ofInt d = Fl.fin r ∧ -2 ^ 24 ≤ r := by
  have hd1' : (20 : ℚ) ≤ (d : ℚ) := by exact_mod_cast hd1
  have hd2' : ((d : ℤ) : ℚ) ≤ 40 := by exact_mod_cast hd2
  obtain ⟨r, hr, -⟩ := gap_near x d 25 hd1 hd2 (by norm_num) (by norm_num) (by
    rw [abs_lt]; constructor <;> norm_num at hlo hhi ⊢ <;>
      linarith only [hlo, hhi, hxw, hd1', hd2'])
  refine ⟨r, hr, ?_⟩
  have h := Fl.int_le_add x d (-2 ^ 24) (by rw [abs_le]; constructor <;> omega)
    (by norm_num) (by push_cast; linarith only [hlo, hd1'])
  rw [hr, Fl.fin_le_fin] at h
  push_cast at h
  exact h

/-- The number of vertices that a returning `GenerateTerrain` appends, for an
integer width of magnitude at most `2 ^ 24` and a last vertex that is finite
and not below `-2 ^ 24`. -/
lemma GenerateTerrain_count : ∀ (fuel : Nat) (t t' : Terrain) (p : Vector2f) (x : ℚ) (w : ℤ),
    GenerateTerrain fuel t = some t' → t.vertices.getLast? = some p → p.x = Fl.fin x →
    t.width = Fl.fin w → -2 ^ 24 ≤ x → |w| ≤ 2 ^ 24 →
    ∃ k : ℕ, t'.vertices.length = t.vertices.length + k ∧
      ((w : ℚ) ≤ x → k = 0) ∧
      (x < w → 1 ≤ k ∧ (∀ m : ℕ, (w : ℚ) ≤ x + 20 * m → k ≤ m) ∧
        (∀ m : ℕ, x ≤ w - 40 * (m : ℚ) → m ≤ k)) := by
  intro fuel
  induction fuel with
  | zero => intro t t' p x w h; simp [GenerateTerrain] at h
  | succ n ih =>
    intro t t' p x w h hp hx hw hlo hwb
    by_cases hge : p.x ≥ t.width
    · rw [GenerateTerrain_done n t p hp hge, Option.some.injEq] at h
      subst h
      have hwx : (w : ℚ) ≤ x := by
        rw [hx, hw] at hge
        exact (Fl.fin_le_fin _ _).mp hge
      exact ⟨0, by simp, fun _ => rfl, fun hlt => absurd hwx (not_le.mpr hlt)⟩
    · rw [GenerateTerrain_append n t p hp hge] at h
      have hxw : x < w := by
        by_contra hcon
        apply hge
        rw [hx, hw]
        exact (Fl.fin_le_fin _ _).mpr (not_lt.mp hcon)
      have hd := (t.generator 0).xDist_range
      have hd1 : (20 : ℚ) ≤ ((t.generator 0).xDist : ℚ) := by exact_mod_cast hd.1
      have hd2 : ((t.generator 0).xDist : ℚ) ≤ 40 := by exact_mod_cast hd.2
      have hdb : |(t.generator 0).xDist| ≤ 2 ^ 24 := by rw [abs_le]; constructor <;> omega
      have hwq : (w : ℚ) ≤ 2 ^ 24 := by
        have := (abs_le.mp hwb).2
        exact_mod_cast this
      obtain ⟨r, hr, hrlo⟩ := next_x x w _ hd.1 hd.2 hlo hxw hwq
      rw [hx, hr] at h
      obtain ⟨k, hlen, hzero, hpos⟩ := ih _ _ ⟨Fl.fin r, stdMax t.minY (stdMin (p.y + Fl.ofInt
          (if (t.generator 0).isFlat = 0 then 0 else (t.generator 0).yDist)) t.maxY)⟩ r w h
        (by simp [AddVertex]) rfl hw hrlo hwb
      simp only [AddVertex, List.length_append, List.length_singleton] at hlen
      refine ⟨k + 1, by omega, fun hle => absurd hle (not_le.mpr hxw), fun _ => ?_⟩
      refine ⟨by omega, ?_, ?_⟩
      · intro m hm
        have hm1 : 1 ≤ m := by
          by_contra hcon
          have : m = 0 := by omega
          subst this
          simp at hm
          linarith only [hm, hxw]
        obtain ⟨m', rfl⟩ : ∃ m', m = m' + 1 := ⟨m - 1, by omega⟩
        push_cast at hm
        suffices hk : k ≤ m' by omega
        have hI : (w : ℚ) - 20 * m' ≤ r := by
          by_cases hbig : -2 ^ 24 ≤ w - 20 * (m' : ℤ)
          · have hIb : |w - 20 * (m' : ℤ)| ≤ 2 ^ 24 := by
              rw [abs_le]
              have hw2 := (abs_le.mp hwb).2
              constructor <;> omega
            have := Fl.int_le_add x _ (w - 20 * (m' : ℤ)) hdb hIb
              (by push_cast; linarith only [hm, hd1])
            rw [hr, Fl.fin_le_fin] at this
            push_cast at this
            exact this
          · have : ((w - 20 * (m' : ℤ) : ℤ) : ℚ) < ((-2 ^ 24 : ℤ) : ℚ) := by
              exact_mod_cast not_le.mp hbig
            push_cast at this
            linarith only [this, hrlo]
        by_cases hrw : (w : ℚ) ≤ r
        · rw [hzero hrw]; omega
        · exact (hpos (not_le.mp hrw)).2.1 m' (by linarith only [hI])
      · intro m hm
        by_cases hm0 : m = 0
        · omega
        obtain ⟨m', rfl⟩ : ∃ m', m = m' + 1 := ⟨m - 1, by omega⟩
        push_cast at hm
        have hJb : |w - 40 * (m' : ℤ)| ≤ 2 ^ 24 := by
          rw [abs_le]
          have hw2 := (abs_le.mp hwb).2
          have : ((-2 ^ 24 : ℤ) : ℚ) ≤ ((w - 40 * (m' : ℤ) : ℤ) : ℚ) := by
            push_cast
            linarith only [hm, hlo]
          have h3 : (-2 ^ 24 : ℤ) ≤ w - 40 * (m' : ℤ) := by exact_mod_cast this
          constructor <;> omega
        have hJ := Fl.add_le_int x _ (w - 40 * (m' : ℤ)) hdb hJb
          (by push_cast; linarith only [hm, hd2])
        rw [hr, Fl.fin_le_fin] at hJ
        push_cast at hJ
        by_cases hrw : (w : ℚ) ≤ r
        · have : (m' : ℚ) ≤ 0 := by linarith only [hJ, hrw]
          have : m' = 0 := by
            have h0 : (m' : ℚ) = 0 := le_antisymm this (Nat.cast_nonneg _)
            exact_mod_cast h0
          omega
        · have := (hpos (not_le.mp hrw)).2.2 m' hJ
          omega

/-- At `x = 2 ^ 31` the `float` sum with a draw of `xDist` is `2 ^ 31`
again. -/
lemma stuck_add (d : ℤ) (hd1 : 20 ≤ d) (hd2 : d ≤ 40) :
    Fl.fin 2147483648 + Fl.ofInt d = Fl.fin 2147483648 := by
  have hd1' : (20 : ℚ) ≤ (d : ℚ) := by exact_mod_cast hd1
  have hd2' : ((d : ℤ) : ℚ) ≤ 40 := by exact_mod_cast hd2
  rw [Fl.ofInt_eq d (by rw [abs_le]; constructor <;> omega), Fl.fin_add_fin]
  have hq : |(2147483648 : ℚ) + d| = 2147483648 + d := abs_of_nonneg (by linarith)
  refine Fl.round_eval binary32 _ _ 31 8 8388608 ?_ ?_ (by norm_num [binary32]) (Or.inl ?_)
    (by norm_num) (by norm_num [binary32, abs_of_nonneg])
  · rw [hq]; norm_num; linarith
  · rw [hq]; norm_num; linarith
  · rw [abs_lt]
    constructor
    · norm_num; linarith
    · norm_num; linarith

/-- From a last vertex at `x = 2 ^ 31` and the width `2 ^ 31 + 256` the loop of
`GenerateTerrain` does not end, whatever the fuel. -/
lemma GenerateTerrain_stuck : ∀ (fuel : Nat) (t : Terrain) (p : Vector2f),
    t.vertices.getLast? = some p → p.x = Fl.fin 2147483648 → t.width = Fl.fin 2147483904 →
    GenerateTerrain fuel t = none := by
  intro fuel
  induction fuel with
  | zero => intro t p _ _ _; rfl
  | succ n ih =>
    intro t p hp hx hw
    have hlt : ¬ p.x ≥ t.width := by
      rw [hx, hw]
      intro h
      have := (Fl.fin_le_fin _ _).mp h
      norm_num at this
    rw [GenerateTerrain_append n t p hp hlt]
    have hd := (t.generator 0).xDist_range
    refine ih _ ⟨p.x + Fl.ofInt (t.generator 0).xDist, stdMax t.minY (stdMin (p.y + Fl.ofInt
      (if (t.generator 0).isFlat = 0 then 0 else (t.generator 0).yDist)) t.maxY)⟩
      (by simp [AddVertex]) ?_ hw
    rw [hx]
    exact stuck_add _ hd.1 hd.2

end Terrain

/-- C17, as stated, fails.  From a last vertex at `x = 2 ^ 31` and the width
`2 ^ 31 + 256`, both of type `float`, the loop never ends, whatever the draws:
`x + xDist` rounds back to `x`.  And from a last vertex at `L = -2 ^ (-30)`
with the width 40 and a draw of 40 the loop appends one vertex, at
`x = 40`, which is fewer than `ceil((40 - L) / 40) = 2`. -/
theorem GenerateTerrain_terminates_count_counterexample :
    (∀ (generator : Nat → Draw) (fuel : Nat),
      Terrain.GenerateTerrain fuel (stuckTerrain generator) = none) ∧
    (Fl.fin 2147483648).IsFloat ∧ (Fl.fin 2147483904).IsFloat ∧
    (∃ t', Terrain.GenerateTerrain 2 nearTerrain = some t' ∧
      t'.vertices = nearTerrain.vertices ++ [⟨Fl.fin 40, Fl.fin 450⟩] ∧
      ⌈((40 : ℚ) - (-1 / 1073741824)) / 40⌉₊ = 2) := by
  have e0 : Fl.ofInt 0 = Fl.fin 0 := by rw [Fl.ofInt_eq 0 (by norm_num)]; norm_num
  have e40 : Fl.ofInt 40 = Fl.fin 40 := by rw [Fl.ofInt_eq 40 (by norm_num)]; norm_num
  have hn1 : (Fl.fin (-1 / 1073741824) + Fl.fin 40 : Fl) = Fl.fin 40 :=
    ((Fl.fin_add_fin (-1 / 1073741824) 40).trans (Fl.round_eval binary32 ((-1 / 1073741824) + 40) 40 5 (-18) 10485760 (by norm_num [abs_of_nonneg, abs_of_nonpos]) (by norm_num [abs_of_nonneg, abs_of_nonpos]) (by norm_num [binary32]) (Or.inl (by norm_num [abs_lt])) (by norm_num) (by norm_num [binary32, abs_of_nonneg, abs_of_nonpos])))

  have hy : (Fl.fin 450 + Fl.fin 0 : Fl) = Fl.fin 450 := by
    have := Fl.add_int 450 0 (by norm_num)
    simpa using this
  have hlt : ¬ (Fl.fin (-1 / 1073741824) ≥ Fl.fin 40) := by
    intro h
    have := (Fl.fin_le_fin _ _).mp h
    norm_num at this
  have hge : Fl.fin 40 ≥ Fl.fin 40 := (Fl.fin_le_fin _ _).mpr le_rfl
  have hc1 : ¬ (Fl.fin 580 < Fl.fin 450) := by rw [Fl.fin_lt_fin]; norm_num
  have hc2 : Fl.fin 120 < Fl.fin 450 := by rw [Fl.fin_lt_fin]; norm_num
  have hX : (⟨Fl.fin (-1 / 1073741824), Fl.fin 450⟩ : Vector2f).x +
      Fl.ofInt (nearTerrain.generator 0).xDist = Fl.fin 40 := by
    show Fl.fin (-1 / 1073741824) + Fl.ofInt 40 = _
    rw [e40, hn1]
  have hY : stdMax nearTerrain.minY (stdMin ((⟨Fl.fin (-1 / 1073741824), Fl.fin 450⟩ : Vector2f).y
      + Fl.ofInt (if (nearTerrain.generator 0).isFlat = 0 then 0
        else (nearTerrain.generator 0).yDist)) nearTerrain.maxY) = Fl.fin 450 := by
    show stdMax (Fl.fin 120) (stdMin (Fl.fin 450 + Fl.ofInt 0) (Fl.fin 580)) = _
    rw [e0, hy]
    simp [stdMax, stdMin, hc1, hc2]
  refine ⟨?_, ?_, ?_, Terrain.AddVertex
    { nearTerrain with generator := fun n => nearTerrain.generator (n + 1) }
    (Fl.fin 40) (Fl.fin 450), ?_, rfl, ?_⟩
  · intro generator fuel
    exact Terrain.GenerateTerrain_stuck fuel _ ⟨Fl.fin 2147483648, Fl.fin 450⟩ rfl rfl rfl
  · exact ⟨⟨1, 31, by norm_num [binary32], by norm_num [binary32], by norm_num⟩,
      by norm_num [binary32, abs_of_nonneg]⟩
  · exact ⟨⟨8388609, 8, by norm_num [binary32], by norm_num [binary32], by norm_num⟩,
      by norm_num [binary32, abs_of_nonneg]⟩
  · rw [Terrain.GenerateTerrain_append 1 nearTerrain ⟨Fl.fin (-1 / 1073741824), Fl.fin 450⟩
      rfl hlt, hX, hY]
    exact Terrain.GenerateTerrain_done 0 _ ⟨Fl.fin 40, Fl.fin 450⟩
      (by simp [Terrain.AddVertex]) hge
  · rw [Nat.ceil_eq_iff (by norm_num)]
    norm_num

/-- C17, amended: the loop of `GenerateTerrain` ends (enough fuel gives a
result) when the last vertex is finite with `x = L >= -2 ^ 24` and the width
is finite and at most `2 ^ 24`; the result is the old polyline followed by the
appended vertices; nothing is appended when `L >= width`; and when
`L < width` and the width is an integer, at least one vertex is appended and
the number of appended vertices is at least `floor((width - L) / 40)` and at
most `ceil((width - L) / 20)`. -/
theorem GenerateTerrain_terminates_count (t : Terrain) (p : Vector2f) (x w : ℚ)
    (hp : t.vertices.getLast? = some p) (hx : p.x = Fl.fin x) (hw : t.width = Fl.fin w)
    (hlo : -2 ^ 24 ≤ x) (hhi : w ≤ 2 ^ 24) :
    (∃ fuel t', Terrain.GenerateTerrain fuel t = some t') ∧
    ∀ fuel t', Terrain.GenerateTerrain fuel t = some t' →
      ∃ ext : List Vector2f, t'.vertices = t.vertices ++ ext ∧
        (w ≤ x → ext = []) ∧
        (x < w → (∃ wi : ℤ, w = wi) →
          1 ≤ ext.length ∧ ⌊(w - x) / 40⌋₊ ≤ ext.length ∧ ext.length ≤ ⌈(w - x) / 20⌉₊) := by
  constructor
  · exact Terrain.GenerateTerrain_returns t p w hp
      (by rw [hx]; exact (Fl.fin_le_fin _ _).mpr hlo) hw hhi
  · intro fuel t' ht'
    obtain ⟨-, -, -, ⟨ext, hext, -⟩, -⟩ := Terrain.GenerateTerrain_some fuel t t' ht'
    refine ⟨ext, hext, ?_, ?_⟩
    · intro hle
      cases fuel with
      | zero => simp [Terrain.GenerateTerrain] at ht'
      | succ n =>
        rw [Terrain.GenerateTerrain_done n t p hp
          (by rw [hx, hw]; exact (Fl.fin_le_fin _ _).mpr hle), Option.some.injEq] at ht'
        subst ht'
        simpa using hext
    · rintro hlt ⟨wi, rfl⟩
      have hwb : |wi| ≤ 2 ^ 24 := by
        rw [abs_le]
        have h1 : ((-2 ^ 24 : ℤ) : ℚ) ≤ (wi : ℚ) := by push_cast; linarith
        have h2 : (wi : ℚ) ≤ ((2 ^ 24 : ℤ) : ℚ) := by push_cast; linarith
        exact ⟨by exact_mod_cast h1, by exact_mod_cast h2⟩
      obtain ⟨k, hlen, -, hpos⟩ := Terrain.GenerateTerrain_count fuel t t' p x wi ht' hp hx hw
        hlo hwb
      have hk : ext.length = k := by
        rw [hext, List.length_append] at hlen
        omega
      obtain ⟨h1, hup, hdown⟩ := hpos hlt
      rw [hk]
      have hpos' : 0 ≤ ((wi : ℚ) - x) / 40 := by
        apply div_nonneg <;> linarith
      refine ⟨h1, hdown _ ?_, hup _ ?_⟩
      · have := Nat.floor_le hpos'
        rw [le_div_iff₀ (by norm_num : (0 : ℚ) < 40)] at this
        linarith
      · have := Nat.le_ceil (((wi : ℚ) - x) / 20)
        rw [div_le_iff₀ (by norm_num : (0 : ℚ) < 20)] at this
        linarith

/-- Witness of C17 (amended): the fresh terrain of `main`, whose last vertex is
800 short of the width: between 20 and 40 vertices are appended. -/
theorem GenerateTerrain_terminates_count_witness :
    ∃ fuel t' ext, Terrain.GenerateTerrain fuel (mainTerrain steadyGenerator) = some t' ∧
      t'.vertices = (mainTerrain steadyGenerator).vertices ++ ext ∧
      20 ≤ ext.length ∧ ext.length ≤ 40 := by
  have e0 : Fl.ofInt 0 = Fl.fin 0 := by rw [Fl.ofInt_eq 0 (by norm_num)]; norm_num
  have e800 : Fl.ofInt 800 = Fl.fin 800 := by rw [Fl.ofInt_eq 800 (by norm_num)]; norm_num
  obtain ⟨⟨fuel, t', ht'⟩, hall⟩ := GenerateTerrain_terminates_count
    (mainTerrain steadyGenerator) ⟨Fl.ofInt 0, Fl.ofInt 450⟩ 0 800
    (by simp [mainTerrain, Terrain.new, Terrain.AddVertex]) e0 e800 (by norm_num) (by norm_num)
  obtain ⟨ext, hext, -, hcount⟩ := hall fuel t' ht'
  obtain ⟨-, h1, h2⟩ := hcount (by norm_num) ⟨800, by norm_num⟩
  have e40 : ⌊((800 : ℚ) - 0) / 40⌋₊ = 20 := by
    rw [show ((800 : ℚ) - 0) / 40 = ((20 : ℕ) : ℚ) by norm_num]
    exact Nat.floor_natCast 20
  have e20 : ⌈((800 : ℚ) - 0) / 20⌉₊ = 40 := by
    rw [show ((800 : ℚ) - 0) / 20 = ((40 : ℕ) : ℚ) by norm_num]
    exact Nat.ceil_natCast 40
  rw [e40] at h1
  rw [e20] at h2
  exact ⟨fuel, t', ext, ht', hext, h1, h2⟩

/-! ## The gaps between the points -/

namespace Terrain

/-- One pass of the loop of `GenerateTerrain` that appends the vertex
`(x', y')`. -/
lemma GenerateTerrain_append_eq (fuel : Nat) (t : Terrain) (p : Vector2f) (x' y' : Fl)
    (hp : t.vertices.getLast? = some p) (hlt : ¬ p.x ≥ t.width)
    (hx : p.x + Fl.ofInt (t.generator 0).xDist = x')
    (hy : stdMax t.minY (stdMin (p.y + Fl.ofInt
      (if (t.generator 0).isFlat = 0 then 0 else (t.generator 0).yDist)) t.maxY) = y') :
    GenerateTerrain (fuel + 1) t =
      GenerateTerrain fuel
        (AddVertex { t with generator := fun n => t.generator (n + 1) } x' y') := by
  rw [GenerateTerrain_append fuel t p hp hlt, hx, hy]

end Terrain

namespace Terrain

/-- The first pass of the loop on a polyline of one vertex `p`: when the loop
goes on to end, the result has `p` at index 0 and the appended vertex at
index 1. -/
lemma first_append (t : Terrain) (p : Vector2f) (x' y' : Fl) (w : ℚ)
    (hvs : t.vertices = [p]) (hlt : ¬ p.x ≥ t.width)
    (hx : p.x + Fl.ofInt (t.generator 0).xDist = x')
    (hy : stdMax t.minY (stdMin (p.y + Fl.ofInt
      (if (t.generator 0).isFlat = 0 then 0 else (t.generator 0).yDist)) t.maxY) = y')
    (hw : t.width = Fl.fin w) (hhi : w ≤ 2 ^ 24) (hlo : Fl.fin (-2 ^ 24) ≤ x') :
    ∃ fuel t', GenerateTerrain fuel t = some t' ∧ t'.vertices[0]? = some p ∧
      t'.vertices[1]? = some ⟨x', y'⟩ := by
  obtain ⟨f, t', ht'⟩ := GenerateTerrain_returns
    (AddVertex { t with generator := fun n => t.generator (n + 1) } x' y') ⟨x', y'⟩ w
    (by simp [AddVertex]) hlo hw hhi
  obtain ⟨-, -, -, ⟨ext, hext, -⟩, -⟩ := GenerateTerrain_some _ _ _ ht'
  refine ⟨f + 1, t', ?_, ?_, ?_⟩
  · rw [GenerateTerrain_append_eq f t p x' y' (by rw [hvs]; rfl) hlt hx hy]
    exact ht'
  · rw [hext]; simp [AddVertex, hvs]
  · rw [hext]; simp [AddVertex, hvs]

/-- Clamping into an interval with integer ends that holds the integer `ya`
moves `ya + d` no further from `ya` than `d` does, in `float` arithmetic. -/
lemma clamp_step_int (lo hi : Fl) (ya d : ℤ) (hlo : lo ≤ Fl.fin ya) (hhi : Fl.fin ya ≤ hi)
    (hya : |ya| ≤ 2 ^ 23) (hd : |d| ≤ 80) :
    (stdMax lo (stdMin (Fl.fin ya + Fl.ofInt d) hi) = Fl.fin ((ya + d : ℤ)) ∨
      stdMax lo (stdMin (Fl.fin ya + Fl.ofInt d) hi) = lo ∨
      stdMax lo (stdMin (Fl.fin ya + Fl.ofInt d) hi) = hi) ∧
    lo ≤ stdMax lo (stdMin (Fl.fin ya + Fl.ofInt d) hi) ∧
    stdMax lo (stdMin (Fl.fin ya + Fl.ofInt d) hi) ≤ hi ∧
    ∃ yb : ℚ, stdMax lo (stdMin (Fl.fin ya + Fl.ofInt d) hi) = Fl.fin yb ∧ |yb - ya| ≤ 80 := by
  have hya' := abs_le.mp hya
  have hd' := abs_le.mp hd
  have hsum : Fl.fin (ya : ℚ) + Fl.ofInt d = Fl.fin ((ya + d : ℤ)) := by
    rw [Fl.ofInt_eq d (by rw [abs_le]; constructor <;> omega)]
    exact Fl.add_int ya d (by rw [abs_le]; constructor <;> omega)
  have hrange := stdMax_stdMin_range lo hi (Fl.fin ((ya + d : ℤ))) (Fl.le_trans' hlo hhi)
  have hdq : |((d : ℤ) : ℚ)| ≤ 80 := by
    have : ((|d| : ℤ) : ℚ) ≤ ((80 : ℤ) : ℚ) := by exact_mod_cast hd
    simpa using this
  have hdq' := abs_le.mp hdq
  rw [hsum]
  refine ⟨?_, hrange.1, hrange.2, ?_⟩
  · unfold stdMax stdMin
    split_ifs <;> simp
  · unfold stdMax stdMin
    by_cases h1 : hi < Fl.fin ((ya + d : ℤ))
    · rw [if_pos h1]
      obtain ⟨r, hr, hr1, hr2⟩ := Fl.fin_of_between hhi (Fl.le_of_lt' h1)
      by_cases h2 : lo < hi
      · rw [if_pos h2]
        refine ⟨r, hr, ?_⟩
        push_cast at hr2
        rw [abs_le]
        constructor <;> linarith only [hr1, hr2, hdq'.1, hdq'.2]
      · rw [if_neg h2]
        have hlohi : hi ≤ lo := Fl.le_of_not_lt (Fl.le_self_of_le_left hlo)
          (Fl.le_self_of_le_right hhi) h2
        obtain ⟨r', hr', hr1', hr2'⟩ := Fl.fin_of_between (Fl.le_trans' hhi hlohi) hlo
        refine ⟨r', hr', ?_⟩
        rw [abs_le]
        constructor <;> linarith only [hr1', hr2']
    · rw [if_neg h1]
      by_cases h2 : lo < Fl.fin ((ya + d : ℤ))
      · rw [if_pos h2]
        refine ⟨((ya + d : ℤ) : ℚ), rfl, ?_⟩
        push_cast
        rw [show (ya : ℚ) + d - ya = d by ring]
        exact hdq
      · rw [if_neg h2]
        have hge : Fl.fin ((ya + d : ℤ)) ≤ lo := Fl.le_of_not_lt (Fl.le_self_of_le_left hlo)
          (Fl.le_refl_fin _) h2
        obtain ⟨r', hr', hr1', hr2'⟩ := Fl.fin_of_between hge hlo
        refine ⟨r', hr', ?_⟩
        push_cast at hr1'
        rw [abs_le]
        constructor <;> linarith only [hr1', hr2', hdq'.1, hdq'.2]

end Terrain

namespace Terrain

/-- The vertex appended after a vertex with an integer `y` within the integer
bounds `[lo, hi]` has an integer `y` within `[lo, hi]`, at most 80 away. -/
lemma step_int (lo hi ya d : ℤ) (hlo : lo ≤ ya) (hhi : ya ≤ hi) (hlob : |lo| ≤ 2 ^ 23)
    (hhib : |hi| ≤ 2 ^ 23) (hd : |d| ≤ 80) :
    ∃ yb : ℤ, stdMax (Fl.fin lo) (stdMin (Fl.fin ya + Fl.ofInt d) (Fl.fin hi)) = Fl.fin yb ∧
      lo ≤ yb ∧ yb ≤ hi ∧ |yb - ya| ≤ 80 := by
  have hya : |ya| ≤ 2 ^ 23 := by
    have h1 := abs_le.mp hlob
    have h2 := abs_le.mp hhib
    rw [abs_le]
    constructor <;> omega
  have hlo' : Fl.fin (lo : ℚ) ≤ Fl.fin ya := (Fl.fin_le_fin _ _).mpr (by exact_mod_cast hlo)
  have hhi' : Fl.fin (ya : ℚ) ≤ Fl.fin hi := (Fl.fin_le_fin _ _).mpr (by exact_mod_cast hhi)
  obtain ⟨hcase, hr1, hr2, yb, hyb, hstep⟩ :=
    clamp_step_int (Fl.fin lo) (Fl.fin hi) ya d hlo' hhi' hya hd
  have key : ∀ z : ℤ, stdMax (Fl.fin lo) (stdMin (Fl.fin ya + Fl.ofInt d) (Fl.fin hi)) =
      Fl.fin z → ∃ yb : ℤ, stdMax (Fl.fin lo) (stdMin (Fl.fin ya + Fl.ofInt d) (Fl.fin hi)) =
        Fl.fin yb ∧ lo ≤ yb ∧ yb ≤ hi ∧ |yb - ya| ≤ 80 := by
    intro z hz
    rw [hz] at hr1 hr2 hyb
    rw [Fl.fin_le_fin] at hr1 hr2
    have hzy : (z : ℚ) = yb := by
      simpa using hyb
    refine ⟨z, hz, by exact_mod_cast hr1, by exact_mod_cast hr2, ?_⟩
    have : |((z - ya : ℤ) : ℚ)| ≤ ((80 : ℤ) : ℚ) := by
      push_cast
      rw [hzy]
      exact hstep
    rw [← Int.cast_abs] at this
    exact_mod_cast this
  rcases hcase with h | h | h
  · exact key _ h
  · exact key _ h
  · exact key _ h

/-- When `GenerateTerrain` returns, every `y` is an integer within the integer
bounds `[minY, maxY]` once all of them were. -/
lemma GenerateTerrain_intY (fuel : Nat) (t t' : Terrain) (lo hi : ℤ)
    (h : GenerateTerrain fuel t = some t') (hmin : t.minY = Fl.fin lo)
    (hmax : t.maxY = Fl.fin hi) (hlob : |lo| ≤ 2 ^ 23) (hhib : |hi| ≤ 2 ^ 23)
    (hall : ∀ p ∈ t.vertices, ∃ y : ℤ, p.y = Fl.fin y ∧ lo ≤ y ∧ y ≤ hi) :
    ∀ (i : Nat) (p : Vector2f), t'.vertices[i]? = some p →
      ∃ y : ℤ, p.y = Fl.fin y ∧ lo ≤ y ∧ y ≤ hi := by
  obtain ⟨-, -, -, ⟨ext, hext, -⟩, -⟩ := GenerateTerrain_some fuel t t' h
  have hne : t.vertices ≠ [] := by
    intro hnil
    cases fuel with
    | zero => simp [GenerateTerrain] at h
    | succ n =>
      rw [GenerateTerrain] at h
      simp [hnil] at h
  have hlen : 1 ≤ t.vertices.length := by
    cases hv : t.vertices with
    | nil => exact absurd hv hne
    | cons a rest => simp
  intro i
  induction i with
  | zero =>
    intro p hp
    rw [hext, List.getElem?_append_left (by omega)] at hp
    exact hall p (List.getElem?_mem hp)
  | succ j ih =>
    intro p hp
    by_cases hj : j + 1 < t.vertices.length
    · rw [hext, List.getElem?_append_left hj] at hp
      exact hall p (List.getElem?_mem hp)
    · have hjlt : j < t'.vertices.length := by
        have := (List.getElem?_eq_some_iff.mp hp).1
        omega
      obtain ⟨a, ha⟩ : ∃ a, t'.vertices[j]? = some a :=
        ⟨t'.vertices[j], List.getElem?_eq_getElem hjlt⟩
      obtain ⟨ya, hya, hlo, hhi⟩ := ih a ha
      obtain ⟨-, -, d, hd, hby⟩ := GenerateTerrain_steps fuel t t' h j a p ha hp (by omega)
      rw [hmin, hmax, hya] at hby
      obtain ⟨yb, hyb, h1, h2, -⟩ := step_int lo hi ya d hlo hhi hlob hhib hd
      exact ⟨yb, by rw [hby, hyb], h1, h2⟩

/-- When `GenerateTerrain` returns, neighbours differ in `y` by at most 80 once
all neighbours did and every `y` was an integer within the integer bounds
`[minY, maxY]`. -/
lemma GenerateTerrain_ystep_int (fuel : Nat) (t t' : Terrain) (lo hi : ℤ)
    (h : GenerateTerrain fuel t = some t') (hmin : t.minY = Fl.fin lo)
    (hmax : t.maxY = Fl.fin hi) (hlob : |lo| ≤ 2 ^ 23) (hhib : |hi| ≤ 2 ^ 23)
    (hall : ∀ p ∈ t.vertices, ∃ y : ℤ, p.y = Fl.fin y ∧ lo ≤ y ∧ y ≤ hi)
    (hstep : ∀ (i : Nat) (a b : Vector2f), t.vertices[i]? = some a →
      t.vertices[i + 1]? = some b → ∃ ya yb : ℤ, a.y = Fl.fin ya ∧ b.y = Fl.fin yb ∧
        |yb - ya| ≤ 80) :
    ∀ (i : Nat) (a b : Vector2f), t'.vertices[i]? = some a → t'.vertices[i + 1]? = some b →
      ∃ ya yb : ℤ, a.y = Fl.fin ya ∧ b.y = Fl.fin yb ∧ |yb - ya| ≤ 80 := by
  obtain ⟨-, -, -, ⟨ext, hext, -⟩, -⟩ := GenerateTerrain_some fuel t t' h
  intro i a b ha hb
  by_cases hi' : i + 1 < t.vertices.length
  · rw [hext, List.getElem?_append_left (by omega)] at ha
    rw [hext, List.getElem?_append_left hi'] at hb
    exact hstep i a b ha hb
  · obtain ⟨ya, hya, hlo, hhi⟩ := GenerateTerrain_intY fuel t t' lo hi h hmin hmax hlob hhib
      hall i a ha
    obtain ⟨-, -, d, hd, hby⟩ := GenerateTerrain_steps fuel t t' h i a b ha hb (by omega)
    rw [hmin, hmax, hya] at hby
    obtain ⟨yb, hyb, -, -, h3⟩ := step_int lo hi ya d hlo hhi hlob hhib hd
    exact ⟨ya, yb, hya, by rw [hby, hyb], h3⟩

/-- A sequence of `Update` calls keeps every `y` an integer within the integer
bounds `[minY, maxY]` and every step in `y` between neighbours at most 80. -/
lemma UpdateAll_ystep_int (fuel : Nat) (lo hi : ℤ) (hlob : |lo| ≤ 2 ^ 23)
    (hhib : |hi| ≤ 2 ^ 23) : ∀ (xs : List Fl) (t t' : Terrain),
    UpdateAll fuel t xs = some t' → t.minY = Fl.fin lo → t.maxY = Fl.fin hi →
    (∀ p ∈ t.vertices, ∃ y : ℤ, p.y = Fl.fin y ∧ lo ≤ y ∧ y ≤ hi) →
    (∀ (i : Nat) (a b : Vector2f), t.vertices[i]? = some a →
      t.vertices[i + 1]? = some b → ∃ ya yb : ℤ, a.y = Fl.fin ya ∧ b.y = Fl.fin yb ∧
        |yb - ya| ≤ 80) →
    ∀ (i : Nat) (a b : Vector2f), t'.vertices[i]? = some a → t'.vertices[i + 1]? = some b →
      ∃ ya yb : ℤ, a.y = Fl.fin ya ∧ b.y = Fl.fin yb ∧ |yb - ya| ≤ 80 := by
  intro xs
  induction xs with
  | nil =>
    intro t t' h _ _ _ hstep
    simp only [UpdateAll, Option.some.injEq] at h
    subst h
    exact hstep
  | cons x rest ih =>
    intro t t' h hmin hmax hall hstep
    rw [UpdateAll] at h
    split at h
    · exact absurd h (by simp)
    · rename_i t1 h1
      obtain ⟨-, hmax1, hmin1, -, -⟩ := Update_some fuel t t1 x h1
      have hall0 : ∀ p ∈ (t.vertices.map fun v => (⟨scroll x v.x, v.y⟩ : Vector2f)),
          ∃ y : ℤ, p.y = Fl.fin y ∧ lo ≤ y ∧ y ≤ hi := by
        intro p hp
        obtain ⟨q, hq, rfl⟩ := List.mem_map.mp hp
        exact hall q hq
      have hstep0 : ∀ (i : Nat) (a b : Vector2f),
          (t.vertices.map fun v => (⟨scroll x v.x, v.y⟩ : Vector2f))[i]? = some a →
          (t.vertices.map fun v => (⟨scroll x v.x, v.y⟩ : Vector2f))[i + 1]? = some b →
          ∃ ya yb : ℤ, a.y = Fl.fin ya ∧ b.y = Fl.fin yb ∧ |yb - ya| ≤ 80 := by
        intro i a b ha hb
        rw [List.getElem?_map] at ha hb
        cases ha0 : t.vertices[i]? with
        | none => rw [ha0] at ha; simp at ha
        | some a0 =>
          cases hb0 : t.vertices[i + 1]? with
          | none => rw [hb0] at hb; simp at hb
          | some b0 =>
            rw [ha0] at ha
            rw [hb0] at hb
            simp only [Option.map_some', Option.some.injEq] at ha hb
            subst ha
            subst hb
            exact hstep i a0 b0 ha0 hb0
      have hall1 : ∀ p ∈ t1.vertices, ∃ y : ℤ, p.y = Fl.fin y ∧ lo ≤ y ∧ y ≤ hi := by
        intro p hp
        obtain ⟨i, hi'⟩ := List.getElem?_of_mem hp
        exact GenerateTerrain_intY fuel _ t1 lo hi h1 hmin hmax hlob hhib hall0 i p hi'
      exact ih t1 t' h (by rw [hmin1, hmin]) (by rw [hmax1, hmax]) hall1
        (GenerateTerrain_ystep_int fuel _ t1 lo hi h1 hmin hmax hlob hhib hall0 hstep0)

end Terrain

/-- The first tick of a terrain of width 800 with `startY = 0` below
`minY = 120`: the appended vertex is clamped up to `y = 120`. -/
lemma ystep_unclamped_start :
    ∃ fuel t', Terrain.Update fuel
        (Terrain.new (Fl.fin 800) (Fl.fin 0) (Fl.fin 580) (Fl.fin 120) steadyGenerator)
        (Fl.fin 200000) = some t' ∧
      t'.vertices[0]? = some ⟨Fl.fin (-8589935 / 4294967296), Fl.fin 0⟩ ∧
      t'.vertices[1]? = some ⟨Fl.fin (2621309 / 65536), Fl.fin 120⟩ := by
  have e0 : Fl.ofInt 0 = Fl.fin 0 := by rw [Fl.ofInt_eq 0 (by norm_num)]; norm_num
  have e40 : Fl.ofInt 40 = Fl.fin 40 := by rw [Fl.ofInt_eq 40 (by norm_num)]; norm_num
  have hx1 : (Fl.fin (-8589935 / 4294967296) + Fl.fin 40 : Fl) = Fl.fin (2621309 / 65536) :=
    ((Fl.fin_add_fin (-8589935 / 4294967296) 40).trans (Fl.round_eval binary32 ((-8589935 / 4294967296) + 40) (2621309 / 65536) 5 (-18) 10485236 (by norm_num [abs_of_nonneg, abs_of_nonpos]) (by norm_num [abs_of_nonneg, abs_of_nonpos]) (by norm_num [binary32]) (Or.inl (by norm_num [abs_lt])) (by norm_num) (by norm_num [binary32, abs_of_nonneg, abs_of_nonpos])))

  have h00 : (Fl.fin 0 + Fl.fin 0 : Fl) = Fl.fin 0 := by
    have := Fl.add_int 0 0 (by norm_num)
    simpa using this
  have hc1 : ¬ (Fl.fin 580 < Fl.fin 0) := by rw [Fl.fin_lt_fin]; norm_num
  have hc2 : ¬ (Fl.fin 120 < Fl.fin 0) := by rw [Fl.fin_lt_fin]; norm_num
  have hU : ∀ fuel, Terrain.Update fuel
      (Terrain.new (Fl.fin 800) (Fl.fin 0) (Fl.fin 580) (Fl.fin 120) steadyGenerator)
      (Fl.fin 200000) = Terrain.GenerateTerrain fuel
        (Terrain.mk [⟨Fl.fin (-8589935 / 4294967296), Fl.fin 0⟩] (Fl.fin 800) (Fl.fin 580)
          (Fl.fin 120) steadyGenerator) := by
    intro fuel
    simp [Terrain.Update, Terrain.new, Terrain.AddVertex, e0, scroll_main_first]
  obtain ⟨fuel, t', ht', h0, h1⟩ := Terrain.first_append
    (Terrain.mk [⟨Fl.fin (-8589935 / 4294967296), Fl.fin 0⟩] (Fl.fin 800) (Fl.fin 580)
      (Fl.fin 120) steadyGenerator)
    ⟨Fl.fin (-8589935 / 4294967296), Fl.fin 0⟩ (Fl.fin (2621309 / 65536)) (Fl.fin 120) 800 rfl
    (by
      intro h
      have := (Fl.fin_le_fin _ _).mp h
      norm_num at this)
    (by
      show Fl.fin (-8589935 / 4294967296) + Fl.ofInt 40 = _
      rw [e40, hx1])
    (by
      show stdMax (Fl.fin 120) (stdMin (Fl.fin 0 + Fl.ofInt 0) (Fl.fin 580)) = _
      rw [e0, h00]
      simp [stdMax, stdMin, hc1, hc2])
    rfl (by norm_num) (by rw [Fl.fin_le_fin]; norm_num)
  exact ⟨fuel, t', by rw [hU]; exact ht', h0, h1⟩

/-- The first tick of a terrain of width 800 with the `float` `startY`
nearest to 21.0346737, inside `[minY, maxY] = [0, 580]`, and a draw
`yDist = 80`: the appended vertex is `80.0000019...` higher. -/
lemma ystep_rounded :
    ∃ fuel t', Terrain.Update fuel
        (Terrain.new (Fl.fin 800) (Fl.fin (11028227 / 524288)) (Fl.fin 580) (Fl.fin 0)
          steepGenerator)
        (Fl.fin 200000) = some t' ∧
      t'.vertices[0]? = some ⟨Fl.fin (-8589935 / 4294967296), Fl.fin (11028227 / 524288)⟩ ∧
      t'.vertices[1]? = some ⟨Fl.fin (2621309 / 65536), Fl.fin (13242817 / 131072)⟩ := by
  have e0 : Fl.ofInt 0 = Fl.fin 0 := by rw [Fl.ofInt_eq 0 (by norm_num)]; norm_num
  have e40 : Fl.ofInt 40 = Fl.fin 40 := by rw [Fl.ofInt_eq 40 (by norm_num)]; norm_num
  have e80 : Fl.ofInt 80 = Fl.fin 80 := by rw [Fl.ofInt_eq 80 (by norm_num)]; norm_num
  have hx1 : (Fl.fin (-8589935 / 4294967296) + Fl.fin 40 : Fl) = Fl.fin (2621309 / 65536) :=
    ((Fl.fin_add_fin (-8589935 / 4294967296) 40).trans (Fl.round_eval binary32 ((-8589935 / 4294967296) + 40) (2621309 / 65536) 5 (-18) 10485236 (by norm_num [abs_of_nonneg, abs_of_nonpos]) (by norm_num [abs_of_nonneg, abs_of_nonpos]) (by norm_num [binary32]) (Or.inl (by norm_num [abs_lt])) (by norm_num) (by norm_num [binary32, abs_of_nonneg, abs_of_nonpos])))

  have hy1 : (Fl.fin (11028227 / 524288) + Fl.fin 80 : Fl) = Fl.fin (13242817 / 131072) :=
    ((Fl.fin_add_fin (11028227 / 524288) 80).trans (Fl.round_eval binary32 ((11028227 / 524288) + 80) (13242817 / 131072) 6 (-17) 13242817 (by norm_num [abs_of_nonneg, abs_of_nonpos]) (by norm_num [abs_of_nonneg, abs_of_nonpos]) (by norm_num [binary32]) (Or.inl (by norm_num [abs_lt])) (by norm_num) (by norm_num [binary32, abs_of_nonneg, abs_of_nonpos])))

  have hc1 : ¬ (Fl.fin 580 < Fl.fin (13242817 / 131072)) := by rw [Fl.fin_lt_fin]; norm_num
  have hc2 : Fl.fin 0 < Fl.fin (13242817 / 131072) := by rw [Fl.fin_lt_fin]; norm_num
  have hU : ∀ fuel, Terrain.Update fuel
      (Terrain.new (Fl.fin 800) (Fl.fin (11028227 / 524288)) (Fl.fin 580) (Fl.fin 0)
        steepGenerator)
      (Fl.fin 200000) = Terrain.GenerateTerrain fuel
        (Terrain.mk [⟨Fl.fin (-8589935 / 4294967296), Fl.fin (11028227 / 524288)⟩] (Fl.fin 800)
          (Fl.fin 580) (Fl.fin 0) steepGenerator) := by
    intro fuel
    simp [Terrain.Update, Terrain.new, Terrain.AddVertex, e0, scroll_main_first]
  obtain ⟨fuel, t', ht', h0, h1⟩ := Terrain.first_append
    (Terrain.mk [⟨Fl.fin (-8589935 / 4294967296), Fl.fin (11028227 / 524288)⟩] (Fl.fin 800)
      (Fl.fin 580) (Fl.fin 0) steepGenerator)
    ⟨Fl.fin (-8589935 / 4294967296), Fl.fin (11028227 / 524288)⟩ (Fl.fin (2621309 / 65536))
    (Fl.fin (13242817 / 131072)) 800 rfl
    (by
      intro h
      have := (Fl.fin_le_fin _ _).mp h
      norm_num at this)
    (by
      show Fl.fin (-8589935 / 4294967296) + Fl.ofInt 40 = _
      rw [e40, hx1])
    (by
      show stdMax (Fl.fin 0) (stdMin (Fl.fin (11028227 / 524288) + Fl.ofInt 80) (Fl.fin 580)) = _
      rw [e80, hy1]
      simp [stdMax, stdMin, hc1, hc2])
    rfl (by norm_num) (by rw [Fl.fin_le_fin]; norm_num)
  exact ⟨fuel, t', by rw [hU]; exact ht', h0, h1⟩

/-- C15, as stated, fails, in two ways.  With `startY = 0` below `minY = 120`
the first vertex that `GenerateTerrain` appends is clamped up to `y = 120`,
which is 120 away from the `y = 0` of the vertex before it.  And with a
`startY` inside `[minY, maxY]` that is not an integer, the `float` nearest to
21.0346737, and a draw `yDist = 80`, the appended vertex has the `y`
`101.03467559...`, which is more than 80 away: the sum is rounded. -/
theorem Terrain_y_step_counterexample :
    (∃ fuel t', Terrain.Update fuel
        (Terrain.new (Fl.fin 800) (Fl.fin 0) (Fl.fin 580) (Fl.fin 120) steadyGenerator)
        (Fl.fin 200000) = some t' ∧
      t'.vertices[0]? = some ⟨Fl.fin (-8589935 / 4294967296), Fl.fin 0⟩ ∧
      t'.vertices[1]? = some ⟨Fl.fin (2621309 / 65536), Fl.fin 120⟩ ∧
      ¬ (|(120 : ℚ) - 0| ≤ 80)) ∧
    (∃ fuel t', Terrain.Update fuel
        (Terrain.new (Fl.fin 800) (Fl.fin (11028227 / 524288)) (Fl.fin 580) (Fl.fin 0)
          steepGenerator)
        (Fl.fin 200000) = some t' ∧
      t'.vertices[0]? = some ⟨Fl.fin (-8589935 / 4294967296), Fl.fin (11028227 / 524288)⟩ ∧
      t'.vertices[1]? = some ⟨Fl.fin (2621309 / 65536), Fl.fin (13242817 / 131072)⟩ ∧
      (Fl.fin (11028227 / 524288)).IsFloat ∧
      (0 : ℚ) ≤ 11028227 / 524288 ∧ (11028227 / 524288 : ℚ) ≤ 580 ∧
      ¬ (|(13242817 / 131072 : ℚ) - 11028227 / 524288| ≤ 80)) := by
  obtain ⟨f1, t1, h1, h10, h11⟩ := ystep_unclamped_start
  obtain ⟨f2, t2, h2, h20, h21⟩ := ystep_rounded
  refine ⟨⟨f1, t1, h1, h10, h11, by norm_num⟩, f2, t2, h2, h20, h21, ?_, by norm_num,
    by norm_num, by norm_num [abs_of_nonneg]⟩
  exact ⟨⟨11028227, -19, by norm_num [binary32], by norm_num [binary32], by norm_num⟩,
    by norm_num [binary32, abs_of_nonneg]⟩

/-- C15, amended: a vertex that `GenerateTerrain` appends after a vertex whose
`y` is an integer of magnitude at most `2 ^ 23` within `[minY, maxY]` has a
`y` that differs from it by at most 80; so for every terrain constructed with
integers `minY <= startY <= maxY` of magnitude at most `2 ^ 23`, in the
polyline that a sequence of `Update` calls returns every `y` is an integer and
the `y` of each vertex differs from the `y` of the vertex before it by at most
80; the sequence does return (with enough fuel) when the width is within
`[-2 ^ 23, 2 ^ 24]` and every velocity is finite with magnitude at most
`2 ^ 40`. -/
theorem Terrain_y_step :
    (∀ (fuel : Nat) (t t' : Terrain), Terrain.GenerateTerrain fuel t = some t' →
      ∀ (i : Nat) (a b : Vector2f), t'.vertices[i]? = some a → t'.vertices[i + 1]? = some b →
        t.vertices.length ≤ i + 1 →
        ∀ ya : ℤ, a.y = Fl.fin ya → |ya| ≤ 2 ^ 23 → t.minY ≤ a.y → a.y ≤ t.maxY →
          ∃ yb : ℚ, b.y = Fl.fin yb ∧ |yb - ya| ≤ 80) ∧
    ∀ (width : Fl) (startY maxY minY : ℤ) (generator : Nat → Draw) (xs : List Fl),
      minY ≤ startY → startY ≤ maxY → |minY| ≤ 2 ^ 23 → |maxY| ≤ 2 ^ 23 →
      (∀ fuel t', Terrain.UpdateAll fuel
          (Terrain.new width (Fl.fin startY) (Fl.fin maxY) (Fl.fin minY) generator) xs
          = some t' →
        ∀ (i : Nat) (a b : Vector2f), t'.vertices[i]? = some a → t'.vertices[i + 1]? = some b →
          ∃ ya yb : ℤ, a.y = Fl.fin ya ∧ b.y = Fl.fin yb ∧ |yb - ya| ≤ 80) ∧
      ((Terrain.new width (Fl.fin startY) (Fl.fin maxY) (Fl.fin minY) generator).BoundedWidth →
        (∀ xv ∈ xs, Terrain.BoundedVelocity xv) →
        ∃ fuel t', Terrain.UpdateAll fuel
          (Terrain.new width (Fl.fin startY) (Fl.fin maxY) (Fl.fin minY) generator) xs
          = some t') := by
  constructor
  · intro fuel t t' h i a b ha hb hlen ya hya hyab hlo hhi
    obtain ⟨-, -, d, hd, hby⟩ := Terrain.GenerateTerrain_steps fuel t t' h i a b ha hb hlen
    rw [hya] at hby hlo hhi
    obtain ⟨-, -, -, yb, hyb, hstep⟩ := Terrain.clamp_step_int _ _ ya d hlo hhi hyab hd
    exact ⟨yb, by rw [hby, hyb], hstep⟩
  · intro width startY maxY minY generator xs hlo hhi hlob hhib
    constructor
    · intro fuel t' ht'
      refine Terrain.UpdateAll_ystep_int fuel minY maxY hlob hhib xs _ t' ht' rfl rfl ?_ ?_
      · intro p hp
        simp only [Terrain.new, Terrain.AddVertex, List.nil_append, List.mem_singleton] at hp
        subst hp
        exact ⟨startY, rfl, hlo, hhi⟩
      · intro j a0 b0 _ hb0
        simp [Terrain.new, Terrain.AddVertex] at hb0
    · intro hw hv
      exact Terrain.UpdateAll_returns xs _ hw (Terrain.new_lastInWindow _ _ _ _ _) hv

/-- Witness of C15 (amended): the terrain of `main`, with the heights 450, 580
and 120, after its first tick. -/
theorem Terrain_y_step_witness :
    ∃ fuel t', Terrain.UpdateAll fuel
        (Terrain.new (Fl.fin 800) (Fl.fin 450) (Fl.fin 580) (Fl.fin 120) steepGenerator)
        [Fl.fin 200000] = some t' ∧
      ∀ (i : Nat) (a b : Vector2f), t'.vertices[i]? = some a → t'.vertices[i + 1]? = some b →
        ∃ ya yb : ℤ, a.y = Fl.fin ya ∧ b.y = Fl.fin yb ∧ |yb - ya| ≤ 80 := by
  obtain ⟨hstep, hret⟩ := Terrain_y_step.2 (Fl.fin 800) 450 580 120 steepGenerator
    [Fl.fin 200000] (by norm_num) (by norm_num) (by norm_num) (by norm_num)
  have hcast : Terrain.new (Fl.fin 800) (Fl.fin ((450 : ℤ) : ℚ)) (Fl.fin ((580 : ℤ) : ℚ))
      (Fl.fin ((120 : ℤ) : ℚ)) steepGenerator =
      Terrain.new (Fl.fin 800) (Fl.fin 450) (Fl.fin 580) (Fl.fin 120) steepGenerator := by
    norm_num
  rw [hcast] at hstep hret
  obtain ⟨fuel, t', ht'⟩ := hret ⟨800, rfl, by norm_num, by norm_num⟩ (by
    intro xv hxv
    rw [List.mem_singleton] at hxv
    subst hxv
    exact ⟨200000, rfl, by norm_num [abs_of_nonneg]⟩)
  exact ⟨fuel, t', ht', hstep fuel t' ht'⟩

/-! ## The collision loop and the tick -/

/-- Where `collisionScan` takes its `break`: at the segment with the lowest
index that intersects the box. -/
lemma collisionScan_some (lr : FloatRect) : ∀ (rest : List Vector2f) (first a b : Vector2f),
    collisionScan lr first rest = some (a, b) →
    ∃ i, (first :: rest)[i]? = some a ∧ (first :: rest)[i + 1]? = some b ∧
      boxIntersects a b lr = true ∧
      ∀ j, j < i → ∀ a' b', (first :: rest)[j]? = some a' → (first :: rest)[j + 1]? = some b' →
        boxIntersects a' b' lr = false := by
  intro rest
  induction rest with
  | nil => intro first a b h; simp [collisionScan] at h
  | cons pTo rest ih =>
    intro first a b h
    rw [collisionScan] at h
    split at h
    · rename_i hhit
      simp only [Option.some.injEq, Prod.mk.injEq] at h
      obtain ⟨rfl, rfl⟩ := h
      exact ⟨0, by simp, by simp, hhit, fun j hj => absurd hj (Nat.not_lt_zero j)⟩
    · rename_i hmiss
      obtain ⟨i, hi, hi1, hhit, hmin⟩ := ih pTo a b h
      refine ⟨i + 1, by simpa using hi, by simpa using hi1, hhit, ?_⟩
      intro j hj a' b' ha' hb'
      cases j with
      | zero =>
        simp only [List.getElem?_cons_zero, Option.some.injEq, zero_add,
          List.getElem?_cons_succ] at ha' hb'
        subst ha'
        subst hb'
        simpa using hmiss
      | succ j =>
        exact hmin j (by omega) a' b' (by simpa using ha') (by simpa using hb')

/-- When `collisionScan` runs to the end, no segment intersects the box. -/
lemma collisionScan_none (lr : FloatRect) : ∀ (rest : List Vector2f) (first : Vector2f),
    collisionScan lr first rest = none →
    ∀ j a' b', (first :: rest)[j]? = some a' → (first :: rest)[j + 1]? = some b' →
      boxIntersects a' b' lr = false := by
  intro rest
  induction rest with
  | nil => intro first _ j a' b' _ hb'; simp at hb'
  | cons pTo rest ih =>
    intro first h j a' b' ha' hb'
    rw [collisionScan] at h
    split at h
    · exact absurd h (by simp)
    · rename_i hmiss
      cases j with
      | zero =>
        simp only [List.getElem?_cons_zero, Option.some.injEq, zero_add,
          List.getElem?_cons_succ] at ha' hb'
        subst ha'
        subst hb'
        simpa using hmiss
      | succ j =>
        exact ih pTo h j a' b' (by simpa using ha') (by simpa using hb')

/-- What a returning `tick` has done. -/
lemma tick_some (lib : Library) (fuel : Nat) (s s' : Sim) (h : tick lib fuel s = some s') :
    ∃ first rest,
      Terrain.Update fuel s.terrain (s.lander.UpdatePosition lib.sin lib.cos).currentSpeed.x
        = some s'.terrain ∧
      s'.terrain.vertices = first :: rest ∧
      s'.lander = s.lander.UpdatePosition lib.sin lib.cos ∧
      s'.windowOpen = s.windowOpen ∧
      ((collisionScan (lib.getGlobalBounds s'.lander) first rest = none ∧
          s'.running = s.running ∧ s'.text = s.text) ∨
        ∃ a b, collisionScan (lib.getGlobalBounds s'.lander) first rest = some (a, b) ∧
          s'.running = false ∧
          s'.text = if Crashed a b s'.lander then crashedText else landedText) := by
  unfold tick at h
  simp only [Lander.GetCurrentSpeed] at h
  split at h
  · exact absurd h (by simp)
  · rename_i terrain hterrain
    split at h
    · exact absurd h (by simp)
    · rename_i first rest hvs
      split at h
      · rename_i hscan
        simp only [Option.some.injEq] at h
        subst h
        exact ⟨first, rest, hterrain, hvs, rfl, rfl, Or.inl ⟨hscan, rfl, rfl⟩⟩
      · rename_i pFrom pTo hscan
        simp only [Option.some.injEq] at h
        subst h
        exact ⟨first, rest, hterrain, hvs, rfl, rfl, Or.inr ⟨pFrom, pTo, hscan, rfl, rfl⟩⟩

/-- The function `tick` returns as soon as its `Update` does. -/
lemma tick_of_Update (lib : Library) (fuel : Nat) (s : Sim) (terrain : Terrain)
    (h : Terrain.Update fuel s.terrain (s.lander.UpdatePosition lib.sin lib.cos).currentSpeed.x
      = some terrain) :
    ∃ s', tick lib fuel s = some s' := by
  have hne' := Terrain.Update_ne_nil fuel _ _ _ h
  unfold tick
  simp only [Lander.GetCurrentSpeed, h]
  cases hvs : terrain.vertices with
  | nil => exact absurd hvs hne'
  | cons first rest =>
    simp only
    cases collisionScan (lib.getGlobalBounds (s.lander.UpdatePosition lib.sin lib.cos))
        first rest with
    | none => exact ⟨_, rfl⟩
    | some seg => exact ⟨_, rfl⟩

/-- The function `tick` returns, given enough fuel, on a terrain of bounded
width whose last vertex is in the window, when the updated horizontal velocity
is bounded. -/
lemma tick_returns (lib : Library) (s : Sim) (hw : s.terrain.BoundedWidth)
    (hl : s.terrain.LastInWindow)
    (hv : Terrain.BoundedVelocity (s.lander.UpdatePosition lib.sin lib.cos).currentSpeed.x) :
    ∃ fuel s', tick lib fuel s = some s' := by
  obtain ⟨fuel, terrain, h⟩ := Terrain.Update_returns s.terrain _ hw hl hv
  exact ⟨fuel, tick_of_Update lib fuel s terrain h⟩

/-- More fuel does not change the result of `tick`. -/
lemma tick_fuel_mono (lib : Library) (fuel k : Nat) (s s' : Sim)
    (h : tick lib fuel s = some s') : tick lib (fuel + k) s = some s' := by
  simp only [tick] at h ⊢
  cases hU : Terrain.Update fuel s.terrain
      (s.lander.UpdatePosition lib.sin lib.cos).GetCurrentSpeed.x with
  | none => rw [hU] at h; exact absurd h (by simp)
  | some terrain =>
    rw [hU] at h
    rw [Terrain.Update_fuel_mono fuel _ _ _ k hU]
    exact h

/-- The vertex at an index after `Update`: the old one, scrolled. -/
lemma Terrain.Update_getElem? (fuel : Nat) (t t' : Terrain) (xVelocity : Fl)
    (h : Terrain.Update fuel t xVelocity = some t') (i : Nat) (p : Vector2f)
    (hp : t.vertices[i]? = some p) :
    t'.vertices[i]? = some ⟨Terrain.scroll xVelocity p.x, p.y⟩ := by
  obtain ⟨-, -, -, ⟨ext, hext, -⟩, -⟩ := Terrain.Update_some fuel t t' xVelocity h
  have hi : i < t.vertices.length := by
    by_contra hcon
    rw [List.getElem?_eq_none (not_lt.mp hcon)] at hp
    exact absurd hp (by simp)
  rw [hext, List.getElem?_append_left (by simpa using hi), List.getElem?_map, hp]
  rfl

/-- C11: in a running tick the collision loop stops at the first segment in
terrain order of which a box edge satisfies `LinesIntersect`: if the segment
from vertex `i` to vertex `i + 1` intersects the box and no segment of lower
index does, the simulation stops and the text is the classification that
`Crashed` gives for these two endpoints; if no segment intersects the box the
simulation stays running and the text is unchanged. -/
theorem tick_first_colliding_segment (lib : Library) (fuel : Nat) (s s' : Sim)
    (hrun : s.running = true) (h : tick lib fuel s = some s') :
    (∀ i a b, s'.terrain.vertices[i]? = some a → s'.terrain.vertices[i + 1]? = some b →
      boxIntersects a b (lib.getGlobalBounds s'.lander) = true →
      (∀ j, j < i → ∀ a' b', s'.terrain.vertices[j]? = some a' →
        s'.terrain.vertices[j + 1]? = some b' →
        boxIntersects a' b' (lib.getGlobalBounds s'.lander) = false) →
      s'.running = false ∧
      s'.text = if Crashed a b s'.lander then crashedText else landedText) ∧
    ((∀ j a' b', s'.terrain.vertices[j]? = some a' → s'.terrain.vertices[j + 1]? = some b' →
        boxIntersects a' b' (lib.getGlobalBounds s'.lander) = false) →
      s'.running = true ∧ s'.text = s.text) := by
  obtain ⟨first, rest, -, hvs, -, -, hcase⟩ := tick_some lib fuel s s' h
  rw [hvs]
  constructor
  · intro i a b ha hb hhit hmin
    rcases hcase with ⟨hnone, -, -⟩ | ⟨a0, b0, hsome, hr, ht⟩
    · have := collisionScan_none _ rest first hnone i a b ha hb
      rw [hhit] at this
      exact absurd this (by simp)
    · obtain ⟨i0, ha0, hb0, hhit0, hmin0⟩ := collisionScan_some _ rest first a0 b0 hsome
      have hii : i = i0 := by
        rcases Nat.lt_trichotomy i i0 with hlt | heq | hgt
        · have := hmin0 i hlt a b ha hb
          rw [hhit] at this
          exact absurd this (by simp)
        · exact heq
        · have := hmin i0 hgt a0 b0 ha0 hb0
          rw [hhit0] at this
          exact absurd this (by simp)
      subst hii
      rw [ha] at ha0
      rw [hb] at hb0
      simp only [Option.some.injEq] at ha0 hb0
      subst ha0
      subst hb0
      exact ⟨hr, ht⟩
  · intro hall
    rcases hcase with ⟨-, hr, ht⟩ | ⟨a0, b0, hsome, -, -⟩
    · exact ⟨by rw [hr, hrun], ht⟩
    · obtain ⟨i0, ha0, hb0, hhit0, -⟩ := collisionScan_some _ rest first a0 b0 hsome
      have := hall i0 a0 b0 ha0 hb0
      rw [hhit0] at this
      exact absurd this (by simp)

/-- C16: a running tick does the physics update first, then the terrain
update, then the collision check.  Whenever the tick returns, the lander is
the one after `UpdatePosition`, the terrain is the result of `Update` with the
horizontal velocity of the updated lander (every old vertex scrolled by the
statement `x -= 0.00000001f * xVelocity` with that velocity), and the
collision loop and `Crashed` are evaluated on the updated terrain with the
bounding box and the velocity of the updated lander.  The tick does return
(with enough fuel) when the width is within `[-2 ^ 23, 2 ^ 24]`, the last
vertex is not left of `-2 ^ 23` and the updated horizontal velocity is finite
with magnitude at most `2 ^ 40`. -/
theorem tick_order (lib : Library) (s : Sim) :
    (∀ fuel s', tick lib fuel s = some s' →
      s'.lander = s.lander.UpdatePosition lib.sin lib.cos ∧
      Terrain.Update fuel s.terrain s'.lander.currentSpeed.x = some s'.terrain ∧
      (∀ (i : Nat) (p : Vector2f), s.terrain.vertices[i]? = some p →
        s'.terrain.vertices[i]? =
          some ⟨Terrain.scroll s'.lander.currentSpeed.x p.x, p.y⟩) ∧
      ∃ first rest, s'.terrain.vertices = first :: rest ∧
        ((collisionScan (lib.getGlobalBounds s'.lander) first rest = none ∧
            s'.running = s.running ∧ s'.text = s.text) ∨
          ∃ a b, collisionScan (lib.getGlobalBounds s'.lander) first rest = some (a, b) ∧
            s'.running = false ∧
            s'.text = if Crashed a b s'.lander then crashedText else landedText)) ∧
    (s.terrain.BoundedWidth → s.terrain.LastInWindow →
      Terrain.BoundedVelocity (s.lander.UpdatePosition lib.sin lib.cos).currentSpeed.x →
      ∃ fuel s', tick lib fuel s = some s') := by
  refine ⟨?_, tick_returns lib s⟩
  intro fuel s' hs'
  obtain ⟨first, rest, hU, hvs, hl, -, hcase⟩ := tick_some lib fuel s s' hs'
  rw [← hl] at hU
  exact ⟨hl, hU, fun i p hp => Terrain.Update_getElem? fuel _ _ _ hU i p hp,
    first, rest, hvs, hcase⟩

/-! ## The frozen state after the outcome -/

/-- An event changes nothing but `windowOpen` once `running` is false. -/
lemma handleEvent_stopped (lib : Library) (s : Sim) (e : Event) (h : s.running = false) :
    (handleEvent lib s e).running = false ∧ (handleEvent lib s e).lander = s.lander ∧
    (handleEvent lib s e).terrain = s.terrain ∧ (handleEvent lib s e).text = s.text := by
  cases e <;> simp [handleEvent, h]

lemma foldl_handleEvent_stopped (lib : Library) : ∀ (events : List Event) (s : Sim),
    s.running = false →
    (events.foldl (handleEvent lib) s).running = false ∧
    (events.foldl (handleEvent lib) s).lander = s.lander ∧
    (events.foldl (handleEvent lib) s).terrain = s.terrain ∧
    (events.foldl (handleEvent lib) s).text = s.text := by
  intro events
  induction events with
  | nil => intro s h; exact ⟨h, rfl, rfl, rfl⟩
  | cons e rest ih =>
    intro s h
    obtain ⟨h1, h2, h3, h4⟩ := handleEvent_stopped lib s e h
    obtain ⟨g1, g2, g3, g4⟩ := ih (handleEvent lib s e) h1
    simp only [List.foldl_cons]
    exact ⟨g1, g2.trans h2, g3.trans h3, g4.trans h4⟩

/-- C12: the outcome is final.  Once `running` is false, every further run of
frames, with any fuel and any events, returns, and in the state it returns
`running` is still false and the lander (position, velocity, rotation,
thruster flag), the terrain and the outcome text are the same. -/
theorem stopped_is_frozen (lib : Library) (fuel : Nat) (frames : List (List Event)) (s : Sim)
    (h : s.running = false) :
    ∃ s', runFrames lib fuel s frames = some s' ∧ s'.running = false ∧
      s'.lander = s.lander ∧ s'.terrain = s.terrain ∧ s'.text = s.text := by
  induction frames generalizing s with
  | nil => exact ⟨s, rfl, h, rfl, rfl, rfl⟩
  | cons events rest ih =>
    rw [runFrames]
    by_cases hopen : s.windowOpen = true
    · obtain ⟨h1, h2, h3, h4⟩ := foldl_handleEvent_stopped lib events s h
      have hframe : frame lib fuel s events = some (events.foldl (handleEvent lib) s) := by
        simp [frame, h1]
      obtain ⟨s', hs', g1, g2, g3, g4⟩ := ih (events.foldl (handleEvent lib) s) h1
      refine ⟨s', ?_, g1, g2.trans h2, g3.trans h3, g4.trans h4⟩
      simp only [hopen, if_true, hframe]
      exact hs'
    · exact ⟨s, by simp [hopen], h, rfl, rfl, rfl⟩

/-- Witness of C12: the stopped state after a crash, then two frames with key
events. -/
theorem stopped_is_frozen_witness :
    ∃ s', runFrames exampleLibrary 0
        { exampleSim with running := false, text := crashedText }
        [[Event.KeyPressed Key.Space, Event.KeyPressed Key.Left],
          [Event.KeyReleased Key.Space, Event.KeyPressed Key.Right]] = some s' ∧
      s'.running = false ∧ s'.lander = exampleSim.lander ∧
      s'.terrain = exampleSim.terrain ∧ s'.text = crashedText :=
  stopped_is_frozen exampleLibrary 0 _ { exampleSim with running := false, text := crashedText }
    rfl

/-! ## Runs of frames -/

lemma handleEvent_terrain (lib : Library) (s : Sim) (e : Event) :
    (handleEvent lib s e).terrain = s.terrain := by
  cases e with
  | KeyPressed code => cases code <;> by_cases h : s.running = true <;> simp [handleEvent, h]
  | KeyReleased code => cases code <;> by_cases h : s.running = true <;> simp [handleEvent, h]
  | _ => simp [handleEvent]

lemma foldl_handleEvent_terrain (lib : Library) : ∀ (events : List Event) (s : Sim),
    (events.foldl (handleEvent lib) s).terrain = s.terrain := by
  intro events
  induction events with
  | nil => intro s; rfl
  | cons e rest ih =>
    intro s
    simp only [List.foldl_cons]
    rw [ih, handleEvent_terrain]

lemma frame_fuel_mono (lib : Library) (fuel k : Nat) (s s' : Sim) (events : List Event)
    (h : frame lib fuel s events = some s') : frame lib (fuel + k) s events = some s' := by
  simp only [frame] at h ⊢
  split at h
  · rename_i hrun
    rw [if_pos hrun]
    exact tick_fuel_mono lib fuel k _ s' h
  · rename_i hrun
    rw [if_neg hrun]
    exact h

lemma runFrames_fuel_mono (lib : Library) (fuel k : Nat) :
    ∀ (frames : List (List Event)) (s s' : Sim),
    runFrames lib fuel s frames = some s' → runFrames lib (fuel + k) s frames = some s' := by
  intro frames
  induction frames with
  | nil => intro s s' h; simpa [runFrames] using h
  | cons events rest ih =>
    intro s s' h
    rw [runFrames] at h ⊢
    split at h
    · rename_i hopen
      rw [if_pos hopen]
      split at h
      · exact absurd h (by simp)
      · rename_i s1 h1
        rw [frame_fuel_mono lib fuel k s s1 events h1]
        exact ih s1 s' h
    · rename_i hopen
      rw [if_neg hopen]
      exact h

/-! ## Runs without thrust -/

/-- Above the horizontal landing speed `Crashed` returns true on every segment. -/
lemma Crashed_of_fast (pFrom pTo : Vector2f) (lander : Lander)
    (h : lander.currentSpeed.x > Fl.ofInt MAX_HORIZONTAL_LANDING_SPEED) :
    Crashed pFrom pTo lander = true := by
  unfold Crashed Lander.GetCurrentSpeed
  by_cases h1 : Fl.abs (pFrom.y - pTo.y) > Fl.ofInt 2
  · rw [if_pos h1]
  · rw [if_neg h1, if_pos h]

/-- The invariant of a run in which the thrusters are never switched on. -/
lemma handleEvent_no_thrust (lib : Library) (s : Sim) (e : Event)
    (he : e ≠ Event.KeyPressed Key.Space) (hoff : s.lander.thrustersOn = false) :
    (handleEvent lib s e).lander.thrustersOn = false ∧
    (handleEvent lib s e).lander.currentSpeed = s.lander.currentSpeed ∧
    (handleEvent lib s e).text = s.text ∧ (handleEvent lib s e).running = s.running := by
  cases e with
  | KeyPressed code =>
    cases code <;> by_cases h : s.running = true <;>
      simp_all [handleEvent, Lander.rotate, Lander.setThrustersOn]
  | KeyReleased code =>
    cases code <;> by_cases h : s.running = true <;>
      simp_all [handleEvent, Lander.rotate, Lander.setThrustersOn]
  | _ => simp [handleEvent, hoff]

lemma foldl_handleEvent_no_thrust (lib : Library) : ∀ (events : List Event) (s : Sim),
    Event.KeyPressed Key.Space ∉ events → s.lander.thrustersOn = false →
    (events.foldl (handleEvent lib) s).lander.thrustersOn = false ∧
    (events.foldl (handleEvent lib) s).lander.currentSpeed = s.lander.currentSpeed ∧
    (events.foldl (handleEvent lib) s).text = s.text ∧
    (events.foldl (handleEvent lib) s).running = s.running := by
  intro events
  induction events with
  | nil => intro s _ h; exact ⟨h, rfl, rfl, rfl⟩
  | cons e rest ih =>
    intro s hno hoff
    have he : e ≠ Event.KeyPressed Key.Space := fun hc => hno (by simp [hc])
    have hrest : Event.KeyPressed Key.Space ∉ rest := fun hc => hno (List.mem_cons_of_mem _ hc)
    obtain ⟨h1, h2, h3, h4⟩ := handleEvent_no_thrust lib s e he hoff
    obtain ⟨g1, g2, g3, g4⟩ := ih (handleEvent lib s e) hrest h1
    simp only [List.foldl_cons]
    exact ⟨g1, g2.trans h2, g3.trans h3, g4.trans h4⟩

/-- With the thrusters off a horizontal velocity of 200000 stays 200000 in
`UpdatePosition`. -/
lemma UpdatePosition_x_initial (sin cos : Fl → Fl) (l : Lander) (hoff : l.thrustersOn = false)
    (hv : l.currentSpeed.x = Fl.fin 200000) :
    (l.UpdatePosition sin cos).currentSpeed.x = Fl.fin 200000 := by
  rw [Lander.UpdatePosition_currentSpeed_off sin cos l hoff, hv]
  have := Fl.add_int 200000 0 (by norm_num)
  simpa using this

/-- A frame without a press of the thrust key keeps the horizontal velocity at
the initial speed, and can only end the run as Crashed. -/
lemma frame_no_thrust (lib : Library) (fuel : Nat) (s s' : Sim) (events : List Event)
    (h : frame lib fuel s events = some s') (hno : Event.KeyPressed Key.Space ∉ events)
    (hv : s.lander.currentSpeed.x = Fl.fin 200000)
    (hoff : s.lander.thrustersOn = false) (htext : s.text ≠ landedText)
    (hstop : s.running = false → s.text = crashedText) :
    s'.lander.currentSpeed.x = Fl.fin 200000 ∧ s'.lander.thrustersOn = false ∧
    s'.text ≠ landedText ∧ (s'.running = false → s'.text = crashedText) := by
  obtain ⟨h1, h2, h3, h4⟩ := foldl_handleEvent_no_thrust lib events s hno hoff
  simp only [frame] at h
  split at h
  · obtain ⟨first, rest, -, -, hl, -, hcase⟩ := tick_some lib fuel _ s' h
    have hoff' : s'.lander.thrustersOn = false := by
      rw [hl, Lander.UpdatePosition_thrustersOn]; exact h1
    have hv' : s'.lander.currentSpeed.x = Fl.fin 200000 := by
      rw [hl]
      exact UpdatePosition_x_initial _ _ _ h1 (by rw [h2]; exact hv)
    refine ⟨hv', hoff', ?_⟩
    rcases hcase with ⟨-, hr, ht⟩ | ⟨a, b, -, -, ht⟩
    · rw [ht, h3, hr, h4]
      exact ⟨htext, hstop⟩
    · have hc : Crashed a b s'.lander = true :=
        Crashed_of_fast a b s'.lander (by
          rw [hv', Fl.ofInt_eq _ (by norm_num [MAX_HORIZONTAL_LANDING_SPEED])]
          show Fl.fin _ < Fl.fin _
          rw [Fl.fin_lt_fin]
          norm_num [MAX_HORIZONTAL_LANDING_SPEED])
      rw [ht, hc]
      exact ⟨by decide, fun _ => rfl⟩
  · simp only [Option.some.injEq] at h
    subst h
    rw [h2, h3, h4]
    exact ⟨hv, h1, htext, hstop⟩

lemma runFrames_no_thrust (lib : Library) (fuel : Nat) :
    ∀ (frames : List (List Event)) (s s' : Sim),
    runFrames lib fuel s frames = some s' →
    (∀ events ∈ frames, Event.KeyPressed Key.Space ∉ events) →
    s.lander.currentSpeed.x = Fl.fin 200000 →
    s.lander.thrustersOn = false → s.text ≠ landedText →
    (s.running = false → s.text = crashedText) →
    s'.lander.currentSpeed.x = Fl.fin 200000 ∧ s'.lander.thrustersOn = false ∧
    s'.text ≠ landedText ∧ (s'.running = false → s'.text = crashedText) := by
  intro frames
  induction frames with
  | nil =>
    intro s s' h _ hv hoff htext hstop
    simp only [runFrames, Option.some.injEq] at h
    subst h
    exact ⟨hv, hoff, htext, hstop⟩
  | cons events rest ih =>
    intro s s' h hno hv hoff htext hstop
    rw [runFrames] at h
    split at h
    · split at h
      · exact absurd h (by simp)
      · rename_i s1 h1
        obtain ⟨g1, g2, g3, g4⟩ := frame_no_thrust lib fuel s s1 events h1
          (hno events (by simp)) hv hoff htext hstop
        exact ih s1 s' h (fun ev hev => hno ev (List.mem_cons_of_mem _ hev)) g1 g2 g3 g4
    · simp only [Option.some.injEq] at h
      subst h
      exact ⟨hv, hoff, htext, hstop⟩

/-- A frame without a press of the thrust key returns, given enough fuel, and
keeps the terrain in the window. -/
lemma frame_no_thrust_returns (lib : Library) (s : Sim) (events : List Event)
    (hno : Event.KeyPressed Key.Space ∉ events)
    (hv : s.lander.currentSpeed.x = Fl.fin 200000) (hoff : s.lander.thrustersOn = false)
    (hw : s.terrain.BoundedWidth) (hl : s.terrain.LastInWindow) :
    ∃ fuel s', frame lib fuel s events = some s' ∧ s'.terrain.BoundedWidth ∧
      s'.terrain.LastInWindow := by
  obtain ⟨h1, h2, -, -⟩ := foldl_handleEvent_no_thrust lib events s hno hoff
  have ht := foldl_handleEvent_terrain lib events s
  by_cases hrun : (events.foldl (handleEvent lib) s).running = true
  · have hvel : ((events.foldl (handleEvent lib) s).lander.UpdatePosition lib.sin
        lib.cos).currentSpeed.x = Fl.fin 200000 :=
      UpdatePosition_x_initial _ _ _ h1 (by rw [h2]; exact hv)
    obtain ⟨fuel, s', hs'⟩ := tick_returns lib (events.foldl (handleEvent lib) s)
      (by rw [ht]; exact hw) (by rw [ht]; exact hl)
      ⟨200000, hvel, by norm_num [abs_of_nonneg]⟩
    obtain ⟨first, rest, hU, -, -, -, -⟩ := tick_some lib fuel _ s' hs'
    obtain ⟨hw', hl'⟩ := Terrain.Update_window fuel _ _ _ hU (by rw [ht]; exact hw)
    exact ⟨fuel, s', by simp only [frame, hrun, if_true]; exact hs', hw', hl'⟩
  · refine ⟨0, events.foldl (handleEvent lib) s, by simp only [frame, hrun]; rfl, ?_, ?_⟩
    · rw [ht]; exact hw
    · rw [ht]; exact hl

/-- A run of frames without a press of the thrust key returns, given enough
fuel. -/
lemma runFrames_no_thrust_returns (lib : Library) : ∀ (frames : List (List Event)) (s : Sim),
    (∀ events ∈ frames, Event.KeyPressed Key.Space ∉ events) →
    s.lander.currentSpeed.x = Fl.fin 200000 → s.lander.thrustersOn = false →
    s.text ≠ landedText → (s.running = false → s.text = crashedText) →
    s.terrain.BoundedWidth → s.terrain.LastInWindow →
    ∃ fuel s', runFrames lib fuel s frames = some s' := by
  intro frames
  induction frames with
  | nil => intro s _ _ _ _ _ _ _; exact ⟨0, s, rfl⟩
  | cons events rest ih =>
    intro s hno hv hoff htext hstop hw hl
    by_cases hopen : s.windowOpen = true
    · obtain ⟨f1, s1, h1, hw1, hl1⟩ := frame_no_thrust_returns lib s events
        (hno events (by simp)) hv hoff hw hl
      obtain ⟨g1, g2, g3, g4⟩ := frame_no_thrust lib f1 s s1 events h1
        (hno events (by simp)) hv hoff htext hstop
      obtain ⟨f2, s2, h2⟩ := ih s1 (fun ev hev => hno ev (List.mem_cons_of_mem _ hev))
        g1 g2 g3 g4 hw1 hl1
      refine ⟨f1 + f2, s2, ?_⟩
      rw [runFrames, if_pos hopen, frame_fuel_mono lib f1 f2 s s1 events h1]
      have := runFrames_fuel_mono lib f2 f1 rest s1 s2 h2
      rwa [Nat.add_comm] at this
    · exact ⟨0, s, by rw [runFrames, if_neg hopen]⟩

lemma initialSim_speed (generator : Nat → Draw) :
    (initialSim generator).lander.currentSpeed.x = Fl.fin 200000 := by
  show Fl.ofInt INITIAL_HORIZONTAL_SPEED = _
  rw [Fl.ofInt_eq _ (by norm_num [INITIAL_HORIZONTAL_SPEED])]
  norm_num [INITIAL_HORIZONTAL_SPEED]

/-- C18: if the thrust key is never pressed, no run ends in Landed.  From the
initial state of `main`, every run of frames without a press of the thrust key
returns (with enough fuel), and in the state it returns the horizontal velocity
is still 200000, above the landing threshold 70000, `Crashed` returns true for
every segment, the text is not the one for Landed, and if the run has ended
the text is the one for Crashed. -/
theorem no_thrust_never_lands (lib : Library) (generator : Nat → Draw)
    (frames : List (List Event))
    (hno : ∀ events ∈ frames, Event.KeyPressed Key.Space ∉ events) :
    (∃ fuel s', runFrames lib fuel (initialSim generator) frames = some s') ∧
    ∀ fuel s', runFrames lib fuel (initialSim generator) frames = some s' →
      s'.lander.currentSpeed.x = Fl.fin 200000 ∧
      s'.lander.currentSpeed.x > Fl.ofInt MAX_HORIZONTAL_LANDING_SPEED ∧
      (∀ pFrom pTo : Vector2f, Crashed pFrom pTo s'.lander = true) ∧
      s'.text ≠ landedText ∧ (s'.running = false → s'.text = crashedText) := by
  have htext : (initialSim generator).text ≠ landedText := by simp [initialSim, landedText]
  have hstop : (initialSim generator).running = false →
      (initialSim generator).text = crashedText := by
    intro h; exact absurd h (by simp [initialSim])
  constructor
  · exact runFrames_no_thrust_returns lib frames _ hno (initialSim_speed generator) rfl htext
      hstop (mainTerrain_boundedWidth generator) (mainTerrain_lastInWindow generator)
  · intro fuel s' hs'
    obtain ⟨hv, -, htext', hstop'⟩ := runFrames_no_thrust lib fuel frames _ s' hs' hno
      (initialSim_speed generator) rfl htext hstop
    have hfast : s'.lander.currentSpeed.x > Fl.ofInt MAX_HORIZONTAL_LANDING_SPEED := by
      rw [hv, Fl.ofInt_eq _ (by norm_num [MAX_HORIZONTAL_LANDING_SPEED])]
      show Fl.fin _ < Fl.fin _
      rw [Fl.fin_lt_fin]
      norm_num [MAX_HORIZONTAL_LANDING_SPEED]
    exact ⟨hv, hfast, fun a b => Crashed_of_fast a b s'.lander hfast, htext', hstop'⟩

/-- Witness of C18: two frames with rotation keys only, from the initial state
of `main`. -/
theorem no_thrust_never_lands_witness :
    ∃ fuel s', runFrames exampleLibrary fuel (initialSim steadyGenerator)
        [[Event.KeyPressed Key.Left], [Event.KeyPressed Key.Right, Event.KeyReleased Key.Space]]
        = some s' ∧
      s'.lander.currentSpeed.x = Fl.fin 200000 ∧ s'.text ≠ landedText := by
  obtain ⟨⟨fuel, s', hs'⟩, hall⟩ := no_thrust_never_lands exampleLibrary steadyGenerator
    [[Event.KeyPressed Key.Left], [Event.KeyPressed Key.Right, Event.KeyReleased Key.Space]]
    (by decide)
  exact ⟨fuel, s', hs', (hall fuel s' hs').1, (hall fuel s' hs').2.2.2.1⟩

/-! ## Examples of ticks -/

/-- With the velocity 0 the scroll of `Update` leaves an integer `x` of
magnitude at most `2 ^ 24` where it is. -/
lemma scroll_zero_int (n : ℤ) (h : |n| ≤ 2 ^ 24) :
    Terrain.scroll (Fl.fin 0) (Fl.fin n) = Fl.fin n := by
  have h53 : |n| ≤ 2 ^ binary64.prec := by
    have : (2 : ℤ) ^ 24 ≤ 2 ^ binary64.prec := by norm_num [binary64]
    exact h.trans this
  have hfin : |(n : ℚ)| < (2 : ℚ) ^ binary64.emax := by
    have h1 := Fl.abs_int_lt_emax32 n h
    have h2 : (2 : ℚ) ^ binary32.emax ≤ 2 ^ binary64.emax :=
      zpow_le_zpow_right₀ (by norm_num) (by decide)
    linarith
  refine Fl.scroll_eval 0 n 0 n n (Fl.round_zero_of _ _ (by norm_num) (two_zpow_pos _)) ?_
    (Fl.round32_intCast n h)
  rw [sub_zero]
  exact Fl.round_of_isRep _ _ (isRep_intCast binary64 n h53 Fl.prec64 (by decide)) hfin

/-- The lander of `exampleSim` after one `UpdatePosition`. -/
lemma exampleSim_lander :
    exampleSim.lander.UpdatePosition exampleLibrary.sin exampleLibrary.cos =
      ⟨⟨Fl.fin 400, Fl.fin 200⟩, Fl.fin 0, false, ⟨Fl.fin 200000, Fl.fin 4⟩⟩ := by
  have e0 : Fl.ofInt 0 = Fl.fin 0 := by rw [Fl.ofInt_eq 0 (by norm_num)]; norm_num
  have e200 : Fl.ofInt 200 = Fl.fin 200 := by rw [Fl.ofInt_eq 200 (by norm_num)]; norm_num
  have e400 : Fl.ofInt 400 = Fl.fin 400 := by rw [Fl.ofInt_eq 400 (by norm_num)]; norm_num
  have e2 : Fl.ofInt INITIAL_HORIZONTAL_SPEED = Fl.fin 200000 := by
    rw [Fl.ofInt_eq _ (by norm_num [INITIAL_HORIZONTAL_SPEED])]
    norm_num [INITIAL_HORIZONTAL_SPEED]
  have hx : (Fl.fin 200000 + Fl.fin 0 : Fl) = Fl.fin 200000 := by
    have := Fl.add_int 200000 0 (by norm_num)
    simpa using this
  have hv : (Fl.fin 0 + Fl.fin 4 : Fl) = Fl.fin 4 := by
    have := Fl.add_int 0 4 (by norm_num)
    simpa using this
  have hm : (Fl.fin 4 * Fl.fin (11258999 / 1125899906842624) : Fl) = Fl.fin (11258999 / 281474976710656) :=
    ((Fl.fin_mul_fin 4 (11258999 / 1125899906842624)).trans (Fl.round_eval binary32 (4 * (11258999 / 1125899906842624)) (11258999 / 281474976710656) (-25) (-48) 11258999 (by norm_num [abs_of_nonneg, abs_of_nonpos]) (by norm_num [abs_of_nonneg, abs_of_nonpos]) (by norm_num [binary32]) (Or.inl (by norm_num [abs_lt])) (by norm_num) (by norm_num [binary32, abs_of_nonneg, abs_of_nonpos])))
  have ha : (Fl.fin 200 + Fl.fin (11258999 / 281474976710656) : Fl) = Fl.fin 200 :=
    ((Fl.fin_add_fin 200 (11258999 / 281474976710656)).trans (Fl.round_eval binary32 (200 + (11258999 / 281474976710656)) 200 7 (-16) 13107200 (by norm_num [abs_of_nonneg, abs_of_nonpos]) (by norm_num [abs_of_nonneg, abs_of_nonpos]) (by norm_num [binary32]) (Or.inl (by norm_num [abs_lt])) (by norm_num) (by norm_num [binary32, abs_of_nonneg, abs_of_nonpos])))

  have hs : (exampleSim.lander.UpdatePosition exampleLibrary.sin exampleLibrary.cos).currentSpeed
      = ⟨Fl.fin 200000, Fl.fin 4⟩ := by
    rw [Lander.UpdatePosition_currentSpeed_off _ _ _ rfl]
    show (⟨Fl.ofInt INITIAL_HORIZONTAL_SPEED + Fl.fin 0, Fl.ofInt 0 + Fl.fin 4⟩ : Vector2f) = _
    rw [e2, e0, hx, hv]
  have hp : (exampleSim.lander.UpdatePosition exampleLibrary.sin exampleLibrary.cos).position
      = ⟨Fl.fin 400, Fl.fin 200⟩ := by
    show (⟨Fl.ofInt 400, Fl.ofInt 200 +
      (exampleSim.lander.UpdatePosition exampleLibrary.sin exampleLibrary.cos).currentSpeed.y *
        scrollFactor⟩ : Vector2f) = _
    rw [hs, e400, e200, Fl.scrollFactor_eq, hm, ha]
  have hr : (exampleSim.lander.UpdatePosition exampleLibrary.sin exampleLibrary.cos).rotation
      = Fl.fin 0 := e0
  have ht : (exampleSim.lander.UpdatePosition exampleLibrary.sin exampleLibrary.cos).thrustersOn
      = false := rfl
  cases hL : exampleSim.lander.UpdatePosition exampleLibrary.sin exampleLibrary.cos with
  | mk position rotation thrustersOn currentSpeed =>
    rw [hL] at hs hp hr ht
    simp only at hs hp hr ht
    rw [hs, hp, hr, ht]

/-- The lander of `hillSim` after one `UpdatePosition`. -/
lemma hillSim_lander :
    hillSim.lander.UpdatePosition exampleLibrary.sin exampleLibrary.cos =
      ⟨⟨Fl.fin 400, Fl.fin 200⟩, Fl.fin 0, false, ⟨Fl.fin 0, Fl.fin 4⟩⟩ := by
  have hx : (Fl.fin 0 + Fl.fin 0 : Fl) = Fl.fin 0 := by
    have := Fl.add_int 0 0 (by norm_num)
    simpa using this
  have hv : (Fl.fin 0 + Fl.fin 4 : Fl) = Fl.fin 4 := by
    have := Fl.add_int 0 4 (by norm_num)
    simpa using this
  have hm : (Fl.fin 4 * Fl.fin (11258999 / 1125899906842624) : Fl) = Fl.fin (11258999 / 281474976710656) :=
    ((Fl.fin_mul_fin 4 (11258999 / 1125899906842624)).trans (Fl.round_eval binary32 (4 * (11258999 / 1125899906842624)) (11258999 / 281474976710656) (-25) (-48) 11258999 (by norm_num [abs_of_nonneg, abs_of_nonpos]) (by norm_num [abs_of_nonneg, abs_of_nonpos]) (by norm_num [binary32]) (Or.inl (by norm_num [abs_lt])) (by norm_num) (by norm_num [binary32, abs_of_nonneg, abs_of_nonpos])))
  have ha : (Fl.fin 200 + Fl.fin (11258999 / 281474976710656) : Fl) = Fl.fin 200 :=
    ((Fl.fin_add_fin 200 (11258999 / 281474976710656)).trans (Fl.round_eval binary32 (200 + (11258999 / 281474976710656)) 200 7 (-16) 13107200 (by norm_num [abs_of_nonneg, abs_of_nonpos]) (by norm_num [abs_of_nonneg, abs_of_nonpos]) (by norm_num [binary32]) (Or.inl (by norm_num [abs_lt])) (by norm_num) (by norm_num [binary32, abs_of_nonneg, abs_of_nonpos])))

  have hs : (hillSim.lander.UpdatePosition exampleLibrary.sin exampleLibrary.cos).currentSpeed
      = ⟨Fl.fin 0, Fl.fin 4⟩ := by
    rw [Lander.UpdatePosition_currentSpeed_off _ _ _ rfl]
    show (⟨Fl.fin 0 + Fl.fin 0, Fl.fin 0 + Fl.fin 4⟩ : Vector2f) = _
    rw [hx, hv]
  have hp : (hillSim.lander.UpdatePosition exampleLibrary.sin exampleLibrary.cos).position
      = ⟨Fl.fin 400, Fl.fin 200⟩ := by
    show (⟨Fl.fin 400, Fl.fin 200 +
      (hillSim.lander.UpdatePosition exampleLibrary.sin exampleLibrary.cos).currentSpeed.y *
        scrollFactor⟩ : Vector2f) = _
    rw [hs, Fl.scrollFactor_eq, hm, ha]
  cases hL : hillSim.lander.UpdatePosition exampleLibrary.sin exampleLibrary.cos with
  | mk position rotation thrustersOn currentSpeed =>
    have hr : (hillSim.lander.UpdatePosition exampleLibrary.sin exampleLibrary.cos).rotation
        = Fl.fin 0 := rfl
    have ht : (hillSim.lander.UpdatePosition exampleLibrary.sin exampleLibrary.cos).thrustersOn
        = false := rfl
    rw [hL] at hs hp hr ht
    simp only at hs hp hr ht
    rw [hs, hp, hr, ht]

/-- Witness of C16 at `exampleSim`: the tick returns, the velocity is the one
after the physics update, and vertex 0 is scrolled by that velocity. -/
theorem tick_order_witness :
    ∃ fuel s', tick exampleLibrary fuel exampleSim = some s' ∧
      s'.lander.currentSpeed = ⟨Fl.fin 200000, Fl.fin 4⟩ ∧
      s'.terrain.vertices[0]? = some ⟨Fl.fin (-8589935 / 4294967296), Fl.fin 220⟩ := by
  obtain ⟨hord, hret⟩ := tick_order exampleLibrary exampleSim
  obtain ⟨fuel, s', hs'⟩ := hret ⟨800, rfl, by norm_num, by norm_num⟩
    ⟨⟨Fl.fin 1000, Fl.fin 220⟩, rfl, by rw [Fl.fin_le_fin]; norm_num⟩
    ⟨200000, by rw [exampleSim_lander], by norm_num [abs_of_nonneg]⟩
  obtain ⟨hl, -, hidx, -⟩ := hord fuel s' hs'
  have hsp : s'.lander.currentSpeed = ⟨Fl.fin 200000, Fl.fin 4⟩ := by
    rw [hl, exampleSim_lander]
  have h0 := hidx 0 ⟨Fl.fin 0, Fl.fin 220⟩ rfl
  rw [hsp] at h0
  simp only [scroll_main_first] at h0
  exact ⟨fuel, s', hs', hsp, h0⟩

/-- The box of the lander of `hillSim` after one `UpdatePosition`. -/
lemma hillSim_box :
    exampleLibrary.getGlobalBounds
      ⟨⟨Fl.fin 400, Fl.fin 200⟩, Fl.fin 0, false, ⟨Fl.fin 0, Fl.fin 4⟩⟩ =
      ⟨Fl.fin 380, Fl.fin 180, Fl.fin 40, Fl.fin 40⟩ := by
  have h1 : (Fl.fin 400 - Fl.fin 20 : Fl) = Fl.fin 380 := by
    have := Fl.sub_int 400 20 (by norm_num)
    simpa using this
  have h2 : (Fl.fin 200 - Fl.fin 20 : Fl) = Fl.fin 180 := by
    have := Fl.sub_int 200 20 (by norm_num)
    simpa using this
  show (⟨Fl.fin 400 - Fl.fin 20, Fl.fin 200 - Fl.fin 20, Fl.fin 40, Fl.fin 40⟩ : FloatRect) = _
  rw [h1, h2]

/-- The test `boxIntersects` on the box of `hillSim`, by its four edges. -/
lemma hillSim_boxIntersects (a b : Vector2f) :
    boxIntersects a b ⟨Fl.fin 380, Fl.fin 180, Fl.fin 40, Fl.fin 40⟩ =
      (LinesIntersect a.x a.y b.x b.y (Fl.fin 380) (Fl.fin 180) (Fl.fin 420) (Fl.fin 180) ||
        LinesIntersect a.x a.y b.x b.y (Fl.fin 420) (Fl.fin 180) (Fl.fin 420) (Fl.fin 220) ||
        LinesIntersect a.x a.y b.x b.y (Fl.fin 420) (Fl.fin 220) (Fl.fin 380) (Fl.fin 220) ||
        LinesIntersect a.x a.y b.x b.y (Fl.fin 380) (Fl.fin 220) (Fl.fin 380) (Fl.fin 180)) := by
  have h1 : (Fl.fin 380 + Fl.fin 40 : Fl) = Fl.fin 420 := by
    have := Fl.add_int 380 40 (by norm_num)
    simpa using this
  have h2 : (Fl.fin 180 + Fl.fin 40 : Fl) = Fl.fin 220 := by
    have := Fl.add_int 180 40 (by norm_num)
    simpa using this
  unfold boxIntersects
  simp only [h1, h2]

/-- Segment 0 of `hillSim` meets no edge of the box. -/
lemma hillSim_segment0 :
    boxIntersects ⟨Fl.fin 0, Fl.fin 300⟩ ⟨Fl.fin 390, Fl.fin 300⟩
      ⟨Fl.fin 380, Fl.fin 180, Fl.fin 40, Fl.fin 40⟩ = false := by
  have hb : ∀ (l : List ℤ), (∀ c ∈ l, c ∈ [0, 300, 390, 380, 180, 420, 220]) →
      ∀ c ∈ l, |c| ≤ 1024 := by
    intro l hl c hc
    have := hl c hc
    simp only [List.mem_cons, List.mem_singleton, List.not_mem_nil, or_false] at this
    rcases this with rfl | rfl | rfl | rfl | rfl | rfl | rfl <;> norm_num
  have t1 := LinesIntersect_int_zero 0 300 390 300 380 180 420 180
    (hb _ (by intro c hc; simp at hc ⊢; tauto)) (by norm_num [exactDenominator])
  have t2 : LinesIntersect (Fl.fin ((0 : ℤ) : ℚ)) (Fl.fin ((300 : ℤ) : ℚ))
      (Fl.fin ((390 : ℤ) : ℚ)) (Fl.fin ((300 : ℤ) : ℚ)) (Fl.fin ((420 : ℤ) : ℚ))
      (Fl.fin ((180 : ℤ) : ℚ)) (Fl.fin ((420 : ℤ) : ℚ)) (Fl.fin ((220 : ℤ) : ℚ)) = false := by
    rw [← Bool.not_eq_true, LinesIntersect_int_iff 0 300 390 300 420 180 420 220
      (hb _ (by intro c hc; simp at hc ⊢; tauto)) (by norm_num [exactDenominator]),
      sharePoint_iff _ _ _ _ _ _ _ _ (by norm_num [exactDenominator])]
    norm_num [exactDenominator]
  have t3 := LinesIntersect_int_zero 0 300 390 300 420 220 380 220
    (hb _ (by intro c hc; simp at hc ⊢; tauto)) (by norm_num [exactDenominator])
  have t4 : LinesIntersect (Fl.fin ((0 : ℤ) : ℚ)) (Fl.fin ((300 : ℤ) : ℚ))
      (Fl.fin ((390 : ℤ) : ℚ)) (Fl.fin ((300 : ℤ) : ℚ)) (Fl.fin ((380 : ℤ) : ℚ))
      (Fl.fin ((220 : ℤ) : ℚ)) (Fl.fin ((380 : ℤ) : ℚ)) (Fl.fin ((180 : ℤ) : ℚ)) = false := by
    rw [← Bool.not_eq_true, LinesIntersect_int_iff 0 300 390 300 380 220 380 180
      (hb _ (by intro c hc; simp at hc ⊢; tauto)) (by norm_num [exactDenominator]),
      sharePoint_iff _ _ _ _ _ _ _ _ (by norm_num [exactDenominator])]
    norm_num [exactDenominator]
  simp only [Int.cast_ofNat, Int.cast_zero] at t1 t2 t3 t4
  rw [hillSim_boxIntersects]
  simp only [t1, t2, t3, t4, Bool.or_self]

/-- Segment 1 of `hillSim` meets the bottom edge of the box. -/
lemma hillSim_segment1 :
    boxIntersects ⟨Fl.fin 390, Fl.fin 300⟩ ⟨Fl.fin 410, Fl.fin 210⟩
      ⟨Fl.fin 380, Fl.fin 180, Fl.fin 40, Fl.fin 40⟩ = true := by
  have hb : ∀ (l : List ℤ), (∀ c ∈ l, c ∈ [390, 300, 410, 210, 380, 180, 420, 220]) →
      ∀ c ∈ l, |c| ≤ 1024 := by
    intro l hl c hc
    have := hl c hc
    simp only [List.mem_cons, List.mem_singleton, List.not_mem_nil, or_false] at this
    rcases this with rfl | rfl | rfl | rfl | rfl | rfl | rfl | rfl <;> norm_num
  have t3 := (LinesIntersect_int_iff 390 300 410 210 420 220 380 220
    (hb _ (by intro c hc; simp at hc ⊢; tauto)) (by norm_num [exactDenominator])).mpr
    ⟨8 / 9, 11 / 36, by norm_num, by norm_num, by norm_num, by norm_num⟩
  simp only [Int.cast_ofNat] at t3
  rw [hillSim_boxIntersects]
  simp only [t3, Bool.or_true, Bool.true_or]

/-- Witness of C11: one tick of `hillSim` returns; segment 0 misses the box,
segment 1 meets its bottom edge, so the simulation stops at segment 1, and the
text is the one for Crashed (the heights 300 and 210 differ by more than
2). -/
theorem tick_first_colliding_segment_witness :
    ∃ fuel s', tick exampleLibrary fuel hillSim = some s' ∧
      s'.terrain.vertices[1]? = some ⟨Fl.fin 390, Fl.fin 300⟩ ∧
      s'.terrain.vertices[2]? = some ⟨Fl.fin 410, Fl.fin 210⟩ ∧
      s'.running = false ∧ s'.text = crashedText := by
  obtain ⟨fuel, s', hs'⟩ := tick_returns exampleLibrary hillSim
    ⟨800, rfl, by norm_num, by norm_num⟩
    ⟨⟨Fl.fin 1000, Fl.fin 210⟩, rfl, by rw [Fl.fin_le_fin]; norm_num⟩
    ⟨0, by rw [hillSim_lander], by norm_num⟩
  obtain ⟨first, rest, hU, -, hl, -, -⟩ := tick_some exampleLibrary fuel hillSim s' hs'
  rw [hillSim_lander] at hU hl
  have s0 : Terrain.scroll (Fl.fin 0) (Fl.fin 0) = Fl.fin 0 := by
    have := scroll_zero_int 0 (by norm_num)
    simpa using this
  have s390 : Terrain.scroll (Fl.fin 0) (Fl.fin 390) = Fl.fin 390 := by
    have := scroll_zero_int 390 (by norm_num)
    simpa using this
  have s410 : Terrain.scroll (Fl.fin 0) (Fl.fin 410) = Fl.fin 410 := by
    have := scroll_zero_int 410 (by norm_num)
    simpa using this
  have h0 := Terrain.Update_getElem? fuel _ _ _ hU 0 ⟨Fl.fin 0, Fl.fin 300⟩ rfl
  have h1 := Terrain.Update_getElem? fuel _ _ _ hU 1 ⟨Fl.fin 390, Fl.fin 300⟩ rfl
  have h2 := Terrain.Update_getElem? fuel _ _ _ hU 2 ⟨Fl.fin 410, Fl.fin 210⟩ rfl
  simp only [s0, s390, s410] at h0 h1 h2
  have hbox : exampleLibrary.getGlobalBounds s'.lander =
      ⟨Fl.fin 380, Fl.fin 180, Fl.fin 40, Fl.fin 40⟩ := by
    rw [hl, hillSim_box]
  obtain ⟨hr, ht⟩ := (tick_first_colliding_segment exampleLibrary fuel hillSim s' rfl hs').1
    1 _ _ h1 h2 (by rw [hbox]; exact hillSim_segment1) (by
      intro j hj a' b' ha' hb'
      have hj0 : j = 0 := by omega
      subst hj0
      rw [h0] at ha'
      rw [h1] at hb'
      simp only [Option.some.injEq] at ha' hb'
      subst ha'
      subst hb'
      rw [hbox]
      exact hillSim_segment0)
  refine ⟨fuel, s', hs', h1, h2, hr, ?_⟩
  rw [ht]
  have hc : Crashed ⟨Fl.fin 390, Fl.fin 300⟩ ⟨Fl.fin 410, Fl.fin 210⟩ s'.lander = true := by
    have e2 : Fl.ofInt 2 = Fl.fin 2 := by rw [Fl.ofInt_eq 2 (by norm_num)]; norm_num
    have hd : (Fl.fin 300 - Fl.fin 210 : Fl) = Fl.fin 90 := by
      have := Fl.sub_int 300 210 (by norm_num)
      simpa using this
    unfold Crashed
    rw [if_pos]
    simp only [hd, e2]
    show Fl.fin 2 < Fl.fin |(90 : ℚ)|
    rw [Fl.fin_lt_fin]
    norm_num [abs_of_nonneg]
  rw [hc]
  rfl

/-! ## The booster force -/

namespace Fl

lemma pi32_eq : pi32 = fin (823549 / 262144) :=
  (Fl.round_eval binary32 (314159 / 100000) (823549 / 262144) 1 (-22) 13176784 (by norm_num [abs_of_nonneg, abs_of_nonpos]) (by norm_num [abs_of_nonneg, abs_of_nonpos]) (by norm_num [binary32]) (Or.inl (by norm_num [abs_lt])) (by norm_num) (by norm_num [binary32, abs_of_nonneg, abs_of_nonpos]))

end Fl

namespace Lander

/-- The angle in radians at rotation 0 is 0. -/
lemma rotationRad_zero (l : Lander) (h : l.rotation = Fl.fin 0) : l.rotationRad = Fl.fin 0 := by
  have e2 : Fl.ofInt 2 = Fl.fin 2 := by rw [Fl.ofInt_eq 2 (by norm_num)]; norm_num
  have e360 : Fl.ofInt 360 = Fl.fin 360 := by rw [Fl.ofInt_eq 360 (by norm_num)]; norm_num
  obtain ⟨r, hr, -⟩ := Fl.round32_err (2 * (823549 / 262144)) 3 (by norm_num) (by norm_num)
    (by norm_num [abs_of_nonneg])
  unfold rotationRad
  rw [h, e2, e360, Fl.pi32_eq, Fl.fin_mul_fin, hr, Fl.fin_mul_fin, zero_mul,
    Fl.round_zero_of _ _ rfl (two_zpow_pos _), Fl.fin_div_fin _ _ (by norm_num), zero_div,
    Fl.round_zero_of _ _ rfl (two_zpow_pos _)]

/-- The booster force with the thrusters on, for finite values of `sin` and
`cos` of magnitude at most 1: each component is within `2 ^ (-21)` of the
exact product, and the square of the magnitude is within `2 ^ (-15)` of
`100 * (s ^ 2 + c ^ 2)`. -/
lemma boosterForce_near (sin cos : Fl → Fl) (l : Lander) (h : l.thrustersOn = true) (s c : ℚ)
    (hs : sin l.rotationRad = Fl.fin s) (hc : cos l.rotationRad = Fl.fin c)
    (hs1 : |s| ≤ 1) (hc1 : |c| ≤ 1) :
    ∃ bx bY : ℚ, boosterForce sin cos l = ⟨Fl.fin bx, Fl.fin bY⟩ ∧
      |bx - 10 * s| ≤ 1 / 2097152 ∧ |bY + 10 * c| ≤ 1 / 2097152 ∧
      |bx ^ 2 + bY ^ 2 - 100 * (s ^ 2 + c ^ 2)| ≤ 1 / 32768 := by
  have e10 : Fl.ofInt THRUSTER_FORCE = Fl.fin 10 := by
    rw [Fl.ofInt_eq _ (by norm_num [THRUSTER_FORCE])]; norm_num [THRUSTER_FORCE]
  have em10 : Fl.ofInt (-THRUSTER_FORCE) = Fl.fin (-10) := by
    rw [Fl.ofInt_eq _ (by norm_num [THRUSTER_FORCE])]; norm_num [THRUSTER_FORCE]
  have hs' := abs_le.mp hs1
  have hc' := abs_le.mp hc1
  obtain ⟨bx, hbx, hex⟩ := Fl.round32_err (10 * s) 4 (by norm_num) (by norm_num)
    (by rw [abs_lt]; constructor <;> norm_num <;> linarith only [hs'.1, hs'.2])
  obtain ⟨bY, hbY, hey⟩ := Fl.round32_err (-10 * c) 4 (by norm_num) (by norm_num)
    (by rw [abs_lt]; constructor <;> norm_num <;> linarith only [hc'.1, hc'.2])
  have hpow : (2 : ℚ) ^ ((4 : ℤ) - 25) = 1 / 2097152 := by norm_num
  rw [hpow] at hex hey
  have hey' : |bY + 10 * c| ≤ 1 / 2097152 := by
    rw [show bY + 10 * c = bY - -10 * c by ring]
    exact hey
  refine ⟨bx, bY, ?_, hex, hey', ?_⟩
  · unfold boosterForce
    rw [if_pos h, hs, hc, e10, em10, Fl.fin_mul_fin, Fl.fin_mul_fin, hbx, hbY]
  · have hx := abs_le.mp hex
    have hy := abs_le.mp hey'
    have e : bx ^ 2 + bY ^ 2 - 100 * (s ^ 2 + c ^ 2) =
        (bx - 10 * s) * (bx - 10 * s + 20 * s) + (bY + 10 * c) * (bY + 10 * c - 20 * c) := by
      ring
    have b1 : |(bx - 10 * s) * (bx - 10 * s + 20 * s)| ≤ 1 / 2097152 * 21 := by
      rw [abs_mul]
      apply mul_le_mul hex _ (abs_nonneg _) (by norm_num)
      rw [abs_le]
      constructor <;> linarith only [hx.1, hx.2, hs'.1, hs'.2]
    have b2 : |(bY + 10 * c) * (bY + 10 * c - 20 * c)| ≤ 1 / 2097152 * 21 := by
      rw [abs_mul]
      apply mul_le_mul hey' _ (abs_nonneg _) (by norm_num)
      rw [abs_le]
      constructor <;> linarith only [hy.1, hy.2, hc'.1, hc'.2]
    rw [e]
    have := abs_add ((bx - 10 * s) * (bx - 10 * s + 20 * s))
      ((bY + 10 * c) * (bY + 10 * c - 20 * c))
    have h3 : (1 : ℚ) / 2097152 * 21 + 1 / 2097152 * 21 ≤ 1 / 32768 := by norm_num
    linarith only [this, b1, b2, h3]

end Lander

/-- C10, as stated, fails: the booster force is made of two `float` products,
and the velocity change of `float` sums.  At a rotation of 90 degrees the angle
is the `float` `1.5707950592...`, a library that is correctly rounded there
gives `sin = 1` and `cos = 1.2675908...e-6`, and the booster force is
`(10, -1.26759087...e-5)`, whose magnitude is not 10.  The velocity after this
tick, from (0, 0), is `(10, 3.9999873638...)`; after a further tick with the
thrusters off its vertical part is `7.9999876022...`, not the old one plus
4. -/
theorem Lander_boosterForce_counterexample :
    Lander.rotationRad ⟨⟨Fl.fin 400, Fl.fin 200⟩, Fl.fin 90, true, ⟨Fl.fin 0, Fl.fin 0⟩⟩ =
      quarterTurnRad ∧
    Lander.boosterForce quarterTurnLibrary.sin quarterTurnLibrary.cos
      ⟨⟨Fl.fin 400, Fl.fin 200⟩, Fl.fin 90, true, ⟨Fl.fin 0, Fl.fin 0⟩⟩ =
        ⟨Fl.fin 10, Fl.fin (-13937309 / 1099511627776)⟩ ∧
    (10 : ℚ) ^ 2 + (-13937309 / 1099511627776) ^ 2 ≠ 10 ^ 2 ∧
    (Lander.UpdatePosition quarterTurnLibrary.sin quarterTurnLibrary.cos
      ⟨⟨Fl.fin 400, Fl.fin 200⟩, Fl.fin 90, true, ⟨Fl.fin 0, Fl.fin 0⟩⟩).currentSpeed =
        ⟨Fl.fin 10, Fl.fin (16777163 / 4194304)⟩ ∧
    (Lander.UpdatePosition quarterTurnLibrary.sin quarterTurnLibrary.cos
      ⟨⟨Fl.fin 400, Fl.fin 200⟩, Fl.fin 90, false,
        ⟨Fl.fin 10, Fl.fin (16777163 / 4194304)⟩⟩).currentSpeed =
        ⟨Fl.fin 10, Fl.fin (8388595 / 1048576)⟩ ∧
    (8388595 / 1048576 : ℚ) ≠ 16777163 / 4194304 + 4 := by
  have e0 : Fl.ofInt 0 = Fl.fin 0 := by rw [Fl.ofInt_eq 0 (by norm_num)]; norm_num
  have e2 : Fl.ofInt 2 = Fl.fin 2 := by rw [Fl.ofInt_eq 2 (by norm_num)]; norm_num
  have e4 : Fl.ofInt GRAVITY = Fl.fin 4 := by
    rw [Fl.ofInt_eq _ (by norm_num [GRAVITY])]; norm_num [GRAVITY]
  have e360 : Fl.ofInt 360 = Fl.fin 360 := by rw [Fl.ofInt_eq 360 (by norm_num)]; norm_num
  have e10 : Fl.ofInt THRUSTER_FORCE = Fl.fin 10 := by
    rw [Fl.ofInt_eq _ (by norm_num [THRUSTER_FORCE])]; norm_num [THRUSTER_FORCE]
  have em10 : Fl.ofInt (-THRUSTER_FORCE) = Fl.fin (-10) := by
    rw [Fl.ofInt_eq _ (by norm_num [THRUSTER_FORCE])]; norm_num [THRUSTER_FORCE]
  have hr1 : (Fl.fin 2 * Fl.fin (823549 / 262144) : Fl) = Fl.fin (823549 / 131072) :=
    ((Fl.fin_mul_fin 2 (823549 / 262144)).trans (Fl.round_eval binary32 (2 * (823549 / 262144)) (823549 / 131072) 2 (-21) 13176784 (by norm_num [abs_of_nonneg, abs_of_nonpos]) (by norm_num [abs_of_nonneg, abs_of_nonpos]) (by norm_num [binary32]) (Or.inl (by norm_num [abs_lt])) (by norm_num) (by norm_num [binary32, abs_of_nonneg, abs_of_nonpos])))
  have hr2 : (Fl.fin 90 * Fl.fin (823549 / 131072) : Fl) = Fl.fin (4632463 / 8192) :=
    ((Fl.fin_mul_fin 90 (823549 / 131072)).trans (Fl.round_eval binary32 (90 * (823549 / 131072)) (4632463 / 8192) 9 (-14) 9264926 (by norm_num [abs_of_nonneg, abs_of_nonpos]) (by norm_num [abs_of_nonneg, abs_of_nonpos]) (by norm_num [binary32]) (Or.inl (by norm_num [abs_lt])) (by norm_num) (by norm_num [binary32, abs_of_nonneg, abs_of_nonpos])))
  have hr3 : (Fl.fin (4632463 / 8192) / Fl.fin 360 : Fl) = Fl.fin (823549 / 524288) :=
    ((Fl.fin_div_fin (4632463 / 8192) 360 (by norm_num)).trans (Fl.round_eval binary32 ((4632463 / 8192) / 360) (823549 / 524288) 0 (-23) 13176784 (by norm_num [abs_of_nonneg, abs_of_nonpos]) (by norm_num [abs_of_nonneg, abs_of_nonpos]) (by norm_num [binary32]) (Or.inl (by norm_num [abs_lt])) (by norm_num) (by norm_num [binary32, abs_of_nonneg, abs_of_nonpos])))
  have hb2 : (Fl.fin (-10) * Fl.fin (11149847 / 8796093022208) : Fl) = Fl.fin (-13937309 / 1099511627776) :=
    ((Fl.fin_mul_fin (-10) (11149847 / 8796093022208)).trans (Fl.round_eval binary32 ((-10) * (11149847 / 8796093022208)) (-13937309 / 1099511627776) (-17) (-40) (-13937309) (by norm_num [abs_of_nonneg, abs_of_nonpos]) (by norm_num [abs_of_nonneg, abs_of_nonpos]) (by norm_num [binary32]) (Or.inl (by norm_num [abs_lt])) (by norm_num) (by norm_num [binary32, abs_of_nonneg, abs_of_nonpos])))
  have hb3 : (Fl.fin 4 + Fl.fin (-13937309 / 1099511627776) : Fl) = Fl.fin (16777163 / 4194304) :=
    ((Fl.fin_add_fin 4 (-13937309 / 1099511627776)).trans (Fl.round_eval binary32 (4 + (-13937309 / 1099511627776)) (16777163 / 4194304) 1 (-22) 16777163 (by norm_num [abs_of_nonneg, abs_of_nonpos]) (by norm_num [abs_of_nonneg, abs_of_nonpos]) (by norm_num [binary32]) (Or.inl (by norm_num [abs_lt])) (by norm_num) (by norm_num [binary32, abs_of_nonneg, abs_of_nonpos])))
  have hb4 : (Fl.fin 0 + Fl.fin (16777163 / 4194304) : Fl) = Fl.fin (16777163 / 4194304) :=
    ((Fl.fin_add_fin 0 (16777163 / 4194304)).trans (Fl.round_eval binary32 (0 + (16777163 / 4194304)) (16777163 / 4194304) 1 (-22) 16777163 (by norm_num [abs_of_nonneg, abs_of_nonpos]) (by norm_num [abs_of_nonneg, abs_of_nonpos]) (by norm_num [binary32]) (Or.inl (by norm_num [abs_lt])) (by norm_num) (by norm_num [binary32, abs_of_nonneg, abs_of_nonpos])))
  have hb5 : (Fl.fin (16777163 / 4194304) + Fl.fin 4 : Fl) = Fl.fin (8388595 / 1048576) :=
    ((Fl.fin_add_fin (16777163 / 4194304) 4).trans (Fl.round_eval binary32 ((16777163 / 4194304) + 4) (8388595 / 1048576) 2 (-21) 16777190 (by norm_num [abs_of_nonneg, abs_of_nonpos]) (by norm_num [abs_of_nonneg, abs_of_nonpos]) (by norm_num [binary32]) (Or.inr ⟨by norm_num, by norm_num [abs_of_nonneg, abs_of_nonpos]⟩) (by norm_num) (by norm_num [binary32, abs_of_nonneg, abs_of_nonpos])))

  have hb1 : (Fl.fin 10 * Fl.fin 1 : Fl) = Fl.fin 10 := by
    have := Fl.mul_int 10 1 (by norm_num)
    simpa using this
  have h010 : (Fl.fin 0 + Fl.fin 10 : Fl) = Fl.fin 10 := by
    have := Fl.add_int 0 10 (by norm_num)
    simpa using this
  have h100 : (Fl.fin 10 + Fl.fin 0 : Fl) = Fl.fin 10 := by
    have := Fl.add_int 10 0 (by norm_num)
    simpa using this
  have hrad : Lander.rotationRad
      ⟨⟨Fl.fin 400, Fl.fin 200⟩, Fl.fin 90, true, ⟨Fl.fin 0, Fl.fin 0⟩⟩ = quarterTurnRad := by
    show Fl.fin 90 * (Fl.ofInt 2 * pi32) / Fl.ofInt 360 = Fl.fin (823549 / 524288)
    rw [e2, e360, Fl.pi32_eq, hr1, hr2, hr3]
  have hbooster : Lander.boosterForce quarterTurnLibrary.sin quarterTurnLibrary.cos
      ⟨⟨Fl.fin 400, Fl.fin 200⟩, Fl.fin 90, true, ⟨Fl.fin 0, Fl.fin 0⟩⟩ =
        ⟨Fl.fin 10, Fl.fin (-13937309 / 1099511627776)⟩ := by
    unfold Lander.boosterForce
    rw [if_pos rfl, hrad]
    show (⟨Fl.ofInt THRUSTER_FORCE * (if quarterTurnRad = quarterTurnRad then Fl.fin 1
        else Fl.fin 0),
      Fl.ofInt (-THRUSTER_FORCE) * (if quarterTurnRad = quarterTurnRad
        then Fl.fin (11149847 / 8796093022208) else Fl.fin 1)⟩ : Vector2f) = _
    rw [if_pos rfl, if_pos rfl, e10, em10, hb1, hb2]
  refine ⟨hrad, hbooster, by norm_num, ?_, ?_, by norm_num⟩
  · rw [Lander.UpdatePosition_currentSpeed, hbooster]
    show (⟨Fl.fin 0 + (Fl.ofInt 0 + Fl.fin 10),
      Fl.fin 0 + (Fl.ofInt GRAVITY + Fl.fin (-13937309 / 1099511627776))⟩ : Vector2f) = _
    rw [e0, e4, h010, h010, hb3, hb4]
  · rw [Lander.UpdatePosition_currentSpeed_off _ _ _ rfl]
    show (⟨Fl.fin 10 + Fl.fin 0, Fl.fin (16777163 / 4194304) + Fl.fin 4⟩ : Vector2f) = _
    rw [h100, hb5]

/-- C10, amended: the booster force is the zero vector when the thrusters are
off; when they are on it is the pair of `float` products
`(THRUSTER_FORCE * sin(r), -THRUSTER_FORCE * cos(r))` with `r` the `float`
`rotationRad`, each within `2 ^ (-21)` of the exact product and with a squared
magnitude within `2 ^ (-15)` of `100 * (s ^ 2 + c ^ 2)`, for values `s`, `c` of
`sin` and `cos` that are finite and at most 1 in magnitude; at rotation 0 it
is exactly `(0, -THRUSTER_FORCE)` when `sin(0) = 0` and `cos(0) = 1`.  The
velocity after one tick is the `float` sum of the old velocity and the `float`
sum of gravity `(0, GRAVITY)` and the booster force. -/
theorem Lander_boosterForce (sin cos : Fl → Fl) (l : Lander) :
    (l.thrustersOn = false → Lander.boosterForce sin cos l = ⟨Fl.fin 0, Fl.fin 0⟩) ∧
    (l.thrustersOn = true → Lander.boosterForce sin cos l =
      ⟨Fl.fin 10 * sin l.rotationRad, Fl.fin (-10) * cos l.rotationRad⟩) ∧
    (l.thrustersOn = true → ∀ s c : ℚ, sin l.rotationRad = Fl.fin s →
      cos l.rotationRad = Fl.fin c → |s| ≤ 1 → |c| ≤ 1 →
      ∃ bx bY : ℚ, Lander.boosterForce sin cos l = ⟨Fl.fin bx, Fl.fin bY⟩ ∧
        |bx - 10 * s| ≤ 1 / 2097152 ∧ |bY + 10 * c| ≤ 1 / 2097152 ∧
        |bx ^ 2 + bY ^ 2 - 100 * (s ^ 2 + c ^ 2)| ≤ 1 / 32768) ∧
    (l.thrustersOn = true → l.rotation = Fl.fin 0 → sin (Fl.fin 0) = Fl.fin 0 →
      cos (Fl.fin 0) = Fl.fin 1 →
      Lander.boosterForce sin cos l = ⟨Fl.fin 0, Fl.fin (-10)⟩) ∧
    (Lander.UpdatePosition sin cos l).currentSpeed =
      l.currentSpeed.add (Lander.gravityForce.add (Lander.boosterForce sin cos l)) ∧
    Lander.gravityForce = ⟨Fl.fin 0, Fl.fin 4⟩ ∧ THRUSTER_FORCE = 10 ∧ GRAVITY = 4 := by
  have e0 : Fl.ofInt 0 = Fl.fin 0 := by rw [Fl.ofInt_eq 0 (by norm_num)]; norm_num
  have e4 : Fl.ofInt GRAVITY = Fl.fin 4 := by
    rw [Fl.ofInt_eq _ (by norm_num [GRAVITY])]; norm_num [GRAVITY]
  have e10 : Fl.ofInt THRUSTER_FORCE = Fl.fin 10 := by
    rw [Fl.ofInt_eq _ (by norm_num [THRUSTER_FORCE])]; norm_num [THRUSTER_FORCE]
  have em10 : Fl.ofInt (-THRUSTER_FORCE) = Fl.fin (-10) := by
    rw [Fl.ofInt_eq _ (by norm_num [THRUSTER_FORCE])]; norm_num [THRUSTER_FORCE]
  refine ⟨?_, ?_, ?_, ?_, rfl, ?_, rfl, rfl⟩
  · intro h
    rw [Lander.boosterForce_off sin cos l h, e0]
  · intro h
    unfold Lander.boosterForce
    rw [if_pos h, e10, em10]
  · intro h s c hs hc hs1 hc1
    exact Lander.boosterForce_near sin cos l h s c hs hc hs1 hc1
  · intro h hrot hs hc
    unfold Lander.boosterForce
    rw [if_pos h, Lander.rotationRad_zero l hrot, hs, hc, e10, em10]
    have h1 : (Fl.fin 10 * Fl.fin 0 : Fl) = Fl.fin 0 := by
      have := Fl.mul_int 10 0 (by norm_num)
      simpa using this
    have h2 : (Fl.fin (-10) * Fl.fin 1 : Fl) = Fl.fin (-10) := by
      have := Fl.mul_int (-10) 1 (by norm_num)
      simpa using this
    rw [h1, h2]
  · show (⟨Fl.ofInt 0, Fl.ofInt GRAVITY⟩ : Vector2f) = _
    rw [e0, e4]

/-- Witness of C10 (amended): with the thrusters on at rotation 0 and the
library of the examples (`sin = 0`, `cos = 1`) the booster force is
`(0, -10)`. -/
theorem Lander_boosterForce_witness :
    Lander.boosterForce exampleLibrary.sin exampleLibrary.cos
      ⟨⟨Fl.fin 400, Fl.fin 200⟩, Fl.fin 0, true, ⟨Fl.fin 200000, Fl.fin 0⟩⟩ =
      ⟨Fl.fin 0, Fl.fin (-10)⟩ :=
  (Lander_boosterForce exampleLibrary.sin exampleLibrary.cos
    ⟨⟨Fl.fin 400, Fl.fin 200⟩, Fl.fin 0, true, ⟨Fl.fin 200000, Fl.fin 0⟩⟩).2.2.2.1
    rfl rfl rfl rfl

end LunarLander
